import Mathlib

/-!
# Minecraft-Project-Creator: serialization formatters and content generators

A shallow embedding of `src/generators/dataGenerator.js`,
`src/generators/gradleGenerator.js`, `src/generators/javaGenerator.js`,
`src/generators/folderGenerator.js`, `src/generators/projectZipGenerator.js`,
`src/generators/licenseGenerator.js`, `src/helpers/versionHelper.js` and
`src/helpers/fetchHelper.js`, followed by the properties established about them.

Conventions of the embedding.

* A JavaScript value is a `JsValue`. An object is the list of its own
  properties in the order in which `Object.entries` enumerates them, which is
  not the order of their creation when a key is an array index:
  `ownPropertyOrder` computes the one from the other.
* A number `num n` stands for the integer `n` as long as it is a safe integer,
  of absolute value below 2^53: for those `ToString` is the decimal expansion.
  Other numbers are not modelled (`JsValue.safe` tells the values without
  them). Strings are sequences of characters of the Basic Multilingual Plane,
  so that a character is one UTF-16 code unit.
* An `async` function returns a `Promise`: either resolved with a value
  (`Except.ok`) or rejected with a thrown `Error` (`Except.error`).
* The archive library JSZip is modelled by the table `files` of an archive and
  by its methods `folder`, `file` and `generateAsync`. The file system is a
  parameter: the outcome of writing a buffer to a file of the working directory.
* The network is a parameter: a function `fetch` from a URL to the response
  received, or to the rejection of the request. The current year is a parameter
  as well, and the module variable `cachedLicenses` is passed explicitly.
-/

namespace ProjectCreator

/-! ## JavaScript values -/

/-- The JavaScript values a StructuredDocument is made of: strings, booleans,
numbers, arrays and plain objects, together with function values (which only
arise as inherited properties of `Object.prototype`). A number `num n` is the
safe integer `n` (of absolute value below 2^53). The entries of an object are
its own properties as `Object.entries` enumerates them. -/
inductive JsValue where
  | str (s : String)
  | bool (b : Bool)
  | num (n : Int)
  | fn (src : String)
  | arr (items : List JsValue)
  | obj (entries : List (String × JsValue))

/-- A thrown `new Error(message)`. -/
structure JsError where
  message : String
deriving DecidableEq, Repr

/-- The outcome of an `async` function: resolved or rejected. -/
abbrev Promise (α : Type) := Except JsError α

/-- The characters removed by `String.prototype.trim`: the ECMAScript
`WhiteSpace` and `LineTerminator` code points. -/
def isJsWhitespace (c : Char) : Bool :=
  c.toNat = 0x09 || c.toNat = 0x0A || c.toNat = 0x0B || c.toNat = 0x0C || c.toNat = 0x0D ||
  c.toNat = 0x20 || c.toNat = 0xA0 || c.toNat = 0x1680 ||
  (0x2000 ≤ c.toNat && c.toNat ≤ 0x200A) ||
  c.toNat = 0x2028 || c.toNat = 0x2029 || c.toNat = 0x202F || c.toNat = 0x205F ||
  c.toNat = 0x3000 || c.toNat = 0xFEFF

/-- The characters of a trimmed string: leading, then trailing whitespace dropped. -/
def trimChars (cs : List Char) : List Char :=
  ((cs.dropWhile isJsWhitespace).reverse.dropWhile isJsWhitespace).reverse

/-- The method `String.prototype.trim`. -/
def jsTrim (s : String) : String := ⟨trimChars s.data⟩

/-- Truthiness of a string: every string but the empty one. -/
def truthy (s : String) : Bool := s ≠ ""

mutual
/-- The abstract operation `ToString`, as applied by template literals and by
`Array.prototype.join`. The text of a number is its decimal expansion, which is
what `Number::toString` gives for a safe integer. -/
def jsToString : JsValue → String
  | .str s => s
  | .bool b => if b then "true" else "false"
  | .num n => toString n
  | .fn src => src
  | .arr items => joinComma items
  | .obj _ => "[object Object]"
/-- The default `Array.prototype.join`, with separator `,`. -/
def joinComma : List JsValue → String
  | [] => ""
  | [v] => jsToString v
  | v :: rest => jsToString v ++ "," ++ joinComma rest
end

/-- The test `typeof v === "object"` (no `null` among the values modelled). -/
def isObjectType : JsValue → Bool
  | .arr _ => true
  | .obj _ => true
  | _ => false

/-! ## `dataGenerator.js`: the config-language serializer -/

/-- The inner function `formatValue` of `buildTomlString`
(dataGenerator.js, lines 80-84). -/
def formatValue : JsValue → JsValue
  | .str value => .str ("\"" ++ value ++ "\"")
  | .bool value => .str (if value then "true" else "false")
  | value => value

/-- Line 59: `prefix ? prefix.key : key`. -/
def tomlKeyOf (pfx key : String) : String :=
  if truthy pfx then pfx ++ "." ++ key else key

/-- Line 62: `value.length > 0 && typeof value[0] === "object"`. -/
def isTableArray : List JsValue → Bool
  | first :: _ => isObjectType first
  | [] => false

/-- Line 67: the inline array line added for an array that is not a table array. -/
def inlineArrayLine (tomlKey : String) (value : List JsValue) : String :=
  tomlKey ++ " = [" ++ ", ".intercalate (value.map fun v => jsToString (formatValue v)) ++ "]\n"

/-- Line 74: the line added for a value that is neither an array nor an object. -/
def scalarLine (tomlKey : String) (value : JsValue) : String :=
  tomlKey ++ " = " ++ jsToString (formatValue value) ++ "\n"

/-- The loop of `serialize` over the entries of a string: `Object.entries` of a
string enumerates its characters under their indices, each a one-character
string, which takes the scalar branch. -/
def serializeChars : List Char → Nat → String → String → String
  | [], _, _, result => result
  | c :: rest, i, pfx, result =>
      serializeChars rest (i + 1) pfx
        (result ++ scalarLine (tomlKeyOf pfx (toString i)) (.str (String.singleton c)))

mutual
/-- The inner function `serialize(obj, prefix)` of `buildTomlString`
(dataGenerator.js, lines 55-78). The loop over `Object.entries(obj)` is
`serializeEntries` for an object, `serializeIndexed` for an array (whose entries
are its elements under their indices) and `serializeChars` for a string; a
number, boolean or function has no entries. -/
def serialize : JsValue → String → String
  | .obj entries, pfx => jsTrim (serializeEntries entries pfx "") ++ "\n"
  | .arr items, pfx => jsTrim (serializeIndexed items 0 pfx "") ++ "\n"
  | .str s, pfx => jsTrim (serializeChars s.data 0 pfx "") ++ "\n"
  | _, _ => jsTrim "" ++ "\n"
/-- The `for` loop of `serialize` (lines 58-76) over the entries of an object,
threading the accumulator `result`. The text of the nested call
`serialize(value, "")` is bound before the case split on `value`. -/
def serializeEntries : List (String × JsValue) → String → String → String
  | [], _, result => result
  | (key, value) :: rest, pfx, result =>
      let tomlKey := tomlKeyOf pfx key
      let nested := serialize value ""
      serializeEntries rest pfx
        (match value with
         | .arr items =>
            if isTableArray items then serializeItems items tomlKey result
            else result ++ inlineArrayLine tomlKey items
         | .obj entries =>
            if entries.length > 0 then result ++ ("\n[" ++ tomlKey ++ "]\n" ++ nested)
            else result
         | _ => result ++ scalarLine tomlKey value)
/-- The same loop over the entries of an array: the keys are the indices. -/
def serializeIndexed : List JsValue → Nat → String → String → String
  | [], _, _, result => result
  | value :: rest, i, pfx, result =>
      let tomlKey := tomlKeyOf pfx (toString i)
      let nested := serialize value ""
      serializeIndexed rest (i + 1) pfx
        (match value with
         | .arr items =>
            if isTableArray items then serializeItems items tomlKey result
            else result ++ inlineArrayLine tomlKey items
         | .obj entries =>
            if entries.length > 0 then result ++ ("\n[" ++ tomlKey ++ "]\n" ++ nested)
            else result
         | _ => result ++ scalarLine tomlKey value)
/-- Lines 63-65: `value.forEach(item => result += "[[tomlKey]]\n" + serialize(item, "") + "\n")`. -/
def serializeItems : List JsValue → String → String → String
  | [], _, result => result
  | item :: rest, tomlKey, result =>
      serializeItems rest tomlKey (result ++ ("[[" ++ tomlKey ++ "]]\n" ++ serialize item "" ++ "\n"))
end

/-- The function `buildTomlString(data)` (dataGenerator.js, lines 54-87):
`serialize(data)` with the default prefix `""`. -/
def buildTomlString (data : JsValue) : Promise String :=
  .ok (serialize data "")


/-! ## `JSON.stringify` -/

/-- One character of `QuoteJSONString`: the double quote, the backslash and the
control characters are escaped, every other character stands for itself. -/
def quoteJSONChar (c : Char) : String :=
  if c = Char.ofNat 34 then "\\\""
  else if c = Char.ofNat 92 then "\\\\"
  else if c.toNat = 8 then "\\b"
  else if c.toNat = 12 then "\\f"
  else if c.toNat = 10 then "\\n"
  else if c.toNat = 13 then "\\r"
  else if c.toNat = 9 then "\\t"
  else if c.toNat < 0x20 then
    "\\u00" ++ String.mk [Nat.digitChar (c.toNat / 16), Nat.digitChar (c.toNat % 16)]
  else String.singleton c

/-- The abstract operation `QuoteJSONString`. -/
def quoteJSONString (s : String) : String :=
  "\"" ++ String.join (s.data.map quoteJSONChar) ++ "\""

/-- The closing steps of `SerializeJSONObject` and `SerializeJSONArray`: the
members between the brackets, one per line at the new indentation when there is
a gap, and just the two brackets when there are no members. -/
def wrapJSON (opener closer : String) (members : List String) (gap stepback : String) : String :=
  if members.isEmpty then opener ++ closer
  else if gap = "" then opener ++ ",".intercalate members ++ closer
  else
    opener ++ "\n" ++ (stepback ++ gap) ++
      (",\n" ++ (stepback ++ gap)).intercalate members ++ "\n" ++ stepback ++ closer

mutual
/-- The abstract operation `SerializeJSONProperty` on a value, at the current
indentation: `none` stands for `undefined` (a function). -/
def serializeJSONProperty : JsValue → String → String → Option String
  | .str s, _, _ => some (quoteJSONString s)
  | .bool b, _, _ => some (if b then "true" else "false")
  | .num n, _, _ => some (toString n)
  | .fn _, _, _ => none
  | .arr items, gap, indent =>
      some (wrapJSON "[" "]" (serializeJSONElements items gap (indent ++ gap)) gap indent)
  | .obj entries, gap, indent =>
      some (wrapJSON "\x7b" "\x7d" (serializeJSONMembers entries gap (indent ++ gap)) gap indent)
/-- The members of `SerializeJSONObject`: a property whose value serializes to
`undefined` is left out. -/
def serializeJSONMembers : List (String × JsValue) → String → String → List String
  | [], _, _ => []
  | (key, value) :: rest, gap, indent =>
      match serializeJSONProperty value gap indent with
      | some strP =>
          (quoteJSONString key ++ ":" ++ (if gap = "" then "" else " ") ++ strP) ::
            serializeJSONMembers rest gap indent
      | none => serializeJSONMembers rest gap indent
/-- The elements of `SerializeJSONArray`: an element that serializes to
`undefined` is written `null`. -/
def serializeJSONElements : List JsValue → String → String → List String
  | [], _, _ => []
  | value :: rest, gap, indent =>
      (match serializeJSONProperty value gap indent with
       | some strP => strP
       | none => "null") :: serializeJSONElements rest gap indent
end

/-- The call `JSON.stringify(data, null, 2)` on an object `data` with the given
own properties: `SerializeJSONObject` with a gap of two spaces. -/
def jsonStringifyObject (data : List (String × JsValue)) : String :=
  wrapJSON "\x7b" "\x7d" (serializeJSONMembers data "  " ("" ++ "  ")) "  " ""

/-! ## Property access -/

/-- The value of a property inherited from `Object.prototype` by an object
literal: the inherited methods are functions, and `__proto__` yields
`Object.prototype` itself, an object without enumerable properties. -/
def objectPrototypeGet (name : String) : Option JsValue :=
  if name = "constructor" then some (.fn "function Object() \x7b [native code] \x7d")
  else if name ∈ ["__defineGetter__", "__defineSetter__", "hasOwnProperty",
      "__lookupGetter__", "__lookupSetter__", "isPrototypeOf", "propertyIsEnumerable",
      "toString", "valueOf", "toLocaleString"] then
    some (.fn ("function " ++ name ++ "() \x7b [native code] \x7d"))
  else if name = "__proto__" then some (.obj [])
  else none

/-- The property access `object[name]` on an object literal with the given own
properties: an own property, else a property inherited from `Object.prototype`,
else `undefined` (`none`). -/
def getProperty (own : List (String × JsValue)) (name : String) : Option JsValue :=
  match own.lookup name with
  | some v => some v
  | none => objectPrototypeGet name

/-- Truthiness of a value. -/
def jsTruthy : JsValue → Bool
  | .str s => truthy s
  | .bool b => b
  | .num n => n ≠ 0
  | _ => true

/-- The expression `x || d`. -/
def jsOr (x : Option JsValue) (d : JsValue) : JsValue :=
  match x with
  | some v => if jsTruthy v then v else d
  | none => d

/-! ## Property order -/

/-- The array index a property key stands for, if it is one: the key is the
canonical decimal text of an integer from 0 to 2^32 - 2 (decimal digits, without
a leading zero unless the key is `0`). -/
def arrayIndex (key : String) : Option Nat :=
  match key.data with
  | [] => none
  | c :: rest =>
    if (c :: rest).all (fun d => decide (48 ≤ d.toNat) && decide (d.toNat ≤ 57)) &&
        (decide (c ≠ '0') || rest.isEmpty) then
      let n := (c :: rest).foldl (fun acc d => 10 * acc + (d.toNat - 48)) 0
      if n < 4294967295 then some n else none
    else none

/-- Insertion of a property with the array index `i` into a list of properties
sorted by index. -/
def insertByIndex {α : Type} (i : Nat) (e : String × α) :
    List (Nat × String × α) → List (Nat × String × α)
  | [] => [(i, e)]
  | x :: rest => if i < x.1 then (i, e) :: x :: rest else x :: insertByIndex i e rest

/-- The properties whose key is an array index, each with its index, sorted by
index. -/
def indexedProperties {α : Type} : List (String × α) → List (Nat × String × α)
  | [] => []
  | e :: rest =>
    match arrayIndex e.1 with
    | some i => insertByIndex i e (indexedProperties rest)
    | none => indexedProperties rest

/-- The abstract operation `OrdinaryOwnPropertyKeys`, whose order
`Object.entries` and `for ... in` follow. Of the properties of an object, given
in the order of their creation: first those whose key is an array index, in
ascending order of the index, then the others in the order of their creation. -/
def ownPropertyOrder {α : Type} (created : List (String × α)) : List (String × α) :=
  (indexedProperties created).map Prod.snd ++
    created.filter fun e => (arrayIndex e.1).isNone

/-- The call `Object.entries(obj)` on an object whose properties were created
in the given order (an object literal lists them in that order). -/
def objectEntries (created : List (String × JsValue)) : List (String × JsValue) :=
  ownPropertyOrder created

/-! ## `dataGenerator.js`: the mixin configuration -/

/-- The project parameters read by the generators. The license and the author
are only tested for truthiness before they are used: an absent one is the empty
string. -/
structure Answers where
  project_name : String
  project_group : String
  project_id : String
  project_license : String := ""
  project_author : String := ""

/-- The table `compatibilityLevels` of `generateMixinData` (lines 9-14). -/
def compatibilityLevels : List (String × JsValue) :=
  [("common", .str "JAVA_18"), ("fabric", .str "JAVA_21"),
   ("forge", .str "JAVA_18"), ("neoforge", .str "JAVA_21")]

/-- The object `data` of `generateMixinData` (lines 16-28). -/
def mixinData (type : String) (answers : Answers) : List (String × JsValue) :=
  [("required", .bool true),
   ("minVersion", .str "0.8"),
   ("package", .str (answers.project_group ++ "." ++ answers.project_id ++ ".mixins")),
   ("refmap", .str "$\x7bproject_id\x7d.refmap.json"),
   ("compatibilityLevel", jsOr (getProperty compatibilityLevels type) (.str "JAVA_18")),
   ("mixins", .arr []),
   ("client", .arr []),
   ("server", .arr []),
   ("injectors", .obj [("defaultRequire", .num 1)])]

/-- The function `generateMixinData(type, answers)` (dataGenerator.js, lines
8-31): it has no `throw`. -/
def generateMixinData (type : String) (answers : Answers) : Promise String :=
  .ok (jsonStringifyObject (mixinData type answers))

/-! ## `gradleGenerator.js`: the module build descriptors -/

/-- The template returned by `generateBuildGradle` for the location `root`,
line by line. -/
def rootBuildGradle : String :=
  String.intercalate "\n" [
    "// Root build.gradle",
    "",
    "plugins \x7b",
    "    // Apply necessary plugins",
    "    id 'fabric-loom' version '1.10-SNAPSHOT' apply false",
    "    id 'net.neoforged.moddev' version '1.0.11' apply false",
    "\x7d",
    "",
    "subprojects \x7b",
    "    // Centralized Build Artifacts",
    "    layout.buildDirectory = layout.projectDirectory.dir(",
    "            name == 'api' || name == 'utils' ? \"$\x7brootProject.layout.buildDirectory.get()\x7d/core/$\x7bname\x7d\" :",
    "                    (name in ['fabric', 'forge', 'neoforge']) ? \"$\x7brootProject.layout.buildDirectory.get()\x7d/core/app/platform/$\x7bname\x7d\" :",
    "                            \"$\x7brootProject.layout.buildDirectory.get()\x7d/core/app/$\x7bname\x7d\"",
    "    )",
    "",
    "    // Centralized Documentation",
    "    tasks.withType(Javadoc).configureEach \x7b",
    "        // Determine the relative path for the Javadoc output",
    "        def relativePath = project.path.replace(':', '/')",
    "        destinationDir = rootProject.file(\"docs$\x7brelativePath\x7d\")",
    "    \x7d",
    "\x7d",
    "",
    "// Aggregate Javadoc for all subprojects",
    "tasks.register(\"aggregateJavadoc\", Javadoc) \x7b",
    "    group = \"documentation\"",
    "    description = \"Generates Javadoc for all subprojects in a centralized directory.\"",
    "",
    "    // Collect sources and classpaths from all Java subprojects",
    "    def allJavaSources = files(subprojects.findAll \x7b it.plugins.hasPlugin('java') \x7d.collect \x7b it.sourceSets.main.allJava.srcDirs \x7d)",
    "    def allClasspaths = files(subprojects.findAll \x7b it.plugins.hasPlugin('java') \x7d.collect \x7b it.sourceSets.main.compileClasspath \x7d)",
    "",
    "    // Set the source and classpath for the aggregate Javadoc task",
    "    source = allJavaSources",
    "    classpath = allClasspaths",
    "",
    "    // Set the destination directory for the aggregated Javadoc",
    "    destinationDir = rootProject.file(\"docs/aggregate\")",
    "\x7d",
    ""]

/-- The template returned by `generateBuildGradle` for the location `plugins`,
line by line. -/
def pluginsBuildGradle : String :=
  String.intercalate "\n" [
    "// #:Plugins Build.gradle",
    "",
    "plugins \x7b",
    "    id('groovy-gradle-plugin')",
    "\x7d",
    ""]

/-- The template returned by `generateBuildGradle` for the location `core:api`,
line by line. -/
def coreApiBuildGradle : String :=
  String.intercalate "\n" [
    "// #:Core:Api Build.gradle",
    "",
    "plugins \x7b",
    "    id (\"type-library\")",
    "\x7d",
    "",
    "apply from: rootProject.file('dependencies.gradle')",
    "",
    "dependencies \x7b",
    "    implementation(libraries.global.night_config.core)",
    "    implementation(libraries.global.night_config.toml)",
    "    implementation(libraries.global.night_config.json)",
    "",
    "    implementation(libraries.global.log4j.core)",
    "    implementation(libraries.global.log4j.api)",
    "\x7d"]

/-- The template returned by `generateBuildGradle` for the location `core:utils`,
line by line. -/
def coreUtilsBuildGradle : String :=
  String.intercalate "\n" [
    "// #:Core:utils Build.gradle",
    "",
    "plugins \x7b",
    "    id (\"type-library\")",
    "\x7d",
    "",
    "apply from: rootProject.file('dependencies.gradle')",
    "",
    "dependencies \x7b",
    "    implementation(libraries.global.night_config.core)",
    "    implementation(libraries.global.night_config.toml)",
    "    implementation(libraries.global.night_config.json)",
    "",
    "    implementation(libraries.global.log4j.core)",
    "    implementation(libraries.global.log4j.api)",
    "\x7d"]

/-- The template returned by `generateBuildGradle` for the location `core:app:common`,
line by line. -/
def commonBuildGradle : String :=
  String.intercalate "\n" [
    "// #:Core:App:Common Build.gradle",
    "",
    "plugins \x7b",
    "    id (\"type-common\")",
    "    id (\"net.neoforged.moddev\")",
    "\x7d",
    "",
    "apply from: rootProject.file(\"dependencies.gradle\")",
    "",
    "dependencies \x7b",
    "    api project(':core:api')",
    "",
    "    implementation(libraries.global.night_config.core)",
    "    implementation(libraries.global.night_config.toml)",
    "    implementation(libraries.global.night_config.json)",
    "",
    "    implementation(libraries.global.log4j.core)",
    "    implementation(libraries.global.log4j.api)",
    "",
    "    implementation (libraries.common.kuma)",
    "    implementation (libraries.common.balm) \x7b",
    "        changing = versions.balm.endsWith(\"SNAPSHOT\")",
    "    \x7d",
    "",
    "    compileOnly group: 'org.spongepowered', name: 'mixin', version: '0.8.5'",
    "    // fabric and neoforge both bundle mixinextras, so it is safe to use it in common",
    "    compileOnly group: 'io.github.llamalad7', name: 'mixinextras-common', version: '0.3.5'",
    "    annotationProcessor group: 'io.github.llamalad7', name: 'mixinextras-common', version: '0.3.5'",
    "\x7d",
    "",
    "neoForge \x7b",
    "    neoFormVersion = neo_form_version",
    "    // Automatically enable AccessTransformers if the file exists",
    "    def at = file('src/main/resources/META-INF/accesstransformer.cfg')",
    "    if (at.exists()) \x7b",
    "        accessTransformers.add(at.absolutePath)",
    "    \x7d",
    "    parchment \x7b",
    "        minecraftVersion = parchment_minecraft",
    "        mappingsVersion = parchment_version",
    "    \x7d",
    "\x7d",
    "",
    "configurations \x7b",
    "    commonJava \x7b",
    "        canBeResolved = false",
    "        canBeConsumed = true",
    "    \x7d",
    "    commonResources \x7b",
    "        canBeResolved = false",
    "        canBeConsumed = true",
    "    \x7d",
    "\x7d",
    "",
    "artifacts \x7b",
    "    commonJava sourceSets.main.java.sourceDirectories.singleFile",
    "    commonResources sourceSets.main.resources.sourceDirectories.singleFile",
    "\x7d"]

/-- The template returned by `generateBuildGradle` for the location `core:app:platform:fabric`,
line by line. -/
def fabricBuildGradle : String :=
  String.intercalate "\n" [
    "// #:Core:App:Platform:Fabric Build.gradle",
    "",
    "plugins \x7b",
    "    id(\"type-platform\")",
    "    id(\"fabric-loom\")",
    "\x7d",
    "",
    "apply from: rootProject.file('dependencies.gradle')",
    "",
    "dependencies \x7b",
    "    api project(':core:api')",
    "",
    "    implementation(libraries.global.night_config.core)",
    "    implementation(libraries.global.night_config.toml)",
    "    implementation(libraries.global.night_config.json)",
    "",
    "    implementation(libraries.global.log4j.core)",
    "    implementation(libraries.global.log4j.api)",
    "",
    "    implementation (libraries.fabric.kuma)",
    "    implementation (libraries.fabric.balm) \x7b",
    "        changing = versions.balm.endsWith(\"SNAPSHOT\")",
    "    \x7d",
    "",
    "    minecraft \"com.mojang:minecraft:$\x7bminecraft_version\x7d\"",
    "    mappings loom.layered \x7b",
    "        officialMojangMappings()",
    "        parchment(\"org.parchmentmc.data:parchment-$\x7bparchment_minecraft\x7d:$\x7bparchment_version\x7d@zip\")",
    "    \x7d",
    "    modImplementation \"net.fabricmc:fabric-loader:$\x7bfabric_loader_version\x7d\"",
    "    modImplementation \"net.fabricmc.fabric-api:fabric-api:$\x7bfabric_version\x7d\"",
    "\x7d",
    "",
    "loom \x7b",
    "    def aw = project(':core:app:common').file(\"src/main/resources/$\x7bproject_id\x7d.accesswidener\")",
    "    if (aw.exists()) \x7b",
    "        accessWidenerPath.set(aw)",
    "    \x7d",
    "    mixin \x7b",
    "        defaultRefmapName.set(\"$\x7bproject_id\x7d.refmap.json\")",
    "    \x7d",
    "    runs \x7b",
    "        client \x7b",
    "            client()",
    "            setConfigName('Fabric Client')",
    "            ideConfigGenerated(true)",
    "            runDir('runs/client')",
    "        \x7d",
    "        server \x7b",
    "            server()",
    "            setConfigName('Fabric Server')",
    "            ideConfigGenerated(true)",
    "            runDir('runs/server')",
    "        \x7d",
    "    \x7d",
    "\x7d"]

/-- The template returned by `generateBuildGradle` for the location `core:app:platform:forge`,
line by line. -/
def forgeBuildGradle : String :=
  String.intercalate "\n" [
    "// #:Core:App:Platform:Forge Build.gradle",
    "",
    "plugins \x7b",
    "    id(\"type-platform\")",
    "",
    "    id 'net.minecraftforge.gradle' version '[6.0.24,6.2)'",
    "    id 'org.spongepowered.mixin' version '0.7-SNAPSHOT'",
    "\x7d",
    "",
    "apply from: rootProject.file('dependencies.gradle')",
    "",
    "dependencies \x7b",
    "    api project(':core:api')",
    "",
    "    implementation(libraries.global.night_config.core)",
    "    implementation(libraries.global.night_config.toml)",
    "    implementation(libraries.global.night_config.json)",
    "",
    "    implementation(libraries.global.log4j.core)",
    "    implementation(libraries.global.log4j.api)",
    "",
    "    implementation (libraries.forge.kuma)",
    "    implementation (libraries.forge.balm) \x7b",
    "        changing = versions.balm.endsWith(\"SNAPSHOT\")",
    "    \x7d",
    "",
    "    minecraft \"net.minecraftforge:forge:$\x7bminecraft_version\x7d-$\x7bforge_version\x7d\"",
    "    annotationProcessor(\"org.spongepowered:mixin:0.8.5-SNAPSHOT:processor\")",
    "",
    "    // Forge's hack fix",
    "    implementation('net.sf.jopt-simple:jopt-simple:5.0.4') \x7b version \x7b strictly '5.0.4' \x7d \x7d",
    "\x7d",
    "",
    "base \x7b",
    "    archivesName = \"$\x7bproject_name\x7d-forge-$\x7bminecraft_version\x7d\"",
    "\x7d",
    "",
    "mixin \x7b",
    "    config(\"$\x7bproject_id\x7d.mixins.json\")",
    "    config(\"$\x7bproject_id\x7d.forge.mixins.json\")",
    "\x7d",
    "",
    "minecraft \x7b",
    "    mappings channel: 'official', version: minecraft_version",
    "",
    "    copyIdeResources = true //Calls processResources when in dev",
    "",
    "    reobf = false // Forge 1.20.6+ uses official mappings at runtime, so we shouldn't reobf from official to SRG",
    "",
    "    // Automatically enable forge AccessTransformers if the file exists",
    "    // This location is hardcoded in Forge and can not be changed.",
    "    // https://github.com/MinecraftForge/MinecraftForge/blob/be1698bb1554f9c8fa2f58e32b9ab70bc4385e60/fmlloader/src/main/java/net/minecraftforge/fml/loading/moddiscovery/ModFile.java#L123",
    "    // Forge still uses SRG names during compile time, so we cannot use the common AT's",
    "    def at = file('src/main/resources/META-INF/accesstransformer.cfg')",
    "    if (at.exists()) \x7b",
    "        accessTransformer = at",
    "    \x7d",
    "",
    "    runs \x7b",
    "        client \x7b",
    "            workingDirectory file('runs/client')",
    "            ideaModule \"$\x7brootProject.name\x7d.$\x7bproject.name\x7d.main\"",
    "            taskName 'Client'",
    "            mods \x7b",
    "                modClientRun \x7b",
    "                    source sourceSets.main",
    "                \x7d",
    "            \x7d",
    "        \x7d",
    "",
    "        server \x7b",
    "            workingDirectory file('runs/server')",
    "            ideaModule \"$\x7brootProject.name\x7d.$\x7bproject.name\x7d.main\"",
    "            taskName 'Server'",
    "            mods \x7b",
    "                modServerRun \x7b",
    "                    source sourceSets.main",
    "                \x7d",
    "            \x7d",
    "        \x7d",
    "",
    "        data \x7b",
    "            workingDirectory file('runs/data')",
    "            ideaModule \"$\x7brootProject.name\x7d.$\x7bproject.name\x7d.main\"",
    "            args '--mod', project_id, '--all', '--output', file('src/generated/resources/'), '--existing', file('src/main/resources/')",
    "            taskName 'Data'",
    "            mods \x7b",
    "                modDataRun \x7b",
    "                    source sourceSets.main",
    "                \x7d",
    "            \x7d",
    "        \x7d",
    "    \x7d",
    "\x7d",
    "",
    "sourceSets.main.resources.srcDir 'src/generated/resources'",
    "",
    "publishing \x7b",
    "    publications \x7b",
    "        mavenJava(MavenPublication) \x7b",
    "            fg.component(it)",
    "        \x7d",
    "    \x7d",
    "\x7d",
    "",
    "sourceSets.each \x7b",
    "    def dir = layout.buildDirectory.dir(\"sourcesSets/$it.name\")",
    "    it.output.resourcesDir = dir",
    "    it.java.destinationDirectory = dir",
    "\x7d",
    ""]

/-- The template returned by `generateBuildGradle` for the location `core:app:platform:neoforge`,
line by line. -/
def neoforgeBuildGradle : String :=
  String.intercalate "\n" [
    "// #:Core:App:Platform:Neoforge Build.gradle",
    "",
    "plugins \x7b",
    "    id(\"type-platform\")",
    "    id(\"net.neoforged.moddev\")",
    "\x7d",
    "",
    "apply from: rootProject.file('dependencies.gradle')",
    "",
    "dependencies \x7b",
    "    api project(':core:api')",
    "",
    "    implementation(libraries.global.night_config.core)",
    "    implementation(libraries.global.night_config.toml)",
    "    implementation(libraries.global.night_config.json)",
    "",
    "    implementation(libraries.global.log4j.core)",
    "    implementation(libraries.global.log4j.api)",
    "",
    "    implementation (libraries.neoforge.kuma)",
    "    implementation (libraries.neoforge.balm) \x7b",
    "        changing = versions.balm.endsWith(\"SNAPSHOT\")",
    "    \x7d",
    "",
    "\x7d",
    "",
    "neoForge \x7b",
    "    version = neoforge_version",
    "    // Automatically enable neoforge AccessTransformers if the file exists",
    "    def at = project(':core:app:common').file('src/main/resources/META-INF/accesstransformer.cfg')",
    "    if (at.exists()) \x7b",
    "        accessTransformers.add(at.absolutePath)",
    "    \x7d",
    "    parchment \x7b",
    "        minecraftVersion = parchment_minecraft",
    "        mappingsVersion = parchment_version",
    "    \x7d",
    "    runs \x7b",
    "        configureEach \x7b",
    "            systemProperty('neoforge.enabledGameTestNamespaces', project_id)",
    "            ideName = \"NeoForge $\x7bit.name.capitalize()\x7d ($\x7bproject.path\x7d)\" // Unify the run config names with fabric",
    "        \x7d",
    "        client \x7b",
    "            client()",
    "        \x7d",
    "        data \x7b",
    "            data()",
    "        \x7d",
    "        server \x7b",
    "            server()",
    "        \x7d",
    "    \x7d",
    "    mods \x7b",
    "        \"$\x7bmod_id\x7d\" \x7b",
    "            sourceSet sourceSets.main",
    "        \x7d",
    "    \x7d",
    "\x7d",
    "",
    "sourceSets.main.resources \x7b srcDir 'src/generated/resources' \x7d",
    ""]

/-- The function `generateBuildGradle(location)` (gradleGenerator.js, lines
577-955): a `switch` over the location, whose `default` branch throws. -/
def generateBuildGradle (location : String) : Promise String :=
  match location with
  | "root" => .ok rootBuildGradle
  | "plugins" => .ok pluginsBuildGradle
  | "core:api" => .ok coreApiBuildGradle
  | "core:utils" => .ok coreUtilsBuildGradle
  | "core:app:common" => .ok commonBuildGradle
  | "core:app:platform:fabric" => .ok fabricBuildGradle
  | "core:app:platform:forge" => .ok forgeBuildGradle
  | "core:app:platform:neoforge" => .ok neoforgeBuildGradle
  | _ => .error ⟨"Build Gradle Location not recognized!"⟩

/-! ## `javaGenerator.js`: the class-template serializer -/

/-- A field description. An optional property that is only tested for
truthiness is a string, absent when empty. -/
structure JavaField where
  accessModifier : String := ""
  isStaticFinal : Bool := false
  type : String
  name : String
  initialValue : String := ""
deriving DecidableEq, Repr

/-- A method description. An absent list is the empty list, an absent
`returnType` the empty string. -/
structure JavaMethod where
  annotations : List String := []
  accessModifier : String := ""
  parameters : List String := []
  exceptions : List String := []
  returnType : String := ""
  name : String
  bodyLines : List String := []
deriving DecidableEq, Repr

/-- The class description destructured by `generateJavaTemplate`, with the
defaults of its parameter list (lines 34-44). -/
structure JavaClass where
  name : String
  packageName : String
  type : String := "class"
  extendClass : String := ""
  implementInterfaces : List String := []
  imports : List String := []
  fields : List JavaField := []
  methods : List JavaMethod := []
  annotations : List String := []
deriving DecidableEq, Repr

/-- Lines 52-56: the declaration of one field. -/
def fieldDeclaration (f : JavaField) : String :=
  let modifiers := if truthy f.accessModifier then f.accessModifier ++ " " else ""
  let staticFinal := if f.isStaticFinal then "static final " else ""
  "    " ++ modifiers ++ staticFinal ++ f.type ++ " " ++ f.name ++
    (if truthy f.initialValue then " = " ++ f.initialValue else "") ++ ";"

/-- Lines 58-70: the declaration of one method. -/
def methodDeclaration (method : JavaMethod) : String :=
  let methodAnnotations := "\n".intercalate (method.annotations.map fun a => "    @" ++ a)
  let accessModifier := if truthy method.accessModifier then method.accessModifier ++ " " else ""
  let parameters := ", ".intercalate method.parameters
  let exceptions :=
    if method.exceptions.length > 0 then " throws " ++ ", ".intercalate method.exceptions else ""
  let signature := "    " ++ accessModifier ++
    (if truthy method.returnType then method.returnType else "void") ++ " " ++
    method.name ++ "(" ++ parameters ++ ")" ++ exceptions
  let bodyLines := "\n".intercalate (method.bodyLines.map fun line => "        " ++ line)
  let body :=
    if truthy bodyLines then "    \x7b\n" ++ bodyLines ++ "\n    \x7d" else "    \x7b\n    \x7d"
  "\n".intercalate
    ([methodAnnotations, signature ++ body].filter fun part => (jsTrim part).length > 0)

/-- Line 45. -/
def packageSection (c : JavaClass) : String :=
  if truthy c.packageName then "package " ++ c.packageName ++ ";\n" else ""

/-- Line 46. -/
def importsSection (c : JavaClass) : String :=
  "\n".intercalate (c.imports.map fun i => "import " ++ i ++ ";")

/-- Line 48. -/
def classAnnotations (c : JavaClass) : String :=
  "\n".intercalate (c.annotations.map fun a => "@" ++ a)

/-- Lines 49, 50 and 75: the declaration header. -/
def classHeader (c : JavaClass) : String :=
  let extendsSection := if truthy c.extendClass then " extends " ++ c.extendClass else ""
  let implementsSection :=
    if c.implementInterfaces.length > 0 then
      " implements " ++ ", ".intercalate c.implementInterfaces
    else ""
  "public " ++ c.type ++ " " ++ c.name ++ extendsSection ++ implementsSection ++ " \x7b"

/-- Lines 52-56. -/
def fieldsSection (c : JavaClass) : String :=
  "\n".intercalate (c.fields.map fieldDeclaration)

/-- Lines 58-70. -/
def methodsSection (c : JavaClass) : String :=
  "\n\n".intercalate (c.methods.map methodDeclaration)

/-- Lines 72-85: the class body, its sections joined by a newline. -/
def classBody (c : JavaClass) : String :=
  let classSections : List String :=
    (if truthy (classAnnotations c) then [classAnnotations c] else []) ++
    [classHeader c] ++
    (if c.fields.length > 0 then [fieldsSection c] else []) ++
    (if c.methods.length > 0 then [methodsSection c] else [])
  "\n".intercalate classSections

/-- The function `generateJavaTemplate` (javaGenerator.js, lines 34-95). -/
def generateJavaTemplate (c : JavaClass) : String :=
  let sections : List String :=
    (if truthy (packageSection c) then [packageSection c] else []) ++
    (if c.imports.length > 0 then [importsSection c] else []) ++
    [classBody c]
  "\n\n".intercalate (sections.filter truthy) ++ "\n\x7d"

/-! ## `dataGenerator.js`: the manifests -/

/-- The function `generatePackData()` (dataGenerator.js, lines 38-46). -/
def generatePackData : Promise String :=
  .ok (jsonStringifyObject
    [("pack", .obj [("description", .str "$\x7bproject_name\x7d"),
                    ("pack_format", .str "$\x7bpack_format_number\x7d")])])

/-- The function `generateModsToml(type)` (dataGenerator.js, lines 95-138). -/
def generateModsToml (type : String) : Promise String :=
  let loaderVersion :=
    if type = "forge" then "$\x7bforge_loader_version_range\x7d"
    else if type = "neoforge" then "$\x7bneoforge_loader_version_range\x7d" else ""
  let versionRange :=
    if type = "forge" then "[$\x7bforge_version\x7d,)"
    else if type = "neoforge" then "[$\x7bneoforge_version\x7d,)" else ""
  let data : JsValue := .obj [
    ("modLoader", .str "javafml"),
    ("loaderVersion", .str loaderVersion),
    ("license", .str "$\x7bproject_license\x7d"),
    ("mods", .arr [
      .obj [("modId", .str "$\x7bproject_id\x7d"),
            ("version", .str "$\x7bproject_version\x7d"),
            ("displayName", .str "$\x7bproject_name\x7d"),
            ("logoFile", .str "$\x7bproject_id\x7d/icon.png"),
            ("credits", .str "$\x7bproject_credits\x7d"),
            ("authors", .str "$\x7bproject_author\x7d"),
            ("description", .str "'''$\x7bproject_description\x7d'''")]]),
    ("dependencies.\"$\x7bproject_id\x7d\"", .arr [
      .obj [("modId", .str type),
            ("mandatory", .bool true),
            ("versionRange", .str versionRange),
            ("ordering", .str "NONE"),
            ("side", .str "BOTH")],
      .obj [("modId", .str "minecraft"),
            ("mandatory", .bool true),
            ("versionRange", .str "$\x7bminecraft_version_range\x7d"),
            ("ordering", .str "NONE"),
            ("side", .str "BOTH")]])]
  buildTomlString data

/-- The function `generateModsJson(answers)` (dataGenerator.js, lines 146-182). -/
def generateModsJson (answers : Answers) : Promise String :=
  .ok (jsonStringifyObject [
    ("schemaVersion", .num 1),
    ("id", .str "$\x7bproject_id\x7d"),
    ("version", .str "$\x7bproject_version\x7d"),
    ("name", .str "$\x7bproject_name\x7d"),
    ("description", .str "$\x7bproject_description\x7d"),
    ("authors", .arr [.str "$\x7bproject_author\x7d"]),
    ("contact", .obj [("homepage", .str "https://fabricmc.net/"),
                      ("sources", .str "https://github.com/FabricMC/fabric-example-mod")]),
    ("license", .str "$\x7bproject_license\x7d"),
    ("icon", .str "$\x7bproject_id\x7d/icon.png"),
    ("environment", .str "*"),
    ("entrypoints", .obj [("main", .arr [
      .str (answers.project_group ++ "." ++ answers.project_id ++ ".FabricBootstrap")])]),
    ("mixins", .arr [.str "$\x7bproject_id\x7d.mixins.json",
                     .str "$\x7bproject_id\x7d.fabric.mixins.json"]),
    ("depends", .obj [("fabricloader", .str ">=$\x7bfabric_loader_version\x7d"),
                      ("fabric-api", .str "*"),
                      ("minecraft", .str "$\x7bminecraft_version\x7d"),
                      ("java", .str ">=$\x7bjava_version\x7d")]),
    ("suggests", .obj [("another-mod", .str "*")])])

/-! ## `folderGenerator.js`: the tree composer -/

/-- A node of the composed tree, as `addFileOrFolder` tells the variants
apart: a folder has a `children` array, a file has a `content` that is not
`undefined`, and any other node is invalid. The content of a file is a value or
a promise of one; JSZip resolves either, so a plain value is a resolved promise. -/
inductive TreeNode where
  | file (path : String) (content : Promise String)
  | folder (path : String) (children : List TreeNode)
  | invalid (path : String)

/-- The property `path` of a node. -/
def TreeNode.path : TreeNode → String
  | .file path _ => path
  | .folder path _ => path
  | .invalid path => path

/-- The call `s.replace(/c/g, replacement)` for a regular expression that
matches the single character `c`, and a replacement without `$` patterns. -/
def replaceAllChar (s : String) (c : Char) (replacement : String) : String :=
  String.join (s.data.map fun x => if x = c then replacement else String.singleton x)

/-- The helper `getGroupPath(answers)` (folderGenerator.js, lines 11-13):
`answers.project_group.replace(/\./g, '/')`. -/
def getGroupPath (answers : Answers) : String :=
  replaceAllChar answers.project_group '.' "/"

/-- The helper `capitalize(str)` (lines 20-22), on strings whose first
character is an ASCII character, as the platform names are: for those
`toUpperCase` is `Char.toUpper`. -/
def capitalize (str : String) : String :=
  match str.data with
  | [] => ""
  | c :: rest => String.singleton c.toUpper ++ String.mk rest

/-- The function `generateApiModule(answers)` (lines 75-103). -/
def generateApiModule (answers : Answers) : Promise (List TreeNode) :=
  let groupPath := getGroupPath answers
  let apiPath := "api/src/main/java/" ++ groupPath ++ "/" ++ answers.project_id
  pure [
    .file "api/build.gradle" (generateBuildGradle "core:api"),
    .file "api/src/main/resources/" (pure ""),
    .file ("api/src/test/java/" ++ groupPath ++ "/" ++ answers.project_id ++ "/") (pure ""),
    .file (apiPath ++ "/Api.java")
      (pure (generateJavaTemplate
        { name := "Api",
          packageName := answers.project_group ++ "." ++ answers.project_id,
          type := "class",
          methods := [] })),
    .file (apiPath ++ "/platform/services/IPlatformHelper.java")
      (pure (generateJavaTemplate
        { name := "IPlatformHelper",
          packageName := answers.project_group ++ "." ++ answers.project_id ++ ".platform.services",
          type := "interface",
          methods := [] }))]

/-- The function `generateUtilsModule(answers)` (lines 110-129). -/
def generateUtilsModule (answers : Answers) : Promise (List TreeNode) :=
  let groupPath := getGroupPath answers
  let utilsPath := "utils/src/main/java/" ++ groupPath ++ "/" ++ answers.project_id
  pure [
    .file "utils/build.gradle" (generateBuildGradle "core:utils"),
    .file "utils/src/main/resources/" (pure ""),
    .file ("utils/src/test/java/" ++ groupPath ++ "/" ++ answers.project_id ++ "/") (pure ""),
    .file (utilsPath ++ "/Utils.java")
      (pure (generateJavaTemplate
        { name := "Utils",
          packageName := answers.project_group ++ "." ++ answers.project_id,
          type := "class",
          methods := [] }))]

/-- The function `generateCommonModule(appPath, answers)` (lines 151-197). -/
def generateCommonModule (appPath : String) (answers : Answers) : Promise (List TreeNode) := do
  let groupPath := getGroupPath answers
  let javaPath := appPath ++ "/common/src/main/java/" ++ groupPath ++ "/" ++ answers.project_id
  let mixinData ← generateMixinData "common" answers
  let packData ← generatePackData
  pure [
    .file (appPath ++ "/common/build.gradle") (generateBuildGradle "core:app:common"),
    .file (appPath ++ "/common/src/main/resources/") (pure ""),
    .file (javaPath ++ "/mixins/") (pure ""),
    .file (appPath ++ "/common/src/main/resources/" ++ answers.project_id ++ ".mixins.json")
      (pure mixinData),
    .file (appPath ++ "/common/src/main/resources/pack.mcmeta") (pure packData),
    .file (appPath ++ "/common/src/test/java/" ++ groupPath ++ "/" ++ answers.project_id ++ "/")
      (pure ""),
    .file (javaPath ++ "/Common.java")
      (pure (generateJavaTemplate
        { name := "Common",
          packageName := answers.project_group ++ "." ++ answers.project_id,
          type := "class",
          methods := [
            { name := "initialize",
              accessModifier := "public static",
              returnType := "void",
              bodyLines := ["// Add any needed initialization code here."] }] })),
    .file (javaPath ++ "/Constants.java")
      (pure (generateJavaTemplate
        { name := "Constants",
          packageName := answers.project_group ++ "." ++ answers.project_id,
          type := "class",
          fields := [
            { accessModifier := "public",
              isStaticFinal := true,
              type := "String",
              name := "PROJECT_ID",
              initialValue := "\"" ++ answers.project_id ++ "\"" }],
          methods := [] }))]

/-- The function `generatePlatformSpecificFiles(platformPath, platform, answers)`
(lines 223-340): ten nodes for every platform, and two more pushed for `forge`,
`fabric` and `neoforge`. -/
def generatePlatformSpecificFiles (platformPath platform : String) (answers : Answers) :
    Promise (List TreeNode) := do
  let groupPath := getGroupPath answers
  let javaPath := platformPath ++ "/src/main/java/" ++ groupPath ++ "/" ++ answers.project_id
  let capPlatform := capitalize platform
  let mixinData ← generateMixinData platform answers
  let children : List TreeNode := [
    .file (platformPath ++ "/build.gradle") (generateBuildGradle ("core:app:platform:" ++ platform)),
    .file (platformPath ++ "/src/test/java/") (pure ""),
    .file (platformPath ++ "/runs/client/resources/") (pure ""),
    .file (platformPath ++ "/runs/data/") (pure ""),
    .file (platformPath ++ "/runs/server/") (pure ""),
    .file (platformPath ++ "/src/main/resources/META-INF/") (pure ""),
    .file (javaPath ++ "/mixins/") (pure ""),
    .file (platformPath ++ "/src/main/resources/" ++ answers.project_id ++ "." ++ platform ++
        ".mixins.json") (pure mixinData),
    .file (platformPath ++ "/src/main/resources/META-INF/services/" ++ answers.project_group ++
        "." ++ answers.project_id ++ ".platform.services.IPlatformHelper")
      (pure (answers.project_group ++ "." ++ answers.project_id ++ ".platform." ++ capPlatform ++
        "Platform")),
    .file (javaPath ++ "/platform/" ++ capPlatform ++ "Platform.java")
      (pure (generateJavaTemplate
        { name := capPlatform ++ "Platform",
          packageName := answers.project_group ++ "." ++ answers.project_id ++ ".platform",
          type := "class",
          implementInterfaces := ["IPlatformHelper"],
          imports := [answers.project_group ++ "." ++ answers.project_id ++
            ".platform.services.IPlatformHelper"],
          methods := [] }))]
  if platform = "forge" then
    let modsToml ← generateModsToml platform
    pure (children ++ [
      .file (platformPath ++ "/src/main/resources/META-INF/" ++ platform ++ ".mods.toml")
        (pure modsToml),
      .file (javaPath ++ "/ForgeBootstrap.java")
        (pure (generateJavaTemplate
          { name := "ForgeBootstrap",
            packageName := answers.project_group ++ "." ++ answers.project_id,
            imports := ["net.minecraftforge.fml.common.Mod",
                        "net.minecraftforge.fml.javafmlmod.FMLJavaModLoadingContext"],
            annotations := ["Mod(Constants.PROJECT_ID)"],
            methods := [
              { name := "ForgeBootstrap",
                accessModifier := "public",
                parameters := ["FMLJavaModLoadingContext context"],
                bodyLines := ["// Initialization code", "Common.initialize();"] }] }))])
  else if platform = "fabric" then
    let modsJson ← generateModsJson answers
    pure (children ++ [
      .file (platformPath ++ "/src/main/resources/" ++ platform ++ ".mod.json") (pure modsJson),
      .file (javaPath ++ "/FabricBootstrap.java")
        (pure (generateJavaTemplate
          { name := "FabricBootstrap",
            packageName := answers.project_group ++ "." ++ answers.project_id,
            implementInterfaces := ["ModInitializer"],
            imports := ["net.fabricmc.api.ModInitializer"],
            methods := [
              { name := "onInitialize",
                accessModifier := "public",
                annotations := ["Override"],
                bodyLines := ["// Initialization code", "Common.initialize();"] }] }))])
  else if platform = "neoforge" then
    let modsToml ← generateModsToml platform
    pure (children ++ [
      .file (platformPath ++ "/src/main/resources/META-INF/" ++ platform ++ ".mods.toml")
        (pure modsToml),
      .file (javaPath ++ "/NeoForgeBootstrap.java")
        (pure (generateJavaTemplate
          { name := "NeoForgeBootstrap",
            packageName := answers.project_group ++ "." ++ answers.project_id,
            imports := ["net.neoforged.bus.api.IEventBus", "net.neoforged.fml.common.Mod"],
            annotations := ["Mod(Constants.PROJECT_ID)"],
            methods := [
              { name := "NeoForgeBootstrap",
                accessModifier := "public",
                parameters := ["IEventBus modBus"],
                bodyLines := ["// Initialization code", "Common.initialize();"] }] }))])
  else
    pure children

/-- The function `generatePlatformModules(appPath, answers)` (lines 205-214):
`Promise.all` keeps the order of the platforms and `flat()` concatenates. -/
def generatePlatformModules (appPath : String) (answers : Answers) : Promise (List TreeNode) := do
  let platforms := ["fabric", "forge", "neoforge"]
  let modules ← platforms.mapM fun plat =>
    let platPath := appPath ++ "/platform/" ++ plat
    generatePlatformSpecificFiles platPath plat answers
  pure modules.flatten

/-- The function `generateAppModules(answers)` (lines 136-143). -/
def generateAppModules (answers : Answers) : Promise (List TreeNode) := do
  let appPath := "app"
  let commonModule ← generateCommonModule appPath answers
  let platformModules ← generatePlatformModules appPath answers
  pure (commonModule ++ platformModules)

/-- The function `generateCoreModules(answers)` (lines 61-68): the results of
`Promise.all` are spread in the order of the calls. -/
def generateCoreModules (answers : Answers) : Promise (List TreeNode) := do
  let apiModules ← generateApiModule answers
  let utilsModules ← generateUtilsModule answers
  let appModules ← generateAppModules answers
  pure (apiModules ++ utilsModules ++ appModules)

/-! ## The JSZip archive

The library object behind `projectZipGenerator.js`: the table `files` of an
archive, shared by the archive and all its sub-folders, and the methods
`folder` and `file` of a folder with a given `root`. -/

/-- An entry of the table `files`: a directory, or a file with its data, which
is a value or a promise of one. -/
inductive ZipObject where
  | dir
  | file (content : Promise String)

/-- The table `files` of an archive, an object without prototype: its
properties in the order of their creation. -/
abbrev ZipFiles := List (String × ZipObject)

/-- The lookup `files[name]`. -/
def zipGet : ZipFiles → String → Option ZipObject
  | [], _ => none
  | (n, o) :: rest, name => if n = name then some o else zipGet rest name

/-- The assignment `files[name] = object`: an existing entry is replaced in
place, a new one is appended. -/
def zipSet : ZipFiles → String → ZipObject → ZipFiles
  | [], name, object => [(name, object)]
  | (n, o) :: rest, name, object =>
      if n = name then (n, object) :: rest else (n, o) :: zipSet rest name object

/-- The helper `forceTrailingSlash(path)` of JSZip. -/
def forceTrailingSlash (path : String) : String :=
  if path.data.getLast? = some '/' then path else path ++ "/"

/-- The helper `parentFolder(path)` of JSZip: the path without one trailing
slash, cut before its last slash, or the empty string when that slash is
missing or leads the path. -/
def parentFolder (path : String) : String :=
  let chars := if path.data.getLast? = some '/' then path.data.dropLast else path.data
  match chars.reverse.dropWhile (fun c => c ≠ '/') with
  | [] => ""
  | _ :: before => if before.length > 0 then String.mk before.reverse else ""

/-- The helper `folderAdd(name, true)` of JSZip, which adds a directory entry
unless the name is taken, after the directories above it. The recursion
through `parentFolder` is on ever shorter names; `fuel` bounds its depth. -/
def folderAdd : Nat → ZipFiles → String → ZipFiles
  | 0, files, _ => files
  | fuel + 1, files, name =>
      let name := forceTrailingSlash name
      if (zipGet files name).isSome then files
      else
        let parent := parentFolder name
        let files := if truthy parent then folderAdd fuel files parent else files
        zipSet files name .dir

/-- The helper `fileAdd(name, data)` of JSZip for a file, with the default
option `createFolders: true`. -/
def fileAdd (files : ZipFiles) (name : String) (data : Promise String) : ZipFiles :=
  let parent := parentFolder name
  let files := if truthy parent then folderAdd (parent.length + 2) files parent else files
  zipSet files name (.file data)

/-- The method `folder(arg)` of the folder with root `root`: the table
afterwards, and the root of the folder returned. -/
def zipFolder (files : ZipFiles) (root arg : String) : ZipFiles × String :=
  if truthy arg then
    let name := root ++ arg
    (folderAdd (name.length + 2) files name, forceTrailingSlash name)
  else (files, root)

/-- The method `file(name, data)` of the folder with root `root`. -/
def zipFile (files : ZipFiles) (root name : String) (data : Promise String) : ZipFiles :=
  fileAdd files (root ++ name) data

/-- An entry of a generated archive: the data of a file is resolved. -/
inductive ArchiveEntry where
  | dir
  | file (content : String)
deriving DecidableEq, Repr

/-- The worker of `generateAsync`, up to the encoding of the entries: it
resolves the data of every file, in the order given, and is rejected when one
of them is. -/
def generateEntries : ZipFiles → Promise (List (String × ArchiveEntry))
  | [] => pure []
  | (name, .dir) :: rest => do
      let entries ← generateEntries rest
      pure ((name, ArchiveEntry.dir) :: entries)
  | (name, .file content) :: rest => do
      let data ← content
      let entries ← generateEntries rest
      pure ((name, ArchiveEntry.file data) :: entries)

/-- The method `generateAsync` of the archive itself (root `""`). The entries
are collected by `forEach`, a `for ... in` loop over the table that passes over
an entry whose name relative to the root is empty. -/
def generateAsync (files : ZipFiles) : Promise (List (String × ArchiveEntry)) :=
  generateEntries ((ownPropertyOrder files).filter fun e => truthy e.1)

/-- The file system as `generateProjectZip` uses it: the outcome of
`fs.writeFileSync(path.join(process.cwd(), name), buffer)` for a file name and a
buffer, which returns or throws (`ENOENT` when the directory of the file is
missing, for one). -/
abbrev WriteFileSync := String → List (String × ArchiveEntry) → Except JsError Unit

/-! ## `projectZipGenerator.js`: the archive materializer -/

mutual
/-- The function `addFileOrFolder(zipFolder, file)` (projectZipGenerator.js,
lines 10-21), on the table of the archive and the root of `zipFolder`. The
calls made by `children.map` run in order, each up to its end. -/
def addFileOrFolder : ZipFiles → String → TreeNode → ZipFiles
  | files, zipRoot, .folder path children =>
      let folder := zipFolder files zipRoot path
      addChildren folder.1 folder.2 children
  | files, zipRoot, .file path content => zipFile files zipRoot path content
  | files, _, .invalid _ => files
/-- The calls `children.map(child => addFileOrFolder(folder, child))`. -/
def addChildren : ZipFiles → String → List TreeNode → ZipFiles
  | files, _, [] => files
  | files, zipRoot, child :: rest =>
      addChildren (addFileOrFolder files zipRoot child) zipRoot rest
end

/-- The table of the archive when `generateProjectZip` calls `generateAsync`
(lines 31-34). -/
def zipFiles (config : Answers) (files : List TreeNode) : ZipFiles :=
  let root := zipFolder [] "" config.project_name
  addChildren root.1 root.2 files

/-- The function `generateProjectZip(config, files)` (lines 29-49): the archive
generated from the table is written to the file `<project_name>.zip` of the
working directory and returned. The `catch` block logs and rethrows, so a
rejected content and a failed write both reject the call. -/
def generateProjectZip (writeFileSync : WriteFileSync) (config : Answers)
    (files : List TreeNode) : Promise (List (String × ArchiveEntry)) := do
  let zipBuffer ← generateAsync (zipFiles config files)
  writeFileSync (config.project_name ++ ".zip") zipBuffer
  pure zipBuffer

/-! ## Version helper (`src/helpers/versionHelper.js`) -/

/-- The character class `\d` of a pattern without the unicode flag: the ten
ASCII digits. -/
def isDigitChar (c : Char) : Bool :=
  decide (48 ≤ c.toNat) && decide (c.toNat ≤ 57)

/-- The character class `[A-Za-z0-9]`. -/
def isTagChar (c : Char) : Bool :=
  (decide (65 ≤ c.toNat) && decide (c.toNat ≤ 90)) ||
  (decide (97 ≤ c.toNat) && decide (c.toNat ≤ 122)) ||
  (decide (48 ≤ c.toNat) && decide (c.toNat ≤ 57))

/-- A greedy quantified class `[...]+` at the head of `s`: the longest run of
characters of the class, which must not be empty, and what follows it. In the
pattern of `formatVersion` every such run is followed by a character outside
the class or by the end of the input, so giving characters back can never turn
a failed match into a successful one. -/
def classRun (p : Char → Bool) (s : List Char) : Option (List Char × List Char) :=
  if s.takeWhile p = [] then none else some (s.takeWhile p, s.dropWhile p)

/-- A literal character of the pattern at the head of `s`. -/
def literalChar (c : Char) (s : List Char) : Option (List Char) :=
  match s with
  | [] => none
  | d :: rest => if d = c then some rest else none

/-- The capture groups of a successful match of the pattern of `formatVersion`;
`tag` is `none` when the optional group did not take part (`undefined`). -/
structure VersionMatch where
  major : String
  minor : String
  patch : String
  tag : Option String
deriving DecidableEq, Repr

/-- The optional group `(?:-([A-Za-z0-9]+))?` followed by `$`, the end of the
input (the pattern has no multiline flag): either `-` and a run of tag
characters reaching the end, or the end at once. -/
def matchTag (s : List Char) : Option (Option String) :=
  match literalChar '-' s with
  | some rest =>
    match classRun isTagChar rest with
    | some (tag, []) => some (some (String.mk tag))
    | _ => none
  | none =>
    match s with
    | [] => some none
    | _ => none

/-- A match of `/^v?(\d+)\.(\d+)\.(\d+)(?:-([A-Za-z0-9]+))?$/` against the
whole input: the pattern is anchored at both ends, so it matches at most once,
at position 0 and up to the end. -/
def matchVersion (s : List Char) : Option VersionMatch :=
  let afterV := (literalChar 'v' s).getD s
  match classRun isDigitChar afterV with
  | none => none
  | some (major, s1) =>
    match literalChar '.' s1 with
    | none => none
    | some s2 =>
      match classRun isDigitChar s2 with
      | none => none
      | some (minor, s3) =>
        match literalChar '.' s3 with
        | none => none
        | some s4 =>
          match classRun isDigitChar s4 with
          | none => none
          | some (patch, s5) =>
            match matchTag s5 with
            | none => none
            | some tag => some ⟨String.mk major, String.mk minor, String.mk patch, tag⟩

/-- The truthiness test `tag ? ... : ...` on a capture group. -/
def captured (tag : Option String) : Bool :=
  match tag with
  | some t => truthy t
  | none => false

/-- The replacement callback of `formatVersion` (lines 11-15). -/
def formatMatch (m : VersionMatch) : String :=
  if m.patch = "0" then
    (if captured m.tag then m.major ++ "." ++ m.minor ++ "-" ++ m.tag.getD ""
     else m.major ++ "." ++ m.minor)
  else
    (if captured m.tag then m.major ++ "." ++ m.minor ++ "." ++ m.patch ++ "-" ++ m.tag.getD ""
     else m.major ++ "." ++ m.minor ++ "." ++ m.patch)

/-- `formatVersion(version)` (lines 10-16): `String.prototype.replace` with a
pattern that is not global replaces the first match by the value of the
callback and returns the input unchanged when there is no match. -/
def formatVersion (version : String) : String :=
  match matchVersion version.data with
  | none => version
  | some m => formatMatch m

/-! ## `gradleGenerator.js`: the plugin scripts -/

/-- The template returned by `generatePluginGradle` for the location `common`,
line by line. -/
def typeCommonGradle : String :=
  String.intercalate "\n" [
    "// Apply necessary plugins",
    "plugins \x7b",
    "    id 'java-library'      // For creating a Java library",
    "    id 'maven-publish'    // Enables publishing to a Maven repository",
    "\x7d",
    "",
    "// Set the archive name using project-specific variables",
    "base \x7b",
    "    archivesName = \"$\x7bproject_id\x7d-$\x7bproject.name\x7d-$\x7bminecraft_version\x7d\"",
    "\x7d",
    "",
    "java \x7b",
    "    toolchain.languageVersion = JavaLanguageVersion.of(java_version) // Set Java version",
    "    withSourcesJar()   // Include sources JAR",
    "    withJavadocJar()   // Include Javadoc JAR",
    "\x7d",
    "",
    "// Define repositories for dependencies",
    "repositories \x7b",
    "    mavenCentral() // Use Maven Central repository",
    "",
    "    // Sponge repository for specific dependencies",
    "    exclusiveContent \x7b",
    "        forRepository \x7b",
    "            maven \x7b",
    "                name = 'Sponge'",
    "                url = uri(\"https://repo.spongepowered.org/repository/maven-public\")",
    "            \x7d",
    "        \x7d",
    "        filter \x7b includeGroupAndSubgroups(\"org.spongepowered\") \x7d",
    "    \x7d",
    "",
    "    // ParchmentMC and NeoForge repositories",
    "    exclusiveContent \x7b",
    "        forRepositories(",
    "                maven \x7b",
    "                    name = 'ParchmentMC'",
    "                    url = uri(\"https://maven.parchmentmc.org/\")",
    "                \x7d,",
    "                maven \x7b",
    "                    name = \"NeoForge\"",
    "                    url = uri(\"https://maven.neoforged.net/releases\")",
    "                \x7d",
    "        )",
    "        filter \x7b includeGroup(\"org.parchmentmc.data\") \x7d",
    "    \x7d",
    "",
    "    // Additional repositories",
    "    maven \x7b",
    "        url = uri(\"https://maven.twelveiterations.com/repository/maven-public/\")",
    "        content \x7b includeGroup \"net.blay09.mods\" \x7d",
    "    \x7d",
    "",
    "    maven \x7b",
    "        name = \"BlameJared\"",
    "        url = uri(\"https://maven.blamejared.com\")",
    "    \x7d",
    "\x7d",
    "",
    "// Declare capabilities for outgoing configurations",
    "['apiElements', 'runtimeElements', 'sourcesElements', 'javadocElements'].each \x7b variant ->",
    "    configurations.\"$variant\".outgoing \x7b",
    "        capability(\"$\x7bproject_group\x7d:$\x7bbase.archivesName.get()\x7d:$\x7bproject_version\x7d\")",
    "        capability(\"$\x7bproject_group\x7d:$\x7bproject_id\x7d-$\x7bproject.name\x7d-$\x7bminecraft_version\x7d:$\x7bproject_version\x7d\")",
    "        capability(\"$\x7bproject_group\x7d:$\x7bproject_id\x7d:$\x7bproject_version\x7d\")",
    "    \x7d",
    "",
    "    publishing.publications.configureEach \x7b",
    "        suppressPomMetadataWarningsFor(variant) // Suppress metadata warnings",
    "    \x7d",
    "\x7d",
    "",
    "// Include the license file in the sources JAR",
    "sourcesJar \x7b",
    "    from(rootProject.file('LICENSE')) \x7b",
    "        rename \x7b \"$\x7bit\x7d_$\x7bproject_name\x7d\" \x7d",
    "    \x7d",
    "\x7d",
    "",
    "// Configure the JAR task",
    "jar \x7b",
    "    from(rootProject.file('LICENSE')) \x7b",
    "        rename \x7b \"$\x7bit\x7d_$\x7bproject_name\x7d\" \x7d",
    "    \x7d",
    "",
    "    manifest \x7b",
    "        attributes([",
    "                'Specification-Title'   : \"$\x7bproject_name\x7d\",",
    "                'Specification-Vendor'  : \"$\x7bproject_author\x7d\",",
    "                'Specification-Version' : \"$\x7bproject.jar.archiveVersion\x7d\",",
    "                'Implementation-Title'  : \"$\x7bproject.name\x7d\",",
    "                'Implementation-Version': \"$\x7bproject.jar.archiveVersion\x7d\",",
    "                'Implementation-Vendor' : \"$\x7bproject_author\x7d\",",
    "                'Built-On-Minecraft'    : \"$\x7bminecraft_version\x7d\"",
    "        ])",
    "    \x7d",
    "\x7d",
    "",
    "// Process resource files and inject project properties",
    "processResources \x7b",
    "    def expandProps = [",
    "            'project_version'              : \"$\x7bproject_version\x7d\",",
    "            'project_group'                : \"$\x7bproject.group\x7d\",",
    "            'minecraft_version'            : \"$\x7bminecraft_version\x7d\",",
    "            'pack_format_number'           : \"$\x7bpack_format_version\x7d\",",
    "            'minecraft_version_range'      : \"$\x7bminecraft_version_range\x7d\",",
    "            'fabric_version'               : \"$\x7bfabric_version\x7d\",",
    "            'fabric_loader_version'        : \"$\x7bfabric_loader_version\x7d\",",
    "            'project_name'                 : \"$\x7bproject_name\x7d\",",
    "            'project_author'               : \"$\x7bproject_author\x7d\",",
    "            'project_id'                   : \"$\x7bproject_id\x7d\",",
    "            'project_license'              : \"$\x7bproject_license\x7d\",",
    "            'project_description'          : \"$\x7bproject_description\x7d\",",
    "            'neoforge_version'             : \"$\x7bneoforge_version\x7d\",",
    "            'neoforge_loader_version_range': \"$\x7bneoforge_loader_version_range\x7d\",",
    "            'forge_version'                : \"$\x7bforge_version\x7d\",",
    "            'forge_loader_version_range'   : \"$\x7bforge_loader_version_range\x7d\",",
    "            'project_credits'              : \"$\x7bproject_credits\x7d\",",
    "            'java_version'                 : \"$\x7bjava_version\x7d\"",
    "    ]",
    "",
    "    filesMatching(['pack.mcmeta', 'fabric.mod.json', 'META-INF/mods.toml', 'META-INF/neoforge.mods.toml', '*.mixins.json']) \x7b",
    "        expand expandProps",
    "    \x7d",
    "    inputs.properties(expandProps)",
    "\x7d",
    "",
    "// Configure publishing to a Maven repository",
    "publishing \x7b",
    "    publications \x7b",
    "        register('mavenJava', MavenPublication) \x7b",
    "            artifactId base.archivesName.get()",
    "            from components.java",
    "        \x7d",
    "    \x7d",
    "    repositories \x7b",
    "        maven \x7b",
    "            url System.getenv('local_maven_url') // Use environment variable for repository URL",
    "        \x7d",
    "    \x7d",
    "\x7d",
    "",
    "// Include core modules in the JAR",
    "jar \x7b",
    "    from \x7b project(':core:api').sourceSets.main.output \x7d",
    "    from \x7b project(':core:utils').sourceSets.main.output \x7d",
    "\x7d",
    "",
    "// Configure Javadoc tasks",
    "tasks.withType(Javadoc).configureEach \x7b",
    "    options.addStringOption('Xdoclint:none', '-quiet') // Suppress doclint warnings",
    "\x7d",
    ""]

/-- The template returned by `generatePluginGradle` for the location `library`,
line by line. -/
def typeLibraryGradle : String :=
  String.intercalate "\n" [
    "// #type-library.gradle",
    "",
    "plugins \x7b",
    "    id 'java-library'",
    "\x7d",
    "",
    "base \x7b",
    "    // Set the archive name using project-specific properties.",
    "    archivesName = \"$\x7bproject_id\x7d-$\x7bproject.name\x7d-$\x7bminecraft_version\x7d\"",
    "\x7d",
    "",
    "java \x7b",
    "    // Configure the Java toolchain to use the specified version.",
    "    toolchain.languageVersion = JavaLanguageVersion.of(java_version)",
    "",
    "    // Automatically create sources and Javadoc JARs.",
    "    withSourcesJar()",
    "    withJavadocJar()",
    "\x7d",
    "",
    "repositories \x7b",
    "    mavenCentral()",
    "",
    "    // Use a dedicated repository for Sponge artifacts.",
    "    exclusiveContent \x7b",
    "        forRepository \x7b",
    "            maven \x7b",
    "                name = 'Sponge'",
    "                url = uri(\"https://repo.spongepowered.org/repository/maven-public\")",
    "            \x7d",
    "        \x7d",
    "        filter \x7b includeGroupAndSubgroups(\"org.spongepowered\") \x7d",
    "    \x7d",
    "",
    "    // Use specific repositories for ParchmentMC and NeoForge artifacts.",
    "    exclusiveContent \x7b",
    "        forRepositories(",
    "                maven \x7b",
    "                    name = 'ParchmentMC'",
    "                    url = uri(\"https://maven.parchmentmc.org/\")",
    "                \x7d,",
    "                maven \x7b",
    "                    name = \"NeoForge\"",
    "                    url = uri(\"https://maven.neoforged.net/releases\")",
    "                \x7d",
    "        )",
    "        filter \x7b includeGroup(\"org.parchmentmc.data\") \x7d",
    "    \x7d",
    "",
    "    // Additional repository for artifacts from net.blay09.mods.",
    "    maven \x7b",
    "        url = uri(\"https://maven.twelveiterations.com/repository/maven-public/\")",
    "        content \x7b",
    "            includeGroup \"net.blay09.mods\"",
    "        \x7d",
    "    \x7d",
    "",
    "    // Repository for BlameJared artifacts.",
    "    maven \x7b",
    "        name = \"BlameJared\"",
    "        url = uri(\"https://maven.blamejared.com\")",
    "    \x7d",
    "\x7d",
    "",
    "// Configure all Javadoc tasks to suppress Xdoclint warnings.",
    "tasks.withType(Javadoc).configureEach \x7b",
    "    options.addStringOption('Xdoclint:none', '-quiet')",
    "\x7d",
    ""]

/-- The template returned by `generatePluginGradle` for the location `platform`,
line by line. -/
def typePlatformGradle : String :=
  String.intercalate "\n" [
    "// #type-platform.gradle",
    "",
    "plugins \x7b",
    "    id 'type-common'",
    "\x7d",
    "",
    "configurations \x7b",
    "    // Define custom, resolvable configurations for Java sources and resources.",
    "    commonJava \x7b",
    "        canBeResolved = true",
    "    \x7d",
    "    commonResources \x7b",
    "        canBeResolved = true",
    "    \x7d",
    "\x7d",
    "",
    "dependencies \x7b",
    "    // Use compileOnly to add a dependency on the common module with a specific capability.",
    "    compileOnly(project(':core:app:common')) \x7b",
    "        capabilities \x7b",
    "            requireCapability \"$\x7bproject_group\x7d:$\x7bproject_id\x7d\"",
    "        \x7d",
    "    \x7d",
    "    // Populate the custom configurations from the common module.",
    "    commonJava project(path: ':core:app:common', configuration: 'commonJava')",
    "    commonResources project(path: ':core:app:common', configuration: 'commonResources')",
    "\x7d",
    "",
    "// Configure compileJava to compile additional source files from commonJava.",
    "tasks.named('compileJava', JavaCompile) \x7b",
    "    dependsOn configurations.commonJava",
    "    source configurations.commonJava",
    "\x7d",
    "",
    "// Include common resources during the processResources task.",
    "processResources \x7b",
    "    dependsOn configurations.commonResources",
    "    from configurations.commonResources",
    "\x7d",
    "",
    "// Configure javadoc to document the sources from commonJava.",
    "tasks.named('javadoc', Javadoc).configure \x7b",
    "    dependsOn configurations.commonJava",
    "    source configurations.commonJava",
    "\x7d",
    "",
    "// Configure sourcesJar to bundle both commonJava sources and commonResources.",
    "tasks.named('sourcesJar', Jar) \x7b",
    "    dependsOn configurations.commonJava, configurations.commonResources",
    "    from configurations.commonJava",
    "    from configurations.commonResources",
    "\x7d",
    ""]

/-- The function `generatePluginGradle(location)` (gradleGenerator.js, lines
285-566): a `switch` over the location, whose `default` branch throws. -/
def generatePluginGradle (location : String) : Promise String :=
  match location with
  | "common" => .ok typeCommonGradle
  | "library" => .ok typeLibraryGradle
  | "platform" => .ok typePlatformGradle
  | _ => .error ⟨"types-(common, library, platform) Gradle Location not recognized!"⟩

/-- The function `generatePluginsModule()` (folderGenerator.js, lines 28-37).
The contents are the promises returned by the generators, not awaited. -/
def generatePluginsModule : Promise (List TreeNode) :=
  let pluginsSrcPath := "src/main/groovy"
  pure [
    .file "build.gradle" (generateBuildGradle "plugins"),
    .file (pluginsSrcPath ++ "/type-common.gradle") (generatePluginGradle "common"),
    .file (pluginsSrcPath ++ "/type-library.gradle") (generatePluginGradle "library"),
    .file (pluginsSrcPath ++ "/type-platform.gradle") (generatePluginGradle "platform")]

/-- The first entry of the array `files` of `main()` (main.js, line 17), the
only call of a variant-selection generator made by the orchestrator: the
awaited value of `generateBuildGradle('root')` is the content of the node
`build.gradle`. -/
def rootBuildGradleNode : Promise TreeNode := do
  let content ← generateBuildGradle "root"
  pure (.file "build.gradle" (pure content))

/-! ## The network and the clock

The collaborators of the fetching generators. `fetch` is a parameter of the
embedding: it maps a URL to the response the network gives, or is rejected when
no response arrives. The year of `new Date()` is a parameter as well. -/

/-- An entry of the directory listing served by the GitHub contents API:
`download_url` is a string, or `null` (`none`) for an entry that is not a file. -/
structure RepoFile where
  name : String
  download_url : Option String
deriving DecidableEq, Repr

/-- A `Response` of the Fetch API, as far as the generators read it: the
flag `ok`, the numeric `status`, the `statusText`, and what the body readers
`text()`, `arrayBuffer()` and `json()` resolve with once the body has arrived.
A body that is not the JSON of a directory listing makes `json()`, or the loop
over its value, throw: `json` is rejected then. -/
structure Response where
  ok : Bool
  status : Nat
  statusText : String
  text : String := ""
  arrayBuffer : List Nat := []
  json : Promise (List RepoFile) := .error ⟨"Unexpected end of JSON input"⟩

/-- The global function `fetch`. -/
abbrev Fetch := String → Promise Response

/-! ## `fetchHelper.js` -/

/-- The function `fetchFile(url)` (fetchHelper.js, lines 68-74). -/
def fetchFile (fetch : Fetch) (url : String) : Promise (List Nat) := do
  let response ← fetch url
  if !response.ok then
    throw ⟨"Failed to download file: " ++ response.statusText⟩
  pure response.arrayBuffer

/-- The object `mapping` of `fetchLicenseMapping`: its own properties, in
order, and whether it still inherits from `Object.prototype`. -/
structure LicenseMapping where
  own : List (String × Option String) := []
  inherits : Bool := true
deriving DecidableEq, Repr

/-- The assignment `mapping[licenseId] = url`. On an object that inherits from
`Object.prototype` the name `__proto__` is the inherited accessor: its setter
ignores a string and, given `null`, removes the prototype. Any other assignment
defines or updates an own property. -/
def LicenseMapping.assign (mapping : LicenseMapping) (licenseId : String)
    (url : Option String) : LicenseMapping :=
  if licenseId = "__proto__" ∧ mapping.inherits = true then
    match url with
    | some _ => mapping
    | none => { mapping with inherits := false }
  else if (mapping.own.lookup licenseId).isSome then
    { mapping with
      own := mapping.own.map fun e => if e.1 = licenseId then (e.1, url) else e }
  else { mapping with own := mapping.own ++ [(licenseId, url)] }

/-- The property access `mapping[name]`: an own property, else a property
inherited from `Object.prototype`; `none` stands for `undefined` and `null`. -/
def LicenseMapping.get (mapping : LicenseMapping) (name : String) : Option JsValue :=
  match mapping.own.lookup name with
  | some (some url) => some (.str url)
  | some none => none
  | none => if mapping.inherits then objectPrototypeGet name else none

/-- The body of the loop of `fetchLicenseMapping` (lines 24-27):
`slice(0, -4)` drops the four characters of `.txt`. -/
def addLicenseFile (mapping : LicenseMapping) (file : RepoFile) : LicenseMapping :=
  if ".txt".data.reverse.isPrefixOf file.name.data.reverse then
    let licenseId := String.mk (file.name.data.take (file.name.data.length - 4))
    mapping.assign licenseId file.download_url
  else mapping

/-- The function `fetchLicenseMapping()` (fetchHelper.js, lines 9-36), given
the value of the module variable `cachedLicenses`: the mapping it resolves
with, and the value of `cachedLicenses` afterwards. The `catch` block turns
every failure into the empty mapping `{}` and leaves the cache as it was. -/
def fetchLicenseMapping (fetch : Fetch) (cachedLicenses : Option LicenseMapping) :
    LicenseMapping × Option LicenseMapping :=
  match cachedLicenses with
  | some cached => (cached, cachedLicenses)
  | none =>
    let attempt : Promise LicenseMapping := do
      let response ← fetch "https://api.github.com/repos/spdx/license-list-data/contents/text"
      if !response.ok then
        throw ⟨"Failed to fetch license list: " ++ response.statusText⟩
      let files ← response.json
      pure (files.foldl addLicenseFile {})
    match attempt with
    | .ok mapping => (mapping, some mapping)
    | .error _ => ({}, none)

/-! ## `gradleGenerator.js`: the wrapper scripts -/

/-- The function `generateGradlew()` (gradleGenerator.js, lines 255-262). -/
def generateGradlew (fetch : Fetch) : Promise String := do
  let url := "https://raw.githubusercontent.com/gradle/gradle/master/gradlew"
  let response ← fetch url
  if !response.ok then
    throw ⟨"Failed to fetch gradlew content: " ++ response.statusText⟩
  pure response.text

/-- The function `generateGradlewBat()` (lines 269-276). -/
def generateGradlewBat (fetch : Fetch) : Promise String := do
  let url := "https://raw.githubusercontent.com/gradle/gradle/master/gradlew.bat"
  let response ← fetch url
  if !response.ok then
    throw ⟨"Failed to fetch gradlew.bat content: " ++ response.statusText⟩
  pure response.text

/-! ## `licenseGenerator.js` -/

/-- The abstract operation `GetSubstitution` for a pattern without capture
groups: in the replacement text `$$` stands for `$`, `$&` for the matched text,
a `$` followed by a backtick for the text before the match and a `$` followed
by an apostrophe for the text after it; every other character, a `$` followed
by anything else included, stands for itself. -/
def getSubstitution (matched before after : List Char) : List Char → List Char
  | [] => []
  | [c] => [c]
  | c :: d :: rest =>
    if c = '$' then
      if d = '$' then '$' :: getSubstitution matched before after rest
      else if d = '&' then matched ++ getSubstitution matched before after rest
      else if d = Char.ofNat 96 then before ++ getSubstitution matched before after rest
      else if d = Char.ofNat 39 then after ++ getSubstitution matched before after rest
      else c :: getSubstitution matched before after (d :: rest)
    else c :: getSubstitution matched before after (d :: rest)

/-- The scan of `replace` with a global pattern that matches the text `pattern`
only: `before` is the part of the subject already scanned, `skip` the number of
characters of the current match still to pass over. Matches are found from left
to right and do not overlap; each is replaced by the substitution computed from
the whole subject. -/
def replaceScan (pattern replacement : List Char) :
    List Char → List Char → Nat → List Char
  | _, [], _ => []
  | before, c :: rest, skip + 1 => replaceScan pattern replacement (before ++ [c]) rest skip
  | before, c :: rest, 0 =>
    if pattern.isPrefixOf (c :: rest) then
      getSubstitution pattern before ((c :: rest).drop pattern.length) replacement ++
        replaceScan pattern replacement (before ++ [c]) rest (pattern.length - 1)
    else c :: replaceScan pattern replacement (before ++ [c]) rest 0

/-- The call `text.replace(/pattern/g, replacement)` for a pattern made of
literal characters (not empty) and a replacement string. -/
def replaceGlobal (text pattern replacement : String) : String :=
  String.mk (replaceScan pattern.data replacement.data [] text.data 0)

/-- The function `generateLicense(answers)` (licenseGenerator.js, lines 12-41),
for the year of the clock and the value of `cachedLicenses`; `answers` is `none`
when the argument is missing. The `catch` block logs and rethrows. A `url` that
is not a string is converted to one by `fetch`. -/
def generateLicense (fetch : Fetch) (year : Nat) (cachedLicenses : Option LicenseMapping)
    (answers : Option Answers) : Promise String :=
  match answers with
  | none => .error ⟨"License type is required."⟩
  | some answers =>
    if !truthy answers.project_license then .error ⟨"License type is required."⟩
    else
      let mapping := (fetchLicenseMapping fetch cachedLicenses).1
      match mapping.get answers.project_license with
      | none => .error ⟨"Unsupported license type: " ++ answers.project_license⟩
      | some url =>
        if !jsTruthy url then
          .error ⟨"Unsupported license type: " ++ answers.project_license⟩
        else do
          let response ← fetch (jsToString url)
          if !response.ok then
            throw ⟨"Failed to fetch license content: " ++ toString response.status ++ " " ++
              response.statusText⟩
          let licenseText := response.text
          let licenseText := replaceGlobal licenseText "<year>" (toString year)
          let licenseText := replaceGlobal licenseText "<copyright holders>"
            (if truthy answers.project_author then answers.project_author else "Unknown Author")
          pure licenseText

/-! ## Characterisation of the serializer -/

/-- The blocks a table array contributes: one per element, a `[[key]]` header
line followed by the element serialized as a top-level document. -/
def tableArrayBlocks (key : String) (items : List JsValue) : List String :=
  items.map fun item => "[[" ++ key ++ "]]\n" ++ serialize item "" ++ "\n"

/-- The text one entry adds to `result` when the prefix is empty. -/
def entryText (key : String) (value : JsValue) : String :=
  match value with
  | .arr items =>
      if isTableArray items then String.join (tableArrayBlocks key items)
      else inlineArrayLine key items
  | .obj entries =>
      if entries.length > 0 then "\n[" ++ key ++ "]\n" ++ serialize value "" else ""
  | _ => scalarLine key value

/-- The untrimmed text of a list of entries: the entry texts, in order. -/
def entriesText (entries : List (String × JsValue)) : String :=
  String.join (entries.map fun e => entryText e.1 e.2)

/-- The scalars of a StructuredDocument: strings, booleans and numbers. -/
def isScalar : JsValue → Bool
  | .str _ => true
  | .bool _ => true
  | .num _ => true
  | _ => false

/-- The text of a scalar in the config language: a string between double
quotes, a boolean as `true` or `false`, a number unquoted. -/
def scalarText : JsValue → String
  | .str v => "\"" ++ v ++ "\""
  | .bool b => if b then "true" else "false"
  | v => jsToString v

/-! ## Characterisation of the class template -/

/-- Lines 60-63 of `generateJavaTemplate`: the signature of one method. -/
def methodSignature (method : JavaMethod) : String :=
  let accessModifier := if truthy method.accessModifier then method.accessModifier ++ " " else ""
  let parameters := ", ".intercalate method.parameters
  let exceptions :=
    if method.exceptions.length > 0 then " throws " ++ ", ".intercalate method.exceptions else ""
  "    " ++ accessModifier ++
    (if truthy method.returnType then method.returnType else "void") ++ " " ++
    method.name ++ "(" ++ parameters ++ ")" ++ exceptions

/-- The lines of a text: the runs of characters between line feeds. -/
def splitLines : List Char → List (List Char)
  | [] => [[]]
  | c :: cs =>
      if c = '\n' then [] :: splitLines cs
      else
        match splitLines cs with
        | [] => [[c]]
        | l :: ls => (c :: l) :: ls

/-! ## Path templates

The paths of the composed nodes are built from literal text and from three
parameters. A template records that shape; two templates whose literal parts
disagree denote different paths whatever the parameters are. -/

/-- One piece of a path template: a literal character or a parameter. -/
inductive PathAtom where
  | chr (c : Char)
  | group
  | groupPath
  | projectId
deriving DecidableEq, Repr

/-- The text an atom stands for. -/
def PathAtom.eval (answers : Answers) : PathAtom → List Char
  | .chr c => [c]
  | .group => answers.project_group.data
  | .groupPath => (getGroupPath answers).data
  | .projectId => answers.project_id.data

/-- The characters of the path a template stands for. -/
def evalAtoms (answers : Answers) : List PathAtom → List Char
  | [] => []
  | x :: xs => x.eval answers ++ evalAtoms answers xs

/-- The path a template stands for. -/
def evalPath (answers : Answers) (t : List PathAtom) : String :=
  ⟨evalAtoms answers t⟩

/-- The template of a literal text. -/
def lits (s : String) : List PathAtom :=
  s.data.map PathAtom.chr

/-- The two templates without their longest common leading part. -/
def stripCommon : List PathAtom → List PathAtom → List PathAtom × List PathAtom
  | x :: xs, y :: ys => if x = y then stripCommon xs ys else (x :: xs, y :: ys)
  | xs, ys => (xs, ys)

/-- Whether a template holds a literal character. -/
def hasChr : List PathAtom → Bool
  | [] => false
  | .chr _ :: _ => true
  | _ :: xs => hasChr xs

/-- Whether two templates start with different literal characters. -/
def headsDiffer : List PathAtom → List PathAtom → Bool
  | .chr c :: _, .chr d :: _ => c ≠ d
  | _, _ => false

/-- A sufficient test for two templates to denote different paths: one is empty
and the other holds a character, or they start, or end, with different
characters. -/
def apartCore (s t : List PathAtom) : Bool :=
  (s.isEmpty && hasChr t) || (t.isEmpty && hasChr s) || headsDiffer s t ||
    headsDiffer s.reverse t.reverse

/-- The test `apartCore` after the common leading part, and then also the common
trailing part, has been removed. -/
def apart (s t : List PathAtom) : Bool :=
  let r := stripCommon s t
  let q := stripCommon r.1.reverse r.2.reverse
  apartCore r.1 r.2 || apartCore q.1.reverse q.2.reverse

/-- Whether all templates of a list are pairwise `apart`. -/
def allApart : List (List PathAtom) → Bool
  | [] => true
  | t :: ts => ts.all (apart t) && allApart ts

/-- The method `String.prototype.endsWith`. -/
def endsWith (s suffix : String) : Bool :=
  suffix.data.reverse.isPrefixOf s.data.reverse

/-- The method `String.prototype.includes`. -/
def includes (s sub : String) : Bool :=
  s.data.tails.any fun t => sub.data.isPrefixOf t

/-- Whether the path of a reversed template ends with a reversed suffix, when
the literal end of the template decides it. -/
def suffixVerdict : List PathAtom → List Char → Option Bool
  | _, [] => some true
  | [], _ :: _ => some false
  | .chr c :: t, d :: s => if c = d then suffixVerdict t s else some false
  | _ :: _, _ :: _ => none

/-- The templates of the ten nodes every platform module has, and of its
manifest and bootstrap stub. -/
def platformTemplates (plat cap manifest stub : String) : List (List PathAtom) :=
  let base := lits ("app/platform/" ++ plat)
  let java := base ++ lits "/src/main/java/" ++ [.groupPath] ++ lits "/" ++ [.projectId]
  [base ++ lits "/build.gradle",
   base ++ lits "/src/test/java/",
   base ++ lits "/runs/client/resources/",
   base ++ lits "/runs/data/",
   base ++ lits "/runs/server/",
   base ++ lits "/src/main/resources/META-INF/",
   java ++ lits "/mixins/",
   base ++ lits "/src/main/resources/" ++ [.projectId] ++ lits ("." ++ plat ++ ".mixins.json"),
   base ++ lits "/src/main/resources/META-INF/services/" ++ [.group] ++ lits "." ++ [.projectId] ++
     lits ".platform.services.IPlatformHelper",
   java ++ lits ("/platform/" ++ cap ++ "Platform.java"),
   base ++ lits ("/src/main/resources/" ++ manifest),
   java ++ lits ("/" ++ stub)]

/-- The templates of the paths of the nodes of `generateCoreModules`, in order. -/
def coreTemplates : List (List PathAtom) :=
  [lits "api/build.gradle",
   lits "api/src/main/resources/",
   lits "api/src/test/java/" ++ [.groupPath] ++ lits "/" ++ [.projectId] ++ lits "/",
   lits "api/src/main/java/" ++ [.groupPath] ++ lits "/" ++ [.projectId] ++ lits "/Api.java",
   lits "api/src/main/java/" ++ [.groupPath] ++ lits "/" ++ [.projectId] ++
     lits "/platform/services/IPlatformHelper.java",
   lits "utils/build.gradle",
   lits "utils/src/main/resources/",
   lits "utils/src/test/java/" ++ [.groupPath] ++ lits "/" ++ [.projectId] ++ lits "/",
   lits "utils/src/main/java/" ++ [.groupPath] ++ lits "/" ++ [.projectId] ++ lits "/Utils.java",
   lits "app/common/build.gradle",
   lits "app/common/src/main/resources/",
   lits "app/common/src/main/java/" ++ [.groupPath] ++ lits "/" ++ [.projectId] ++ lits "/mixins/",
   lits "app/common/src/main/resources/" ++ [.projectId] ++ lits ".mixins.json",
   lits "app/common/src/main/resources/pack.mcmeta",
   lits "app/common/src/test/java/" ++ [.groupPath] ++ lits "/" ++ [.projectId] ++ lits "/",
   lits "app/common/src/main/java/" ++ [.groupPath] ++ lits "/" ++ [.projectId] ++
     lits "/Common.java",
   lits "app/common/src/main/java/" ++ [.groupPath] ++ lits "/" ++ [.projectId] ++
     lits "/Constants.java"] ++
  platformTemplates "fabric" "Fabric" "fabric.mod.json" "FabricBootstrap.java" ++
  platformTemplates "forge" "Forge" "META-INF/forge.mods.toml" "ForgeBootstrap.java" ++
  platformTemplates "neoforge" "Neoforge" "META-INF/neoforge.mods.toml" "NeoForgeBootstrap.java"

/-- The nodes `generateCoreModules` resolves with. -/
def coreNodes (answers : Answers) : List TreeNode :=
  match generateCoreModules answers with
  | .ok nodes => nodes
  | .error _ => []

/-! ## Characterisation of the archive -/

/-- The data of the file entry at a path, if the table has one. -/
def fileAt (files : ZipFiles) (path : String) : Option (Promise String) :=
  match zipGet files path with
  | some (.file content) => some content
  | _ => none

/-- The root of the folder that `folder(path)` returns. -/
def folderRoot (root path : String) : String :=
  if truthy path then forceTrailingSlash (root ++ path) else root

mutual
/-- The file nodes below a node, in depth-first order, each with its archive
path: the root of the enclosing folder followed by the path of the node. -/
def nodeFileEntries : String → TreeNode → List (String × Promise String)
  | root, .file path content => [(root ++ path, content)]
  | root, .folder path children => childrenFileEntries (folderRoot root path) children
  | _, .invalid _ => []
/-- The file nodes of a forest, in depth-first order, with their archive paths. -/
def childrenFileEntries : String → List TreeNode → List (String × Promise String)
  | _, [] => []
  | root, node :: rest => nodeFileEntries root node ++ childrenFileEntries root rest
end

/-- The data last written at a path by a sequence of writes, over what was
there before. -/
def lastWrite (path : String) (before : Option (Promise String))
    (writes : List (String × Promise String)) : Option (Promise String) :=
  writes.foldl (fun acc w => if w.1 = path then some w.2 else acc) before

/-- A forest with one invalid node, at any depth, removed. -/
inductive RemovesInvalid : List TreeNode → List TreeNode → Prop where
  | here (path : String) (rest : List TreeNode) :
      RemovesInvalid (.invalid path :: rest) rest
  | later (node : TreeNode) {forest forest' : List TreeNode} :
      RemovesInvalid forest forest' → RemovesInvalid (node :: forest) (node :: forest')
  | inside (path : String) {children children' : List TreeNode} (rest : List TreeNode) :
      RemovesInvalid children children' →
      RemovesInvalid (.folder path children :: rest) (.folder path children' :: rest)

/-- Every file of a table holds resolved data. -/
def Resolved (files : ZipFiles) : Prop :=
  ∀ e ∈ files, e.2 = ZipObject.dir ∨ ∃ s, e.2 = ZipObject.file (.ok s)

/-- An input of the form `[v]MAJOR.MINOR.PATCH[-TAG]`: whether the leading `v`
is present, the three components, and the tag when there is one. -/
structure VersionForm where
  v : Bool
  major : String
  minor : String
  patch : String
  tag : Option String
deriving DecidableEq, Repr

/-- A non-empty run of characters of a class. -/
def isRun (p : Char → Bool) (s : String) : Bool :=
  !s.data.isEmpty && s.data.all p

/-- A tag, when there is one, is a non-empty run of ASCII letters and digits. -/
def isTag (tag : Option String) : Bool :=
  match tag with
  | some t => isRun isTagChar t
  | none => true

/-- The components are non-empty runs of decimal digits, the tag a non-empty
run of ASCII letters and digits. -/
def VersionForm.wellFormed (f : VersionForm) : Bool :=
  isRun isDigitChar f.major && isRun isDigitChar f.minor && isRun isDigitChar f.patch &&
  isTag f.tag

/-- The suffix `-TAG`, empty when there is no tag. -/
def tagText (tag : Option String) : String :=
  match tag with
  | some t => "-" ++ t
  | none => ""

/-- The text of a version of the form `[v]MAJOR.MINOR.PATCH[-TAG]`. -/
def VersionForm.text (f : VersionForm) : String :=
  (if f.v then "v" else "") ++ f.major ++ "." ++ f.minor ++ "." ++ f.patch ++ tagText f.tag

/-- The children of a folder among which two file nodes have the same path, the
one with the data `first` coming before the one with the data `later`. -/
def duplicateSiblings (path : String) (first later : Promise String)
    (before between after : List TreeNode) : List TreeNode :=
  before ++ .file path first :: (between ++ .file path later :: after)

/-! ## Characterisation of the Java sources of the composed tree -/

/-- The elements of a list selected by a list of flags. -/
def selectBy {α : Type} : List α → List Bool → List α
  | x :: xs, true :: bs => x :: selectBy xs bs
  | _ :: xs, false :: bs => selectBy xs bs
  | _, _ => []

/-- The node of a Java source whose path mirrors its declaration: below the
source root `src/main/java/` of a module, the directories of the declared
package (every `.` replaced by `/`) and the file named after the declared
class; the content is the text `generateJavaTemplate` emits for the class,
which opens with `package <packageName>;` and declares `<type> <name>`. -/
def javaSourceNode (moduleRoot : String) (c : JavaClass) : TreeNode :=
  .file (moduleRoot ++ "src/main/java/" ++ replaceAllChar c.packageName '.' "/" ++ "/" ++
      c.name ++ ".java")
    (.ok (generateJavaTemplate c))

/-- The class `Api` of the API module (lines 85-90). -/
def apiClass (answers : Answers) : JavaClass :=
  { name := "Api",
    packageName := answers.project_group ++ "." ++ answers.project_id,
    type := "class",
    methods := [] }

/-- The interface `IPlatformHelper` of the API module (lines 94-99). -/
def platformHelperClass (answers : Answers) : JavaClass :=
  { name := "IPlatformHelper",
    packageName := answers.project_group ++ "." ++ answers.project_id ++ ".platform.services",
    type := "interface",
    methods := [] }

/-- The class `Utils` of the utilities module (lines 120-125). -/
def utilsClass (answers : Answers) : JavaClass :=
  { name := "Utils",
    packageName := answers.project_group ++ "." ++ answers.project_id,
    type := "class",
    methods := [] }

/-- The class `Common` of the common module (lines 167-177). -/
def commonClass (answers : Answers) : JavaClass :=
  { name := "Common",
    packageName := answers.project_group ++ "." ++ answers.project_id,
    type := "class",
    methods := [
      { name := "initialize",
        accessModifier := "public static",
        returnType := "void",
        bodyLines := ["// Add any needed initialization code here."] }] }

/-- The class `Constants` of the common module (lines 181-193). -/
def constantsClass (answers : Answers) : JavaClass :=
  { name := "Constants",
    packageName := answers.project_group ++ "." ++ answers.project_id,
    type := "class",
    fields := [
      { accessModifier := "public",
        isStaticFinal := true,
        type := "String",
        name := "PROJECT_ID",
        initialValue := "\"" ++ answers.project_id ++ "\"" }],
    methods := [] }

/-- The class `<Platform>Platform` of a platform module (lines 246-253). -/
def platformClass (capPlatform : String) (answers : Answers) : JavaClass :=
  { name := capPlatform ++ "Platform",
    packageName := answers.project_group ++ "." ++ answers.project_id ++ ".platform",
    type := "class",
    implementInterfaces := ["IPlatformHelper"],
    imports := [answers.project_group ++ "." ++ answers.project_id ++
      ".platform.services.IPlatformHelper"],
    methods := [] }

/-- The bootstrap stub of the Fabric module (lines 293-307). -/
def fabricBootstrapClass (answers : Answers) : JavaClass :=
  { name := "FabricBootstrap",
    packageName := answers.project_group ++ "." ++ answers.project_id,
    implementInterfaces := ["ModInitializer"],
    imports := ["net.fabricmc.api.ModInitializer"],
    methods := [
      { name := "onInitialize",
        accessModifier := "public",
        annotations := ["Override"],
        bodyLines := ["// Initialization code", "Common.initialize();"] }] }

/-- The bootstrap stub of the Forge module (lines 265-282). -/
def forgeBootstrapClass (answers : Answers) : JavaClass :=
  { name := "ForgeBootstrap",
    packageName := answers.project_group ++ "." ++ answers.project_id,
    imports := ["net.minecraftforge.fml.common.Mod",
                "net.minecraftforge.fml.javafmlmod.FMLJavaModLoadingContext"],
    annotations := ["Mod(Constants.PROJECT_ID)"],
    methods := [
      { name := "ForgeBootstrap",
        accessModifier := "public",
        parameters := ["FMLJavaModLoadingContext context"],
        bodyLines := ["// Initialization code", "Common.initialize();"] }] }

/-- The bootstrap stub of the NeoForge module (lines 318-335). -/
def neoForgeBootstrapClass (answers : Answers) : JavaClass :=
  { name := "NeoForgeBootstrap",
    packageName := answers.project_group ++ "." ++ answers.project_id,
    imports := ["net.neoforged.bus.api.IEventBus", "net.neoforged.fml.common.Mod"],
    annotations := ["Mod(Constants.PROJECT_ID)"],
    methods := [
      { name := "NeoForgeBootstrap",
        accessModifier := "public",
        parameters := ["IEventBus modBus"],
        bodyLines := ["// Initialization code", "Common.initialize();"] }] }

/-- The Java sources of the composed tree, in the order of the tree: each class
description with the root of its module. -/
def composedClasses (answers : Answers) : List (String × JavaClass) :=
  [("api/", apiClass answers),
   ("api/", platformHelperClass answers),
   ("utils/", utilsClass answers),
   ("app/common/", commonClass answers),
   ("app/common/", constantsClass answers),
   ("app/platform/fabric/", platformClass "Fabric" answers),
   ("app/platform/fabric/", fabricBootstrapClass answers),
   ("app/platform/forge/", platformClass "Forge" answers),
   ("app/platform/forge/", forgeBootstrapClass answers),
   ("app/platform/neoforge/", platformClass "Neoforge" answers),
   ("app/platform/neoforge/", neoForgeBootstrapClass answers)]

/-- The two nodes of a platform module that go by class names: the
service-registration file, named after the fully-qualified name of the
interface `IPlatformHelper` and holding the fully-qualified name of the class
`<Platform>Platform`, and the source of that class. -/
def serviceNodes (platform capPlatform : String) (answers : Answers) : List TreeNode :=
  [.file ("app/platform/" ++ platform ++ "/src/main/resources/META-INF/services/" ++
      ((platformHelperClass answers).packageName ++ "." ++ (platformHelperClass answers).name))
     (.ok ((platformClass capPlatform answers).packageName ++ "." ++
      (platformClass capPlatform answers).name)),
   .file ("app/platform/" ++ platform ++ "/src/main/java/" ++ getGroupPath answers ++ "/" ++
      answers.project_id ++ "/platform/" ++ (platformClass capPlatform answers).name ++ ".java")
     (.ok (generateJavaTemplate (platformClass capPlatform answers)))]

/-- A file node whose content is resolved. -/
def TreeNode.isResolvedFile : TreeNode → Bool
  | .file _ (.ok _) => true
  | _ => false

/-! ## A sample network -/

/-- A network that serves the directory listing of the license texts (the
files `MIT.txt` and `README.md`) and the text of the MIT license, and on which
`fetch` is rejected for any other argument, as it is for a string that is not a
URL. -/
def sampleFetch : Fetch := fun url =>
  if url = "https://api.github.com/repos/spdx/license-list-data/contents/text" then
    .ok { ok := true, status := 200, statusText := "OK",
          json := .ok [⟨"MIT.txt", some "https://example.org/MIT.txt"⟩,
                       ⟨"README.md", some "https://example.org/README.md"⟩] }
  else if url = "https://example.org/MIT.txt" then
    .ok { ok := true, status := 200, statusText := "OK",
          text := "Copyright (c) <year> <copyright holders>" }
  else .error ⟨"Failed to parse URL from " ++ url⟩

/-! ## The numbers modelled -/

mutual
/-- Whether every number of a value is a safe integer, of absolute value below
2^53: the numbers whose text the model gives as the code does. -/
def JsValue.safe : JsValue → Bool
  | .num n => decide (n.natAbs < 2 ^ 53)
  | .arr items => safeItems items
  | .obj entries => safeEntries entries
  | _ => true
/-- Whether every number of a list of values is a safe integer. -/
def safeItems : List JsValue → Bool
  | [] => true
  | value :: rest => value.safe && safeItems rest
/-- Whether every number of the values of a list of properties is a safe
integer. -/
def safeEntries : List (String × JsValue) → Bool
  | [] => true
  | (_, value) :: rest => value.safe && safeEntries rest
end

/-- The outcome of a run of `generateProjectZip` that generated `archive`: the
archive once its copy is written to the file `name`, the error of the write
otherwise. -/
def afterWrite (writeFileSync : WriteFileSync) (name : String)
    (archive : List (String × ArchiveEntry)) : Promise (List (String × ArchiveEntry)) :=
  match writeFileSync name archive with
  | .ok _ => .ok archive
  | .error e => .error e

/-- A working directory without sub-directories: writing a file whose name has a
`/` throws `ENOENT`, any other write is done. -/
def flatDirectory : WriteFileSync := fun name _ =>
  if '/' ∈ name.data then .error ⟨"ENOENT: no such file or directory"⟩ else .ok ()

theorem join_cons (a : String) (l : List String) :
    String.join (a :: l) = a ++ String.join l := by
  apply String.ext
  simp [String.data_join]

theorem join_nil : String.join [] = "" := rfl

theorem join_append (l₁ l₂ : List String) :
    String.join (l₁ ++ l₂) = String.join l₁ ++ String.join l₂ := by
  apply String.ext
  simp [String.data_join]

theorem tomlKeyOf_empty (key : String) : tomlKeyOf "" key = key := by
  simp [tomlKeyOf, truthy]

theorem serializeItems_eq (items : List JsValue) (key result : String) :
    serializeItems items key result = result ++ String.join (tableArrayBlocks key items) := by
  induction items generalizing result with
  | nil => simp [serializeItems, tableArrayBlocks, join_nil]
  | cons item rest ih =>
    rw [serializeItems, ih]
    simp [tableArrayBlocks, join_cons, String.append_assoc]



theorem serializeEntries_eq (entries : List (String × JsValue)) (result : String) :
    serializeEntries entries "" result = result ++ entriesText entries := by
  induction entries generalizing result with
  | nil => simp [serializeEntries, entriesText, join_nil]
  | cons e rest ih =>
    obtain ⟨key, value⟩ := e
    have step : entriesText ((key, value) :: rest) = entryText key value ++ entriesText rest := by
      simp [entriesText, join_cons]
    rw [step]
    cases value with
    | arr items =>
      simp only [serializeEntries, ih, tomlKeyOf_empty, entryText, serializeItems_eq]
      split <;> simp [String.append_assoc]
    | obj es =>
      simp only [serializeEntries, ih, tomlKeyOf_empty, entryText]
      split <;> simp [String.append_assoc]
    | _ => simp [serializeEntries, ih, tomlKeyOf_empty, entryText, String.append_assoc]


/-! ### Trimming -/

theorem trimChars_getLast (cs : List Char) (c : Char)
    (h : (trimChars cs).getLast? = some c) : isJsWhitespace c = false := by
  unfold trimChars at h
  rw [List.getLast?_reverse] at h
  have := List.head?_dropWhile_not isJsWhitespace (cs.dropWhile isJsWhitespace).reverse
  rw [h] at this
  simpa using this

theorem trimChars_append_newline (l : List Char) (a z : Char)
    (ha : l.head? = some a) (hz : l.getLast? = some z)
    (hha : isJsWhitespace a = false) (hhz : isJsWhitespace z = false) :
    trimChars (l ++ ['\n']) = l := by
  unfold trimChars
  cases l with
  | nil => simp at ha
  | cons x xs =>
    simp only [List.head?_cons, Option.some.injEq] at ha
    subst ha
    have h1 : ((x :: xs) ++ ['\n']).dropWhile isJsWhitespace = (x :: xs) ++ ['\n'] := by
      simp [List.dropWhile_cons, hha]
    rw [h1, List.reverse_append]
    have h2 : isJsWhitespace '\n' = true := by decide
    have h3 : (x :: xs).reverse.head? = some z := by rw [List.head?_reverse]; exact hz
    cases hr : (x :: xs).reverse with
    | nil => simp at hr
    | cons y ys =>
      rw [hr] at h3
      simp only [List.head?_cons, Option.some.injEq] at h3
      subst h3
      simp only [List.reverse_cons, List.reverse_nil, List.nil_append, List.singleton_append]
      rw [List.dropWhile_cons_of_pos h2, List.dropWhile_cons_of_neg (by simp [hhz])]
      rw [← hr, List.reverse_reverse]

theorem jsTrim_append_newline (s : String) (a z : Char)
    (ha : s.data.head? = some a) (hz : s.data.getLast? = some z)
    (hha : isJsWhitespace a = false) (hhz : isJsWhitespace z = false) :
    jsTrim (s ++ "\n") = s := by
  apply String.ext
  simp only [jsTrim, String.data_append]
  exact trimChars_append_newline s.data a z ha hz hha hhz

theorem head_of_trimmed (k : String) (hk : k ≠ "") (ht : jsTrim k = k) :
    ∃ a, k.data.head? = some a ∧ isJsWhitespace a = false := by
  have hd : trimChars k.data = k.data := by
    have := congrArg String.data ht
    simpa [jsTrim] using this
  cases hkd : k.data with
  | nil => exact absurd (String.ext (by simpa using hkd)) hk
  | cons a l =>
    refine ⟨a, rfl, ?_⟩
    by_contra hw
    have hw' : isJsWhitespace a = true := by simpa using hw
    have hlen : (trimChars k.data).length ≤ l.length := by
      unfold trimChars
      rw [hkd, List.dropWhile_cons_of_pos hw', List.length_reverse]
      calc ((l.dropWhile isJsWhitespace).reverse.dropWhile isJsWhitespace).length
          ≤ (l.dropWhile isJsWhitespace).reverse.length := (List.dropWhile_sublist _).length_le
        _ = (l.dropWhile isJsWhitespace).length := List.length_reverse _
        _ ≤ l.length := (List.dropWhile_sublist _).length_le
    rw [hd, hkd] at hlen
    simp at hlen

/-! ### Decimal rendering of numbers -/

theorem toDigitsCore_suffix (fuel n : Nat) (ds : List Char) :
    ∃ pre, Nat.toDigitsCore 10 fuel n ds = pre ++ ds := by
  induction fuel generalizing n ds with
  | zero => exact ⟨[], rfl⟩
  | succ f ih =>
    simp only [Nat.toDigitsCore]
    split
    · exact ⟨[Nat.digitChar (n % 10)], rfl⟩
    · obtain ⟨pre, h⟩ := ih (n / 10) (Nat.digitChar (n % 10) :: ds)
      exact ⟨pre ++ [Nat.digitChar (n % 10)], by simp [h]⟩

theorem toDigits_last (n : Nat) :
    (Nat.toDigits 10 n).getLast? = some (Nat.digitChar (n % 10)) := by
  unfold Nat.toDigits
  simp only [Nat.toDigitsCore]
  split
  · rfl
  · obtain ⟨pre, h⟩ := toDigitsCore_suffix n (n / 10) [Nat.digitChar (n % 10)]
    rw [h]; simp

theorem digitChar_not_whitespace (d : Nat) (h : d < 10) :
    isJsWhitespace (Nat.digitChar d) = false := by
  interval_cases d <;> decide

theorem natRepr_last (n : Nat) :
    ∃ z, (Nat.repr n).data.getLast? = some z ∧ isJsWhitespace z = false :=
  ⟨Nat.digitChar (n % 10), by simp [Nat.repr, List.asString, toDigits_last],
    digitChar_not_whitespace _ (Nat.mod_lt _ (by decide))⟩

theorem intToString_last (n : Int) :
    ∃ z, (toString n).data.getLast? = some z ∧ isJsWhitespace z = false := by
  cases n with
  | ofNat m => exact natRepr_last m
  | negSucc m =>
    obtain ⟨z, hz, hw⟩ := natRepr_last (m + 1)
    refine ⟨z, ?_, hw⟩
    show ("-" ++ Nat.repr (m + 1)).data.getLast? = some z
    simp only [String.data_append]
    show ('-' :: (Nat.repr (m + 1)).data).getLast? = some z
    cases hl : (Nat.repr (m + 1)).data with
    | nil => rw [hl] at hz; simp at hz
    | cons y ys => rw [hl] at hz; rw [List.getLast?_cons_cons]; exact hz


/-! ### The serializer on a whole document -/

theorem entriesText_append (pre post : List (String × JsValue)) :
    entriesText (pre ++ post) = entriesText pre ++ entriesText post := by
  simp [entriesText, join_append]

theorem entriesText_cons (key : String) (value : JsValue) (rest : List (String × JsValue)) :
    entriesText ((key, value) :: rest) = entryText key value ++ entriesText rest := by
  simp [entriesText, join_cons]

theorem serialize_obj (entries : List (String × JsValue)) :
    serialize (.obj entries) "" = jsTrim (entriesText entries) ++ "\n" := by
  rw [serialize, serializeEntries_eq, String.empty_append]

theorem isTableArray_of_documents (items : List JsValue) (hne : items ≠ [])
    (hdocs : ∀ v ∈ items, ∃ es, v = JsValue.obj es) : isTableArray items = true := by
  cases items with
  | nil => exact absurd rfl hne
  | cons first rest =>
    obtain ⟨es, rfl⟩ := hdocs first (List.mem_cons_self _ _)
    rfl

theorem isTableArray_of_scalars (items : List JsValue)
    (hs : ∀ v ∈ items, isScalar v = true) : isTableArray items = false := by
  cases items with
  | nil => rfl
  | cons first rest =>
    have := hs first (List.mem_cons_self _ _)
    cases first <;> simp_all [isTableArray, isObjectType, isScalar]

theorem jsToString_formatValue_scalar (v : JsValue) (hs : isScalar v = true) :
    jsToString (formatValue v) = scalarText v := by
  cases v <;> simp_all [isScalar, formatValue, jsToString, scalarText]

theorem scalarText_last (v : JsValue) (hs : isScalar v = true) :
    ∃ z, (scalarText v).data.getLast? = some z ∧ isJsWhitespace z = false := by
  cases v with
  | str s =>
    refine ⟨Char.ofNat 34, ?_, by decide⟩
    show ((Char.ofNat 34 :: s.data) ++ [Char.ofNat 34]).getLast? = _
    rw [List.getLast?_concat]
  | bool b => cases b <;> exact ⟨'e', by simp [scalarText], by decide⟩
  | num n => exact intToString_last n
  | fn src => simp [isScalar] at hs
  | arr items => simp [isScalar] at hs
  | obj es => simp [isScalar] at hs


theorem entryText_scalar_array (k : String) (items : List JsValue)
    (hs : ∀ v ∈ items, isScalar v = true) :
    entryText k (.arr items) = k ++ " = [" ++ ", ".intercalate (items.map scalarText) ++ "]\n" := by
  have hmap : items.map (fun v => jsToString (formatValue v)) = items.map scalarText :=
    List.map_congr_left fun v hv => jsToString_formatValue_scalar v (hs v hv)
  simp [entryText, isTableArray_of_scalars items hs, inlineArrayLine, hmap]

theorem getLast_append (s t : String) (z : Char) (h : t.data.getLast? = some z) :
    (s ++ t).data.getLast? = some z := by
  simp [String.data_append, h]

theorem single_line_document (k body : String) (a z : Char)
    (ha : k.data.head? = some a) (hha : isJsWhitespace a = false)
    (hz : body.data.getLast? = some z) (hhz : isJsWhitespace z = false)
    (value : JsValue) (hv : entryText k value = k ++ body ++ "\n") :
    buildTomlString (.obj [(k, value)]) = .ok (k ++ body ++ "\n") := by
  have hhead : (k ++ body).data.head? = some a := by
    cases hk : k.data with
    | nil => rw [hk] at ha; simp at ha
    | cons x xs => rw [hk] at ha; simp [String.data_append, hk] at ha ⊢; exact ha
  have hlast : (k ++ body).data.getLast? = some z := by
    simp [String.data_append, hz]
  simp only [buildTomlString, serialize_obj, entriesText_cons, hv]
  have hnil : entriesText [] = "" := rfl
  rw [hnil, String.append_empty, jsTrim_append_newline (k ++ body) a z hhead hlast hha hhz]

/-- Claim C2, refuted as stated: a sequence mixing a scalar and a sub-document
is not rejected; `{k: [1, {a: 1}]}` and `{k: [{a: 1}, 1]}` both serialize to a
string. -/
theorem buildTomlString_mixed_sequence_accepted :
    buildTomlString (.obj [("k", .arr [.num 1, .obj [("a", .num 1)]])]) =
      .ok "k = [1, [object Object]]\n" ∧
    buildTomlString (.obj [("k", .arr [.obj [("a", .num 1)], .num 1])]) =
      .ok "[[k]]\na = 1\n\n[[k]]\n" :=
  ⟨rfl, rfl⟩

/-- Claim C2, amended: the serializer never fails; a mixed sequence is coerced
to text. With the scalar first the sequence is written inline and the
sub-document appears as `[object Object]`; with the sub-document first the
sequence is written as a table array, one `[[k]]` block per element, the scalar
being serialized as if it were a document. -/
theorem buildTomlString_mixed_sequence_coerced (k : String) (s : JsValue)
    (d : List (String × JsValue)) (hs : isScalar s = true) :
    (∀ data, ∃ out, buildTomlString data = .ok out) ∧
    buildTomlString (.obj [(k, .arr [s, .obj d])]) =
      .ok (jsTrim (k ++ " = [" ++ scalarText s ++ ", [object Object]]\n") ++ "\n") ∧
    buildTomlString (.obj [(k, .arr [.obj d, s])]) =
      .ok (jsTrim ("[[" ++ k ++ "]]\n" ++ serialize (.obj d) "" ++ "\n" ++
        ("[[" ++ k ++ "]]\n" ++ serialize s "" ++ "\n")) ++ "\n") := by
  refine ⟨fun data => ⟨_, rfl⟩, ?_, ?_⟩
  · have h1 : isTableArray [s, .obj d] = false := by
      cases s <;> simp_all [isTableArray, isObjectType, isScalar]
    simp only [buildTomlString, serialize_obj, entriesText_cons, entryText, h1]
    have h2 : jsToString (formatValue (.obj d)) = "[object Object]" := rfl
    simp [entriesText, join_nil, inlineArrayLine, String.intercalate, String.intercalate.go,
      jsToString_formatValue_scalar s hs, h2, String.append_assoc]
  · simp only [buildTomlString, serialize_obj, entriesText_cons, entryText, isTableArray,
      isObjectType]
    simp [entriesText, join_nil, join_cons, tableArrayBlocks, String.append_assoc, serialize_obj]

theorem buildTomlString_mixed_sequence_coerced_witness :
    isScalar (.num 1) = true ∧
    ((∀ data, ∃ out, buildTomlString data = .ok out) ∧
    buildTomlString (.obj [("k", .arr [.num 1, .obj [("a", .num 1)]])]) =
      .ok (jsTrim ("k" ++ " = [" ++ scalarText (.num 1) ++ ", [object Object]]\n") ++ "\n") ∧
    buildTomlString (.obj [("k", .arr [.obj [("a", .num 1)], .num 1])]) =
      .ok (jsTrim ("[[" ++ "k" ++ "]]\n" ++ serialize (.obj [("a", .num 1)]) "" ++ "\n" ++
        ("[[" ++ "k" ++ "]]\n" ++ serialize (.num 1) "" ++ "\n")) ++ "\n")) :=
  ⟨rfl, buildTomlString_mixed_sequence_coerced "k" (.num 1) [("a", .num 1)] rfl⟩

/-- Claim C3, evaluated at `{ a: { b: { c: 1 } } }`: the header of the inner
section is `[b]`, the key alone, and not the dot-joined path `[a.b]`, because
the nested call is `serialize(value, "")`. -/
theorem buildTomlString_nested_header_unqualified :
    buildTomlString (.obj [("a", .obj [("b", .obj [("c", .num 1)])])]) =
      .ok "[a]\n[b]\nc = 1\n" :=
  rfl

theorem join_ends_newline (l : List String) (hl : l ≠ [])
    (h : ∀ x ∈ l, x.data.getLast? = some '\n') :
    (String.join l).data.getLast? = some '\n' := by
  induction l with
  | nil => exact absurd rfl hl
  | cons x xs ih =>
    rw [join_cons]
    cases xs with
    | nil =>
      have := h x (List.mem_cons_self _ _)
      simpa [join_nil] using this
    | cons y ys =>
      exact getLast_append _ _ _
        (ih (by simp) fun z hz => h z (List.mem_cons_of_mem _ hz))

theorem serialize_ends_newline (value : JsValue) (pfx : String) :
    (serialize value pfx).data.getLast? = some '\n' := by
  cases value <;> simp [serialize, String.data_append]

theorem entryText_ends_newline (key : String) (value : JsValue) :
    entryText key value = "" ∨ (entryText key value).data.getLast? = some '\n' := by
  cases value with
  | arr items =>
    simp only [entryText]
    split
    · right
      rename_i ht
      apply join_ends_newline
      · cases items with
        | nil => simp [isTableArray] at ht
        | cons a l => simp [tableArrayBlocks]
      · intro x hx
        simp only [tableArrayBlocks, List.mem_map] at hx
        obtain ⟨item, _, rfl⟩ := hx
        exact getLast_append _ _ _ rfl
    · exact Or.inr (getLast_append _ _ _ rfl)
  | obj es =>
    simp only [entryText]
    split
    · exact Or.inr (getLast_append _ _ _ (serialize_ends_newline _ _))
    · exact Or.inl rfl
  | str s => exact Or.inr (getLast_append _ _ _ rfl)
  | bool b => exact Or.inr (getLast_append _ _ _ rfl)
  | num n => exact Or.inr (getLast_append _ _ _ rfl)
  | fn src => exact Or.inr (getLast_append _ _ _ rfl)

theorem entriesText_ends_newline (entries : List (String × JsValue)) :
    entriesText entries = "" ∨ (entriesText entries).data.getLast? = some '\n' := by
  induction entries with
  | nil => exact Or.inl rfl
  | cons e rest ih =>
    obtain ⟨key, value⟩ := e
    rw [entriesText_cons]
    rcases ih with h | h
    · rw [h, String.append_empty]
      exact entryText_ends_newline key value
    · exact Or.inr (getLast_append _ _ _ h)

/-- Claim C4: a key `k` whose value is a non-empty sequence of documents adds to
the text accumulated so far (which is empty or ends a line), for each element
in sequence order, one block made of the line `[[k]]`, the element serialized
as a top-level document (its keys unprefixed) and a newline; there are as many
blocks, hence `[[k]]` header lines, as elements. -/
theorem buildTomlString_table_array (pre post : List (String × JsValue)) (k : String)
    (items : List JsValue) (hne : items ≠ [])
    (hdocs : ∀ v ∈ items, ∃ es, v = JsValue.obj es) :
    buildTomlString (.obj (pre ++ (k, .arr items) :: post)) =
      .ok (jsTrim (entriesText pre ++
        String.join (items.map fun item => "[[" ++ k ++ "]]\n" ++ serialize item "" ++ "\n") ++
        entriesText post) ++ "\n") ∧
    (entriesText pre = "" ∨ (entriesText pre).data.getLast? = some '\n') ∧
    (items.map fun item => "[[" ++ k ++ "]]\n" ++ serialize item "" ++ "\n").length =
      items.length ∧
    (∀ item ∈ items, buildTomlString item = .ok (serialize item "")) ∧
    buildTomlString (.obj [("mods", .arr [.obj [("modId", .str "x")], .obj [("modId", .str "y")]])]) =
      .ok "[[mods]]\nmodId = \"x\"\n\n[[mods]]\nmodId = \"y\"\n" := by
  refine ⟨?_, entriesText_ends_newline pre, by simp, fun _ _ => rfl, rfl⟩
  simp only [buildTomlString, serialize_obj, entriesText_append, entriesText_cons, entryText,
    isTableArray_of_documents items hne hdocs, if_true, tableArrayBlocks, String.append_assoc]

theorem buildTomlString_table_array_witness :
    buildTomlString (.obj ([("a", .num 1)] ++ ("k", .arr [.obj [("b", .num 2)], .obj []]) :: [])) =
      .ok (jsTrim (entriesText [("a", .num 1)] ++
        String.join ([JsValue.obj [("b", .num 2)], .obj []].map
          fun item => "[[" ++ "k" ++ "]]\n" ++ serialize item "" ++ "\n") ++
        entriesText []) ++ "\n") :=
  (buildTomlString_table_array [("a", .num 1)] [] "k" [.obj [("b", .num 2)], .obj []]
    (by simp) (by simp)).1

/-- Claim C5, refuted as stated: the empty key has no leading or trailing
whitespace, yet `{"": "v"}` gives `= "v"` and not ` = "v"`: the leading space
is trimmed away. -/
theorem buildTomlString_empty_key :
    buildTomlString (.obj [("", .str "v")]) = .ok "= \"v\"\n" ∧
    buildTomlString (.obj [("", .str "v")]) ≠ .ok ("" ++ " = \"" ++ "v" ++ "\"\n") := by
  refine ⟨rfl, ?_⟩
  intro h
  injection h with h
  revert h
  decide

/-- Claim C5, amended to non-empty keys and to the numbers that are safe
integers: for a non-empty key `k` without leading or trailing whitespace, the
one-entry document `{k: v}` serializes to `k = "v"` for a string (copied
verbatim), `k = true` or `k = false` for a boolean, `k = n` in decimal for an
integer `n` of absolute value below 2^53, and `k = [e1, e2, …]` for a sequence
of such scalars, the elements formatted by the same rule and separated by a
comma and a space. -/
theorem buildTomlString_scalar_formatting (k : String) (hk : k ≠ "") (ht : jsTrim k = k) :
    (∀ v : String, buildTomlString (.obj [(k, .str v)]) = .ok (k ++ " = \"" ++ v ++ "\"\n")) ∧
    buildTomlString (.obj [(k, .bool true)]) = .ok (k ++ " = true\n") ∧
    buildTomlString (.obj [(k, .bool false)]) = .ok (k ++ " = false\n") ∧
    (∀ n : Int, n.natAbs < 2 ^ 53 →
      buildTomlString (.obj [(k, .num n)]) = .ok (k ++ " = " ++ toString n ++ "\n")) ∧
    (∀ items : List JsValue, (∀ v ∈ items, isScalar v = true ∧ v.safe = true) →
      buildTomlString (.obj [(k, .arr items)]) =
        .ok (k ++ " = [" ++ ", ".intercalate (items.map scalarText) ++ "]\n")) ∧
    buildTomlString (.obj [(k, .arr [])]) = .ok (k ++ " = []\n") := by
  obtain ⟨a, ha, hha⟩ := head_of_trimmed k hk ht
  have key : ∀ (value : JsValue) (body : String) (z : Char),
      body.data.getLast? = some z → isJsWhitespace z = false →
      entryText k value = k ++ body ++ "\n" →
      buildTomlString (.obj [(k, value)]) = .ok (k ++ body ++ "\n") :=
    fun value body z hz hhz hv => single_line_document k body a z ha hha hz hhz value hv
  have harr : ∀ items : List JsValue, (∀ v ∈ items, isScalar v = true ∧ v.safe = true) →
      buildTomlString (.obj [(k, .arr items)]) =
        .ok (k ++ " = [" ++ ", ".intercalate (items.map scalarText) ++ "]\n") := by
    intro items hsafe
    have hs : ∀ v ∈ items, isScalar v = true := fun v hv => (hsafe v hv).1
    have := key (.arr items) (" = [" ++ ", ".intercalate (items.map scalarText) ++ "]") ']'
      (getLast_append _ _ _ rfl) (by decide)
      (by rw [entryText_scalar_array k items hs]; apply String.ext; simp [String.data_append])
    rw [this]; congr 1; apply String.ext; simp [String.data_append]
  refine ⟨?_, ?_, ?_, ?_, harr, ?_⟩
  · intro v
    have := key (.str v) (" = \"" ++ v ++ "\"") (Char.ofNat 34)
      (getLast_append _ _ _ rfl) (by decide)
      (by
        simp only [entryText, scalarLine, formatValue, jsToString]
        apply String.ext; simp [String.data_append])
    rw [this]; congr 1; apply String.ext; simp [String.data_append]
  · have := key (.bool true) " = true" 'e' rfl (by decide)
      (by
        simp only [entryText, scalarLine, formatValue, jsToString]
        apply String.ext; simp [String.data_append])
    rw [this]; congr 1; apply String.ext; simp [String.data_append]
  · have := key (.bool false) " = false" 'e' rfl (by decide)
      (by
        simp only [entryText, scalarLine, formatValue, jsToString]
        apply String.ext; simp [String.data_append])
    rw [this]; congr 1; apply String.ext; simp [String.data_append]
  · intro n _
    obtain ⟨z, hz, hhz⟩ := intToString_last n
    have := key (.num n) (" = " ++ toString n) z (getLast_append _ _ _ hz) hhz
      (by
        simp only [entryText, scalarLine, formatValue, jsToString]
        apply String.ext; simp [String.data_append])
    rw [this]; congr 1; apply String.ext; simp [String.data_append]
  · rw [harr [] (by simp)]
    congr 1
    apply String.ext
    simp [String.data_append, String.intercalate]

/-- Claim C5, amended, at the sequence of a string with a double quote, a
negative integer and a boolean. -/
theorem buildTomlString_scalar_formatting_witness :
    buildTomlString (.obj [("name", .arr [.str "a\"b", .num (-3), .bool false])]) =
      .ok ("name" ++ " = [" ++ ", ".intercalate
        ([JsValue.str "a\"b", .num (-3), .bool false].map scalarText) ++ "]\n") :=
  (buildTomlString_scalar_formatting "name" (by decide) (by decide)).2.2.2.2.1
    [.str "a\"b", .num (-3), .bool false] (by decide)

/-- Claim C6: for every document the output ends with a newline, and the
character before that newline, when there is one, is not whitespace: the output
is right-trimmed and terminated with exactly one newline. -/
theorem buildTomlString_right_trimmed (data : JsValue) :
    ∃ out, buildTomlString data = .ok out ∧
      out.data.getLast? = some '\n' ∧
      ∀ c, out.data.dropLast.getLast? = some c → isJsWhitespace c = false := by
  have shape : ∃ body, serialize data "" = jsTrim body ++ "\n" := by
    cases data with
    | obj es => exact ⟨_, by rw [serialize]⟩
    | arr items => exact ⟨_, by rw [serialize]⟩
    | str s => exact ⟨_, by rw [serialize]⟩
    | _ => exact ⟨"", by simp [serialize]⟩
  obtain ⟨body, hb⟩ := shape
  refine ⟨serialize data "", rfl, ?_, ?_⟩
  · rw [hb]; simp [String.data_append]
  · intro c hc
    rw [hb] at hc
    have hd : (jsTrim body ++ "\n").data = trimChars body.data ++ ['\n'] := by
      simp [String.data_append, jsTrim]
    rw [hd, List.dropLast_concat] at hc
    exact trimChars_getLast body.data c hc

/-- Claim C7: an empty nested document emits nothing: inserting an entry
`k -> {}` at any position of a document does not change the output. -/
theorem buildTomlString_empty_nested_document (pre post : List (String × JsValue))
    (k : String) :
    buildTomlString (.obj (pre ++ (k, .obj []) :: post)) =
      buildTomlString (.obj (pre ++ post)) := by
  have h : entryText k (.obj []) = "" := rfl
  simp only [buildTomlString, serialize_obj, entriesText_append, entriesText_cons, h,
    String.empty_append]

/-! ### The variant-selection generators -/

/-- Claim C8: `generateBuildGradle(location)` returns a build script exactly
when the location is one of the eight recognised ones, and for every other
location it fails with an error: either the location is recognised and a script
is returned, or it is not and the call is rejected. -/
theorem generateBuildGradle_closed_enum (location : String) :
    (location ∈ ["root", "plugins", "core:api", "core:utils", "core:app:common",
        "core:app:platform:fabric", "core:app:platform:forge",
        "core:app:platform:neoforge"] ∧
      ∃ script, generateBuildGradle location = .ok script) ∨
    (location ∉ ["root", "plugins", "core:api", "core:utils", "core:app:common",
        "core:app:platform:fabric", "core:app:platform:forge",
        "core:app:platform:neoforge"] ∧
      generateBuildGradle location = .error ⟨"Build Gradle Location not recognized!"⟩) := by
  unfold generateBuildGradle
  split
  · exact Or.inl ⟨by simp, _, rfl⟩
  · exact Or.inl ⟨by simp, _, rfl⟩
  · exact Or.inl ⟨by simp, _, rfl⟩
  · exact Or.inl ⟨by simp, _, rfl⟩
  · exact Or.inl ⟨by simp, _, rfl⟩
  · exact Or.inl ⟨by simp, _, rfl⟩
  · exact Or.inl ⟨by simp, _, rfl⟩
  · exact Or.inl ⟨by simp, _, rfl⟩
  · refine Or.inr ⟨?_, rfl⟩
    simp only [List.mem_cons, List.mem_singleton, List.not_mem_nil, or_false, not_or]
    refine ⟨?_, ?_, ?_, ?_, ?_, ?_, ?_, ?_⟩ <;> intro h <;> subst h <;> simp_all

set_option maxRecDepth 100000 in
/-- Claim C9, refuted as stated: for the unrecognised type `quilt` the
generator does not fail; it returns a mixin configuration with the default
compatibility level `JAVA_18`. -/
theorem generateMixinData_unrecognised_type :
    generateMixinData "quilt" { project_name := "Demo", project_group := "com.example", project_id := "demo" } =
      .ok ("\x7b\n  \"required\": true,\n  \"minVersion\": \"0.8\",\n" ++
        "  \"package\": \"com.example.demo.mixins\",\n" ++
        "  \"refmap\": \"$\x7bproject_id\x7d.refmap.json\",\n" ++
        "  \"compatibilityLevel\": \"JAVA_18\",\n" ++
        "  \"mixins\": [],\n  \"client\": [],\n  \"server\": [],\n" ++
        "  \"injectors\": \x7b\n    \"defaultRequire\": 1\n  \x7d\n\x7d") := by
  rfl

/-- Claim C9, amended: `generateMixinData` never fails. The types `common`,
`fabric`, `forge` and `neoforge` get their compatibility level from the table;
for a type outside them that does not name a property inherited from
`Object.prototype`, the compatibility level is the default `JAVA_18`, and the
configuration returned is the one returned for `common`. -/
theorem generateMixinData_default_level (type : String) (answers : Answers)
    (hout : type ∉ ["common", "fabric", "forge", "neoforge"])
    (hproto : objectPrototypeGet type = none) :
    (∀ t a, ∃ out, generateMixinData t a = .ok out) ∧
    (mixinData "common" answers).lookup "compatibilityLevel" = some (.str "JAVA_18") ∧
    (mixinData "fabric" answers).lookup "compatibilityLevel" = some (.str "JAVA_21") ∧
    (mixinData "forge" answers).lookup "compatibilityLevel" = some (.str "JAVA_18") ∧
    (mixinData "neoforge" answers).lookup "compatibilityLevel" = some (.str "JAVA_21") ∧
    (mixinData type answers).lookup "compatibilityLevel" = some (.str "JAVA_18") ∧
    generateMixinData type answers = generateMixinData "common" answers := by
  have hown : compatibilityLevels.lookup type = none := by
    simp only [List.mem_cons, List.mem_singleton, List.not_mem_nil, or_false, not_or] at hout
    obtain ⟨h1, h2, h3, h4⟩ := hout
    have b1 : (type == "common") = false := beq_eq_false_iff_ne.mpr h1
    have b2 : (type == "fabric") = false := beq_eq_false_iff_ne.mpr h2
    have b3 : (type == "forge") = false := beq_eq_false_iff_ne.mpr h3
    have b4 : (type == "neoforge") = false := beq_eq_false_iff_ne.mpr h4
    simp [compatibilityLevels, List.lookup, b1, b2, b3, b4]
  have hlevel : jsOr (getProperty compatibilityLevels type) (.str "JAVA_18") = .str "JAVA_18" := by
    simp [getProperty, hown, hproto, jsOr]
  have hcommon : jsOr (getProperty compatibilityLevels "common") (.str "JAVA_18") =
      .str "JAVA_18" := rfl
  refine ⟨fun t a => ⟨_, rfl⟩, rfl, rfl, rfl, rfl, ?_, ?_⟩
  · simp [mixinData, hlevel, List.lookup]
  · simp only [generateMixinData, mixinData, hlevel, hcommon]

theorem generateMixinData_default_level_witness :
    generateMixinData "quilt" { project_name := "Demo", project_group := "com.example", project_id := "demo" } =
      generateMixinData "common" { project_name := "Demo", project_group := "com.example", project_id := "demo" } :=
  (generateMixinData_default_level "quilt" { project_name := "Demo", project_group := "com.example", project_id := "demo" } (by decide) rfl).2.2.2.2.2.2

/-! ### The class-template serializer -/

theorem intercalate_go (acc s : String) (l : List String) :
    String.intercalate.go acc s l = acc ++ String.join (l.map fun x => s ++ x) := by
  induction l generalizing acc with
  | nil => simp [String.intercalate.go, join_nil]
  | cons x xs ih => simp [String.intercalate.go, ih, join_cons, String.append_assoc]

theorem intercalate_cons (s a : String) (l : List String) :
    s.intercalate (a :: l) = a ++ String.join (l.map fun x => s ++ x) := by
  simp [String.intercalate, intercalate_go]

theorem truthy_iff (s : String) : truthy s = true ↔ s.data ≠ [] := by
  simp only [truthy, decide_eq_true_eq, ne_eq]
  constructor
  · intro h hd
    exact h (String.ext (by simpa using hd))
  · intro h hs
    exact h (by simp [hs])

theorem truthy_append_left (a b : String) (h : truthy a = true) : truthy (a ++ b) = true := by
  rw [truthy_iff] at h ⊢
  simpa [String.data_append] using fun hx _ => h hx

theorem truthy_empty : truthy "" = false := by decide

theorem truthy_intercalate_map (s p : String) (hp : truthy p = true) (l : List String)
    (hl : l ≠ []) : truthy (s.intercalate (l.map fun x => p ++ x)) = true := by
  cases l with
  | nil => exact absurd rfl hl
  | cons x xs =>
    rw [List.map_cons, intercalate_cons]
    exact truthy_append_left _ _ (truthy_append_left _ _ hp)

theorem truthy_classAnnotations (c : JavaClass) :
    truthy (classAnnotations c) = !c.annotations.isEmpty := by
  cases h : c.annotations with
  | nil => simp [classAnnotations, h, String.intercalate, truthy_empty]
  | cons a l =>
    have := truthy_intercalate_map "\n" "@" (by decide) (a :: l) (by simp)
    simpa [classAnnotations, h] using this

theorem truthy_classHeader (c : JavaClass) : truthy (classHeader c) = true := by
  unfold classHeader
  simp only [String.append_assoc]
  exact truthy_append_left _ _ (by decide)

theorem classBody_eq (c : JavaClass) :
    classBody c =
      (if c.annotations = [] then "" else classAnnotations c ++ "\n") ++
      classHeader c ++
      (if c.fields = [] then "" else "\n" ++ fieldsSection c) ++
      (if c.methods = [] then "" else "\n" ++ methodsSection c) := by
  unfold classBody
  rw [truthy_classAnnotations]
  cases ha : c.annotations <;> cases hf : c.fields <;> cases hm : c.methods <;>
    simp [intercalate_cons, join_cons, join_nil, String.append_assoc]

theorem truthy_classBody (c : JavaClass) : truthy (classBody c) = true := by
  rw [classBody_eq]
  by_cases ha : c.annotations = []
  · simp only [ha, if_true, String.empty_append, String.append_assoc]
    exact truthy_append_left _ _ (truthy_classHeader c)
  · have hx : truthy (classAnnotations c) = true := by
      rw [truthy_classAnnotations]; cases h : c.annotations <;> simp_all
    simp only [ha, if_false, String.append_assoc]
    exact truthy_append_left _ _ hx

theorem truthy_packageSection (c : JavaClass) :
    truthy (packageSection c) = truthy c.packageName := by
  unfold packageSection
  by_cases h : truthy c.packageName = true
  · simp only [h, if_true, String.append_assoc]
    exact truthy_append_left _ _ (by decide)
  · simp only [Bool.not_eq_true] at h
    simp [h, truthy_empty]

theorem truthy_importsSection (c : JavaClass) (h : c.imports ≠ []) :
    truthy (importsSection c) = true := by
  have := truthy_intercalate_map "\n" "import " (by decide)
    (c.imports.map fun i => i ++ ";") (by simpa using h)
  simpa [importsSection, List.map_map, Function.comp_def, String.append_assoc] using this

theorem generateJavaTemplate_sections (c : JavaClass) :
    generateJavaTemplate c =
      (if truthy c.packageName then packageSection c ++ "\n\n" else "") ++
      (if c.imports = [] then "" else importsSection c ++ "\n\n") ++
      classBody c ++ "\n\x7d" := by
  have hb := truthy_classBody c
  have hp := truthy_packageSection c
  unfold generateJavaTemplate
  by_cases hpt : truthy c.packageName = true
  · have hpt2 : truthy (packageSection c) = true := by rw [hp, hpt]
    by_cases hi : c.imports = []
    · simp [hpt, hpt2, hi, List.filter, hb, intercalate_cons, join_cons, join_nil,
        String.append_assoc]
    · have hit := truthy_importsSection c hi
      have hlen : 0 < c.imports.length := List.length_pos.mpr hi
      simp [hpt, hpt2, hi, hlen, List.filter, hb, hit, intercalate_cons, join_cons, join_nil,
        String.append_assoc]
  · simp only [Bool.not_eq_true] at hpt
    have hpt2 : truthy (packageSection c) = false := by rw [hp, hpt]
    by_cases hi : c.imports = []
    · simp [hpt, hpt2, hi, List.filter, hb, intercalate_cons, join_nil]
    · have hit := truthy_importsSection c hi
      have hlen : 0 < c.imports.length := List.length_pos.mpr hi
      simp [hpt, hpt2, hi, hlen, List.filter, hb, hit, intercalate_cons, join_cons, join_nil,
        String.append_assoc]

/-- Claim C10: the output of `generateJavaTemplate` is, in this order, the
package line, the import lines, the class annotation lines, the declaration
header, the field declarations, the method declarations and a closing brace,
which is its last character; a section with no entry contributes nothing, so
that without imports, fields and methods nothing stands between the header line
and the closing brace. -/
theorem generateJavaTemplate_layout (c : JavaClass) :
    generateJavaTemplate c =
      (if c.packageName = "" then "" else "package " ++ c.packageName ++ ";\n" ++ "\n\n") ++
      (if c.imports = [] then "" else importsSection c ++ "\n\n") ++
      (if c.annotations = [] then "" else classAnnotations c ++ "\n") ++
      classHeader c ++
      (if c.fields = [] then "" else "\n" ++ fieldsSection c) ++
      (if c.methods = [] then "" else "\n" ++ methodsSection c) ++
      "\n\x7d" ∧
    (generateJavaTemplate c).data.getLast? = some (Char.ofNat 125) ∧
    ∀ (name packageName type extendClass : String) (implementInterfaces annotations : List String),
      generateJavaTemplate ⟨name, packageName, type, extendClass, implementInterfaces, [], [], [],
          annotations⟩ =
        (if packageName = "" then "" else "package " ++ packageName ++ ";\n" ++ "\n\n") ++
        (if annotations = [] then "" else
          "\n".intercalate (annotations.map fun a => "@" ++ a) ++ "\n") ++
        classHeader ⟨name, packageName, type, extendClass, implementInterfaces, [], [], [],
          annotations⟩ ++ "\n\x7d" := by
  have main : ∀ c : JavaClass, generateJavaTemplate c =
      (if c.packageName = "" then "" else "package " ++ c.packageName ++ ";\n" ++ "\n\n") ++
      (if c.imports = [] then "" else importsSection c ++ "\n\n") ++
      (if c.annotations = [] then "" else classAnnotations c ++ "\n") ++
      classHeader c ++
      (if c.fields = [] then "" else "\n" ++ fieldsSection c) ++
      (if c.methods = [] then "" else "\n" ++ methodsSection c) ++
      "\n\x7d" := by
    intro c
    rw [generateJavaTemplate_sections, classBody_eq]
    by_cases hpk : c.packageName = ""
    · simp [hpk, truthy_empty, String.append_assoc]
    · have hpt : truthy c.packageName = true := by simpa [truthy] using hpk
      simp [hpk, hpt, packageSection, String.append_assoc]
  refine ⟨main c, ?_, ?_⟩
  · unfold generateJavaTemplate
    exact getLast_append _ _ _ rfl
  · intro name packageName type extendClass implementInterfaces annotations
    rw [main]
    simp [classAnnotations, String.append_assoc]

/-! ### Import lines, method bodies and member separation -/

theorem splitLines_no_newline (l : List Char) (h : '\n' ∉ l) : splitLines l = [l] := by
  induction l with
  | nil => rfl
  | cons c cs ih =>
    have hc : c ≠ '\n' := fun e => h (by simp [e])
    have hcs : '\n' ∉ cs := fun e => h (List.mem_cons_of_mem _ e)
    simp [splitLines, hc, ih hcs]

theorem splitLines_append_newline (l rest : List Char) (h : '\n' ∉ l) :
    splitLines (l ++ '\n' :: rest) = l :: splitLines rest := by
  induction l with
  | nil => simp [splitLines]
  | cons c cs ih =>
    have hc : c ≠ '\n' := fun e => h (by simp [e])
    have hcs : '\n' ∉ cs := fun e => h (List.mem_cons_of_mem _ e)
    simp [splitLines, hc, ih hcs]

theorem splitLines_join (a : String) (l : List String)
    (h : ∀ x ∈ a :: l, '\n' ∉ x.data) :
    splitLines (a ++ String.join (l.map fun x => "\n" ++ x)).data = (a :: l).map String.data := by
  induction l generalizing a with
  | nil =>
    simp only [List.map_nil, join_nil, String.append_empty, List.map_cons]
    exact splitLines_no_newline _ (h a (List.mem_cons_self _ _))
  | cons b bs ih =>
    have ha : '\n' ∉ a.data := h a (List.mem_cons_self _ _)
    have hrest : ∀ x ∈ b :: bs, '\n' ∉ x.data := fun x hx => h x (List.mem_cons_of_mem _ hx)
    have e : (a ++ String.join ((b :: bs).map fun x => "\n" ++ x)).data =
        a.data ++ '\n' :: (b ++ String.join (bs.map fun x => "\n" ++ x)).data := by
      simp [join_cons, String.data_append]
    rw [e, splitLines_append_newline _ _ ha, ih b hrest]
    rfl

theorem splitLines_intercalate (lines : List String) (hne : lines ≠ [])
    (h : ∀ x ∈ lines, '\n' ∉ x.data) :
    splitLines ("\n".intercalate lines).data = lines.map String.data := by
  cases lines with
  | nil => exact absurd rfl hne
  | cons a l => rw [intercalate_cons]; exact splitLines_join a l h

/-- Claim C11: the import section consists of one line `import i;` per import
of the input, in input order and without de-duplication: the output carries the
lines `import i1;`, ..., `import in;` joined by newlines (and followed by a blank
line), there are as many as imports, and when no import contains a line break
the lines of the section are exactly these; an import given twice yields two
identical import lines. -/
theorem generateJavaTemplate_import_lines (c : JavaClass) :
    generateJavaTemplate c =
      (if truthy c.packageName then packageSection c ++ "\n\n" else "") ++
      (if c.imports = [] then ""
       else "\n".intercalate (c.imports.map fun i => "import " ++ i ++ ";") ++ "\n\n") ++
      classBody c ++ "\n\x7d" ∧
    (c.imports.map fun i => "import " ++ i ++ ";").length = c.imports.length ∧
    (∀ k (h : k < c.imports.length),
      (c.imports.map fun i => "import " ++ i ++ ";")[k]? =
        some ("import " ++ c.imports.get ⟨k, h⟩ ++ ";")) ∧
    (c.imports ≠ [] → (∀ i ∈ c.imports, '\n' ∉ i.data) →
      splitLines (importsSection c).data =
        c.imports.map fun i => ("import " ++ i ++ ";").data) ∧
    generateJavaTemplate { name := "X", packageName := "", imports := ["a.B", "a.B"] } =
      "import a.B;\nimport a.B;\n\npublic class X \x7b\n\x7d" := by
  refine ⟨generateJavaTemplate_sections c, by simp, ?_, ?_, by decide⟩
  · intro k h
    simp [List.getElem?_map, List.getElem?_eq_getElem h]
  · intro hne hnl
    have := splitLines_intercalate (c.imports.map fun i => "import " ++ i ++ ";")
      (by simpa using hne)
      (by
        intro x hx
        simp only [List.mem_map] at hx
        obtain ⟨i, hi, rfl⟩ := hx
        have := hnl i hi
        simp only [String.data_append, List.mem_append, not_or]
        exact ⟨⟨by decide, this⟩, by decide⟩)
    simpa [importsSection, List.map_map, Function.comp_def] using this

theorem trimChars_ne_nil (l : List Char) (c : Char) (hc : c ∈ l)
    (hw : isJsWhitespace c = false) : trimChars l ≠ [] := by
  have keep : ∀ m : List Char, c ∈ m → c ∈ m.dropWhile isJsWhitespace := by
    intro m hm
    induction m with
    | nil => simp at hm
    | cons x xs ih =>
      by_cases hx : isJsWhitespace x = true
      · rw [List.dropWhile_cons_of_pos hx]
        rcases List.mem_cons.mp hm with e | e
        · rw [e, hx] at hw; exact absurd hw (by simp)
        · exact ih e
      · rw [List.dropWhile_cons_of_neg hx]; exact hm
  have h1 := keep l hc
  have h2 := keep (l.dropWhile isJsWhitespace).reverse (List.mem_reverse.mpr h1)
  intro h
  unfold trimChars at h
  rw [List.reverse_eq_nil_iff] at h
  rw [h] at h2
  simp at h2

theorem jsTrim_length_pos (s : String) (c : Char) (hc : c ∈ s.data)
    (hw : isJsWhitespace c = false) : decide ((jsTrim s).length > 0) = true := by
  have := trimChars_ne_nil s.data c hc hw
  simp only [decide_eq_true_eq, gt_iff_lt, jsTrim, String.length]
  exact List.length_pos.mpr this

theorem mem_data_intercalate_map (s p : String) (c : Char) (hc : c ∈ p.data) (l : List String)
    (hl : l ≠ []) : c ∈ (s.intercalate (l.map fun x => p ++ x)).data := by
  cases l with
  | nil => exact absurd rfl hl
  | cons x xs =>
    rw [List.map_cons, intercalate_cons]
    simp [String.data_append, hc]

theorem methodParts_join (ann sig body : String) (annotations : List String)
    (hann : ann = "\n".intercalate (annotations.map fun a => "    @" ++ a))
    (hb : Char.ofNat 123 ∈ body.data) :
    "\n".intercalate ([ann, sig ++ body].filter fun part => (jsTrim part).length > 0) =
      (if annotations = [] then "" else ann ++ "\n") ++ sig ++ body := by
  have h2 : decide ((jsTrim (sig ++ body)).length > 0) = true :=
    jsTrim_length_pos _ (Char.ofNat 123) (by simp [String.data_append, hb]) (by decide)
  cases annotations with
  | nil =>
    have h1 : decide ((jsTrim ann).length > 0) = false := by rw [hann]; decide
    simp [List.filter, h1, h2, intercalate_cons, join_nil]
  | cons a l =>
    have h1 : decide ((jsTrim ann).length > 0) = true := by
      rw [hann]
      exact jsTrim_length_pos _ '@'
        (mem_data_intercalate_map "\n" "    @" '@' (by decide) (a :: l) (by simp)) (by decide)
    simp [List.filter, h1, h2, intercalate_cons, join_cons, join_nil, String.append_assoc]

/-- Claim C12: the emitted method is its annotation lines, its signature and a
body block; the block holds the given body lines, in order, each on its own
line (indented by eight spaces) between the opening brace and the closing
brace, and it is the empty block (the opening brace followed directly by a line
holding the closing brace) when there are no body lines. -/
theorem methodDeclaration_body (m : JavaMethod) :
    methodDeclaration m =
      (if m.annotations = [] then ""
       else "\n".intercalate (m.annotations.map fun a => "    @" ++ a) ++ "\n") ++
      methodSignature m ++
      (if m.bodyLines = [] then "    \x7b\n    \x7d"
       else "    \x7b\n" ++ "\n".intercalate (m.bodyLines.map fun line => "        " ++ line) ++
        "\n    \x7d") ∧
    (m.bodyLines.map fun line => "        " ++ line).length = m.bodyLines.length ∧
    methodDeclaration
        { name := "getData", accessModifier := "public", returnType := "String",
          bodyLines := ["int x = 1;", "return this.data;"] } =
      "    public String getData()    \x7b\n        int x = 1;\n        return this.data;\n    \x7d" ∧
    methodDeclaration { name := "run" } = "    void run()    \x7b\n    \x7d" := by
  refine ⟨?_, by simp, by decide, by decide⟩
  have hbody : truthy ("\n".intercalate (m.bodyLines.map fun line => "        " ++ line)) =
      !m.bodyLines.isEmpty := by
    cases h : m.bodyLines with
    | nil => simp [String.intercalate, truthy_empty]
    | cons a l =>
      have := truthy_intercalate_map "\n" "        " (by decide) (a :: l) (by simp)
      simpa using this
  have key : methodDeclaration m =
      "\n".intercalate
        (["\n".intercalate (m.annotations.map fun a => "    @" ++ a),
          methodSignature m ++
            (if truthy ("\n".intercalate (m.bodyLines.map fun line => "        " ++ line)) then
              "    \x7b\n" ++ "\n".intercalate (m.bodyLines.map fun line => "        " ++ line) ++
                "\n    \x7d"
             else "    \x7b\n    \x7d")].filter fun part => (jsTrim part).length > 0) := rfl
  rw [key, hbody]
  cases hb : m.bodyLines with
  | nil =>
    simp only [List.isEmpty_nil, Bool.not_true, if_true, Bool.false_eq_true, if_false]
    exact methodParts_join _ _ _ m.annotations rfl (by decide)
  | cons b bs =>
    simp only [List.isEmpty_cons, Bool.not_false, if_true, reduceCtorEq, if_false]
    exact methodParts_join _ _ _ m.annotations rfl
      (by simp [String.data_append])

/-- Claim C13, refuted as stated: two fields, and a field followed by a method,
are separated by a single newline; the output holds no empty line. -/
theorem generateJavaTemplate_fields_not_spaced :
    generateJavaTemplate
        { name := "A", packageName := "",
          fields := [{ type := "int", name := "a" }, { type := "int", name := "b" }],
          methods := [{ name := "run" }] } =
      "public class A \x7b\n    int a;\n    int b;\n    void run()    \x7b\n    \x7d\n\x7d" ∧
    ([] : List Char) ∉ splitLines
      (generateJavaTemplate
        { name := "A", packageName := "",
          fields := [{ type := "int", name := "a" }, { type := "int", name := "b" }],
          methods := [{ name := "run" }] }).data := by
  decide

/-- Claim C13, amended: in the class body every field declaration and the first
method declaration are preceded by a single newline, so that adjacent fields,
and the last field and the first method, have no empty line between them; every
later method declaration is preceded by two newlines, so that adjacent methods
are separated by an empty line. -/
theorem generateJavaTemplate_member_separation (c : JavaClass) :
    generateJavaTemplate c =
      (if truthy c.packageName then packageSection c ++ "\n\n" else "") ++
      (if c.imports = [] then "" else importsSection c ++ "\n\n") ++
      (if c.annotations = [] then "" else classAnnotations c ++ "\n") ++
      classHeader c ++
      String.join (c.fields.map fun f => "\n" ++ fieldDeclaration f) ++
      (match c.methods with
       | [] => ""
       | m :: ms =>
          "\n" ++ methodDeclaration m ++
            String.join (ms.map fun m => "\n\n" ++ methodDeclaration m)) ++
      "\n\x7d" := by
  rw [generateJavaTemplate_sections, classBody_eq]
  have hf : (if c.fields = [] then "" else "\n" ++ fieldsSection c) =
      String.join (c.fields.map fun f => "\n" ++ fieldDeclaration f) := by
    cases h : c.fields with
    | nil => simp [join_nil]
    | cons f fs =>
      simp [fieldsSection, h, intercalate_cons, join_cons, Function.comp_def,
        String.append_assoc]
  have hm : (if c.methods = [] then "" else "\n" ++ methodsSection c) =
      (match c.methods with
       | [] => ""
       | m :: ms =>
          "\n" ++ methodDeclaration m ++
            String.join (ms.map fun m => "\n\n" ++ methodDeclaration m)) := by
    cases h : c.methods with
    | nil => simp
    | cons m ms =>
      simp [methodsSection, h, intercalate_cons, Function.comp_def, String.append_assoc]
  rw [hf, hm]
  simp only [String.append_assoc]

/-! ### The tree composer -/

theorem replaceAllChar_data (s : String) (c : Char) (r : Char) :
    (replaceAllChar s c (String.singleton r)).data = s.data.map fun x => if x = c then r else x := by
  unfold replaceAllChar
  rw [String.data_join]
  induction s.data with
  | nil => rfl
  | cons x xs ih =>
    simp only [List.map_cons, List.flatten_cons, ih]
    by_cases h : x = c <;> simp [h, String.singleton]

/-- Claim C20: `getGroupPath` replaces every `.` of the group by `/` and leaves
every other character unchanged: the result has the same length and contains no
`.`; `com.example.mod` becomes `com/example/mod`. -/
theorem getGroupPath_replaces_every_dot (answers : Answers) :
    (getGroupPath answers).data =
      answers.project_group.data.map (fun c => if c = '.' then '/' else c) ∧
    (getGroupPath answers).length = answers.project_group.length ∧
    '.' ∉ (getGroupPath answers).data ∧
    getGroupPath { project_name := "Mod", project_group := "com.example.mod", project_id := "mod" } =
      "com/example/mod" := by
  have h : (getGroupPath answers).data =
      answers.project_group.data.map (fun c => if c = '.' then '/' else c) :=
    replaceAllChar_data answers.project_group '.' '/'
  refine ⟨h, ?_, ?_, by decide⟩
  · show (getGroupPath answers).data.length = answers.project_group.data.length
    rw [h, List.length_map]
  · rw [h]
    intro hm
    obtain ⟨x, _, hx⟩ := List.mem_map.mp hm
    by_cases e : x = '.'
    · simp [e] at hx
    · simp [e] at hx

/-- Claim C19: `generateCoreModules` returns one sequence: the nodes of the API
module, then those of the utilities module, then the common module, then the
fabric, forge and neoforge platform modules, each module's nodes in their own
order, 5 + 4 + 8 + 12 + 12 + 12 = 53 nodes in all. -/
theorem generateCoreModules_order (answers : Answers) :
    ∃ api utils common fabric forge neoforge : List TreeNode,
      generateApiModule answers = .ok api ∧
      generateUtilsModule answers = .ok utils ∧
      generateCommonModule "app" answers = .ok common ∧
      generatePlatformSpecificFiles "app/platform/fabric" "fabric" answers = .ok fabric ∧
      generatePlatformSpecificFiles "app/platform/forge" "forge" answers = .ok forge ∧
      generatePlatformSpecificFiles "app/platform/neoforge" "neoforge" answers = .ok neoforge ∧
      generateCoreModules answers =
        .ok (api ++ utils ++ common ++ fabric ++ forge ++ neoforge) ∧
      api.length = 5 ∧ utils.length = 4 ∧ common.length = 8 ∧
      fabric.length = 12 ∧ forge.length = 12 ∧ neoforge.length = 12 ∧
      (api ++ utils ++ common ++ fabric ++ forge ++ neoforge).length = 53 :=
  ⟨_, _, _, _, _, _, rfl, rfl, rfl, rfl, rfl, rfl, rfl, rfl, rfl, rfl, rfl, rfl, rfl, rfl⟩

/-! ### Path templates -/

theorem evalAtoms_append (answers : Answers) (s t : List PathAtom) :
    evalAtoms answers (s ++ t) = evalAtoms answers s ++ evalAtoms answers t := by
  induction s with
  | nil => rfl
  | cons x xs ih => simp [evalAtoms, ih]

theorem evalAtoms_lits (answers : Answers) (s : String) : evalAtoms answers (lits s) = s.data := by
  unfold lits
  induction s.data with
  | nil => rfl
  | cons c cs ih => simp [evalAtoms, PathAtom.eval, ih]

theorem evalPath_append (answers : Answers) (s t : List PathAtom) :
    evalPath answers (s ++ t) = evalPath answers s ++ evalPath answers t := by
  apply String.ext
  simp [evalPath, evalAtoms_append, String.data_append]

theorem evalPath_lits (answers : Answers) (s : String) : evalPath answers (lits s) = s := by
  apply String.ext
  simp [evalPath, evalAtoms_lits]

theorem evalPath_group (answers : Answers) :
    evalPath answers [.group] = answers.project_group := by
  apply String.ext
  simp [evalPath, evalAtoms, PathAtom.eval]

theorem evalPath_groupPath (answers : Answers) :
    evalPath answers [.groupPath] = getGroupPath answers := by
  apply String.ext
  simp [evalPath, evalAtoms, PathAtom.eval]

theorem evalPath_projectId (answers : Answers) :
    evalPath answers [.projectId] = answers.project_id := by
  apply String.ext
  simp [evalPath, evalAtoms, PathAtom.eval]

theorem stripCommon_spec (s t : List PathAtom) :
    ∃ p, s = p ++ (stripCommon s t).1 ∧ t = p ++ (stripCommon s t).2 := by
  induction s generalizing t with
  | nil => exact ⟨[], by simp [stripCommon]⟩
  | cons x xs ih =>
    cases t with
    | nil => exact ⟨[], by simp [stripCommon]⟩
    | cons y ys =>
      by_cases h : x = y
      · obtain ⟨p, h1, h2⟩ := ih ys
        refine ⟨x :: p, ?_, ?_⟩
        · simp only [stripCommon, h, if_true, List.cons_append]; rw [← h1]
        · simp only [stripCommon, h, if_true, List.cons_append]; rw [← h2]
      · exact ⟨[], by simp [stripCommon, h]⟩

theorem evalAtoms_ne_nil_of_hasChr (answers : Answers) (t : List PathAtom)
    (h : hasChr t = true) : evalAtoms answers t ≠ [] := by
  induction t with
  | nil => simp [hasChr] at h
  | cons x xs ih =>
    cases x with
    | chr c => simp [evalAtoms, PathAtom.eval]
    | group => simp only [hasChr] at h; simp [evalAtoms, ih h]
    | groupPath => simp only [hasChr] at h; simp [evalAtoms, ih h]
    | projectId => simp only [hasChr] at h; simp [evalAtoms, ih h]

theorem headsDiffer_sound (answers : Answers) (s t : List PathAtom)
    (h : headsDiffer s t = true) : evalAtoms answers s ≠ evalAtoms answers t := by
  cases s with
  | nil => simp [headsDiffer] at h
  | cons x xs =>
    cases t with
    | nil => cases x <;> simp [headsDiffer] at h
    | cons y ys =>
      cases x <;> cases y <;> simp [headsDiffer] at h
      simp [evalAtoms, PathAtom.eval, h]

theorem lastsDiffer_sound (answers : Answers) (s t : List PathAtom)
    (h : headsDiffer s.reverse t.reverse = true) : evalAtoms answers s ≠ evalAtoms answers t := by
  cases hs : s.reverse with
  | nil => rw [hs] at h; simp [headsDiffer] at h
  | cons x xs =>
    cases ht : t.reverse with
    | nil => rw [hs, ht] at h; cases x <;> simp [headsDiffer] at h
    | cons y ys =>
      rw [hs, ht] at h
      have es : s = xs.reverse ++ [x] := by
        have := congrArg List.reverse hs; simpa using this
      have et : t = ys.reverse ++ [y] := by
        have := congrArg List.reverse ht; simpa using this
      cases x <;> cases y <;> simp [headsDiffer] at h
      rename_i c d
      rw [es, et, evalAtoms_append, evalAtoms_append]
      intro e
      have := congrArg List.getLast? e
      simp [evalAtoms, PathAtom.eval] at this
      exact h this

theorem apartCore_sound (answers : Answers) (s t : List PathAtom)
    (h : apartCore s t = true) : evalAtoms answers s ≠ evalAtoms answers t := by
  simp only [apartCore, Bool.or_eq_true, Bool.and_eq_true] at h
  rcases h with ((⟨h1, h2⟩ | ⟨h1, h2⟩) | h) | h
  · have : s = [] := by simpa using h1
    subst this
    exact fun e => evalAtoms_ne_nil_of_hasChr answers t h2 e.symm
  · have : t = [] := by simpa using h1
    subst this
    exact fun e => evalAtoms_ne_nil_of_hasChr answers s h2 e
  · exact headsDiffer_sound answers s t h
  · exact lastsDiffer_sound answers s t h

theorem apart_sound (answers : Answers) (s t : List PathAtom) (h : apart s t = true) :
    evalPath answers s ≠ evalPath answers t := by
  intro e
  have e' : evalAtoms answers s = evalAtoms answers t := congrArg String.data e
  simp only [apart, Bool.or_eq_true] at h
  obtain ⟨p, hs, ht⟩ := stripCommon_spec s t
  generalize stripCommon s t = r at hs ht h
  obtain ⟨q, hs2, ht2⟩ := stripCommon_spec r.1.reverse r.2.reverse
  generalize stripCommon r.1.reverse r.2.reverse = r2 at hs2 ht2 h
  subst hs ht
  rw [evalAtoms_append, evalAtoms_append] at e'
  have e1 := List.append_cancel_left e'
  rcases h with h | h
  · exact apartCore_sound answers _ _ h e1
  · have r1 : r.1 = r2.1.reverse ++ q.reverse := by
      have := congrArg List.reverse hs2; simpa using this
    have r3 : r.2 = r2.2.reverse ++ q.reverse := by
      have := congrArg List.reverse ht2; simpa using this
    rw [r1, r3, evalAtoms_append, evalAtoms_append] at e1
    exact apartCore_sound answers _ _ h (List.append_cancel_right e1)

theorem allApart_sound (answers : Answers) (ts : List (List PathAtom))
    (h : allApart ts = true) : (ts.map (evalPath answers)).Nodup := by
  induction ts with
  | nil => simp
  | cons t ts ih =>
    simp only [allApart, Bool.and_eq_true, List.all_eq_true] at h
    rw [List.map_cons, List.nodup_cons]
    refine ⟨?_, ih h.2⟩
    intro hm
    obtain ⟨u, hu, e⟩ := List.mem_map.mp hm
    exact apart_sound answers t u (h.1 u hu) e.symm

theorem generateCoreModules_ok (answers : Answers) :
    generateCoreModules answers = .ok (coreNodes answers) := rfl

theorem allApart_coreTemplates : allApart coreTemplates = true := by decide

set_option maxRecDepth 100000 in
set_option maxHeartbeats 4000000 in
theorem coreNodes_paths (answers : Answers) :
    (coreNodes answers).map TreeNode.path = coreTemplates.map (evalPath answers) := by
  have h : coreNodes answers =
      (match generateApiModule answers with | .ok l => l | .error _ => []) ++
      (match generateUtilsModule answers with | .ok l => l | .error _ => []) ++
      (match generateCommonModule "app" answers with | .ok l => l | .error _ => []) ++
      (match generatePlatformSpecificFiles "app/platform/fabric" "fabric" answers with
        | .ok l => l | .error _ => []) ++
      (match generatePlatformSpecificFiles "app/platform/forge" "forge" answers with
        | .ok l => l | .error _ => []) ++
      (match generatePlatformSpecificFiles "app/platform/neoforge" "neoforge" answers with
        | .ok l => l | .error _ => []) := rfl
  rw [h]
  simp only [generateApiModule, generateUtilsModule, generateCommonModule,
    generatePlatformSpecificFiles, generateMixinData, generatePackData, generateModsToml,
    generateModsJson, buildTomlString, bind, Except.bind, pure, Except.pure,
    coreTemplates, platformTemplates, List.map_append, List.map_cons, List.map_nil,
    TreeNode.path, evalPath_append, evalPath_lits, evalPath_groupPath, evalPath_group,
    evalPath_projectId]
  simp [String.ext_iff, String.data_append, TreeNode.path, capitalize]

theorem suffixVerdict_sound (answers : Answers) (r : List PathAtom) (s : List Char) (b : Bool)
    (h : suffixVerdict r s = some b) :
    s.isPrefixOf (evalAtoms answers r.reverse).reverse = b := by
  induction r generalizing s with
  | nil =>
    cases s with
    | nil => simp [suffixVerdict] at h; simp [← h]
    | cons d s' => simp [suffixVerdict] at h; simp [← h, evalAtoms]
  | cons x t ih =>
    cases s with
    | nil => simp [suffixVerdict] at h; simp [← h]
    | cons d s' =>
      cases x with
      | chr c =>
        have e : (evalAtoms answers (PathAtom.chr c :: t).reverse).reverse =
            c :: (evalAtoms answers t.reverse).reverse := by
          simp [evalAtoms_append, evalAtoms, PathAtom.eval]
        rw [e]
        by_cases hcd : c = d
        · simp only [suffixVerdict, hcd, if_true] at h
          simp [List.isPrefixOf, hcd, ih s' h]
        · simp only [suffixVerdict, hcd, if_false, Option.some.injEq] at h
          have : (d == c) = false := by simpa using fun e => hcd e.symm
          simp [List.isPrefixOf, this, ← h]
      | group => simp [suffixVerdict] at h
      | groupPath => simp [suffixVerdict] at h
      | projectId => simp [suffixVerdict] at h

theorem endsWith_evalPath (answers : Answers) (t : List PathAtom) (suffix : String) (b : Bool)
    (h : suffixVerdict t.reverse suffix.data.reverse = some b) :
    endsWith (evalPath answers t) suffix = b := by
  have := suffixVerdict_sound answers t.reverse suffix.data.reverse b h
  simpa [endsWith, evalPath] using this

theorem filter_endsWith_templates (answers : Answers) (suffix : String)
    (ts : List (List PathAtom))
    (h : ∀ t ∈ ts, (suffixVerdict t.reverse suffix.data.reverse).isSome = true) :
    (ts.map (evalPath answers)).filter (fun p => endsWith p suffix) =
      (ts.filter fun t => suffixVerdict t.reverse suffix.data.reverse == some true).map
        (evalPath answers) := by
  induction ts with
  | nil => rfl
  | cons t ts ih =>
    have ht := h t (List.mem_cons_self _ _)
    have hts := ih fun u hu => h u (List.mem_cons_of_mem _ hu)
    cases hv : suffixVerdict t.reverse suffix.data.reverse with
    | none => rw [hv] at ht; simp at ht
    | some b =>
      have he := endsWith_evalPath answers t suffix b hv
      cases b <;> simp [List.filter, he, hv, hts]

/-- Claim C16: for every record of parameters, whatever strings the group and
the identifier are, no two nodes returned by `generateCoreModules` have the same
path. -/
theorem generateCoreModules_paths_distinct (answers : Answers) :
    ∃ nodes, generateCoreModules answers = .ok nodes ∧ (nodes.map TreeNode.path).Nodup :=
  ⟨coreNodes answers, rfl, by
    rw [coreNodes_paths]
    exact allApart_sound answers coreTemplates allApart_coreTemplates⟩

/-- Claim C17: for every record of parameters, the nodes of `generateCoreModules`
whose path ends in `Bootstrap.java` are exactly three, one per platform, each
under the directory `platform/<name>/` of its platform. -/
theorem generateCoreModules_bootstrap_stubs (answers : Answers) :
    ∃ nodes, generateCoreModules answers = .ok nodes ∧
      (nodes.filter fun n => endsWith n.path "Bootstrap.java").map TreeNode.path =
        ["app/platform/fabric/src/main/java/" ++ getGroupPath answers ++ "/" ++
            answers.project_id ++ "/FabricBootstrap.java",
         "app/platform/forge/src/main/java/" ++ getGroupPath answers ++ "/" ++
            answers.project_id ++ "/ForgeBootstrap.java",
         "app/platform/neoforge/src/main/java/" ++ getGroupPath answers ++ "/" ++
            answers.project_id ++ "/NeoForgeBootstrap.java"] ∧
      (nodes.filter fun n => endsWith n.path "Bootstrap.java").length = 3 := by
  have hpaths : ((coreNodes answers).filter fun n => endsWith n.path "Bootstrap.java").map
      TreeNode.path =
        ["app/platform/fabric/src/main/java/" ++ getGroupPath answers ++ "/" ++
            answers.project_id ++ "/FabricBootstrap.java",
         "app/platform/forge/src/main/java/" ++ getGroupPath answers ++ "/" ++
            answers.project_id ++ "/ForgeBootstrap.java",
         "app/platform/neoforge/src/main/java/" ++ getGroupPath answers ++ "/" ++
            answers.project_id ++ "/NeoForgeBootstrap.java"] := by
    have e : ((coreNodes answers).filter fun n => endsWith n.path "Bootstrap.java").map
        TreeNode.path =
        ((coreNodes answers).map TreeNode.path).filter fun p => endsWith p "Bootstrap.java" := by
      rw [List.filter_map]; rfl
    rw [e, coreNodes_paths,
      filter_endsWith_templates answers "Bootstrap.java" coreTemplates (by decide)]
    have hf : (coreTemplates.filter fun t =>
        suffixVerdict t.reverse "Bootstrap.java".data.reverse == some true) =
        [lits "app/platform/fabric/src/main/java/" ++ [.groupPath] ++ lits "/" ++ [.projectId] ++
            lits "/FabricBootstrap.java",
         lits "app/platform/forge/src/main/java/" ++ [.groupPath] ++ lits "/" ++ [.projectId] ++
            lits "/ForgeBootstrap.java",
         lits "app/platform/neoforge/src/main/java/" ++ [.groupPath] ++ lits "/" ++
            [.projectId] ++ lits "/NeoForgeBootstrap.java"] := by decide
    rw [hf]
    simp only [List.map_cons, List.map_nil, evalPath_append, evalPath_lits, evalPath_groupPath,
      evalPath_projectId]
  refine ⟨coreNodes answers, rfl, hpaths, ?_⟩
  have := congrArg List.length hpaths
  simpa using this

/-- Claim C18, refuted as stated: for the parameters `demo`, `com.example`,
`Demo`, eight nodes of the composed forest, not one, have a path in which
`common` occurs. -/
theorem generateCoreModules_common_count :
    generateCoreModules
        { project_name := "Demo", project_group := "com.example", project_id := "demo" } =
      .ok (coreNodes
        { project_name := "Demo", project_group := "com.example", project_id := "demo" }) ∧
    ((coreNodes
        { project_name := "Demo", project_group := "com.example", project_id := "demo" }).filter
      fun n => includes n.path "common").length = 8 := by
  refine ⟨rfl, ?_⟩
  decide

/-- Claim C18, amended: for the parameters `demo`, `com.example`, `Demo`, the
composed forest has exactly one module in whose paths `common` occurs: the nodes
whose path contains `common` are the eight nodes of the common module, in
order, and the path of each of them starts with `app/common/`. -/
theorem generateCoreModules_common_module :
    ∃ nodes common,
      generateCoreModules
          { project_name := "Demo", project_group := "com.example", project_id := "demo" } =
        .ok nodes ∧
      generateCommonModule "app"
          { project_name := "Demo", project_group := "com.example", project_id := "demo" } =
        .ok common ∧
      (nodes.filter fun n => includes n.path "common") = common ∧
      common.length = 8 ∧
      (common.all fun n => "app/common/".data.isPrefixOf n.path.data) = true := by
  refine ⟨_, _, rfl, rfl, ?_, rfl, ?_⟩
  · rfl
  · decide

/-! ### The archive materializer -/

theorem zipGet_zipSet (files : ZipFiles) (name : String) (object : ZipObject) (p : String) :
    zipGet (zipSet files name object) p = if name = p then some object else zipGet files p := by
  induction files with
  | nil => simp [zipSet, zipGet]
  | cons e rest ih =>
    obtain ⟨n, o⟩ := e
    by_cases h : n = name
    · subst h
      by_cases hp : n = p <;> simp [zipSet, zipGet, hp]
    · by_cases hp : n = p
      · subst hp
        have h' : ¬ name = n := fun e => h e.symm
        simp [zipSet, zipGet, h, h']
      · simp [zipSet, zipGet, h, hp, ih]

theorem fileAt_zipSet_file (files : ZipFiles) (name : String) (content : Promise String)
    (p : String) :
    fileAt (zipSet files name (.file content)) p =
      if name = p then some content else fileAt files p := by
  unfold fileAt
  rw [zipGet_zipSet]
  by_cases h : name = p <;> simp [h]

theorem fileAt_zipSet_dir (files : ZipFiles) (name : String) (p : String)
    (hfree : zipGet files name = none) :
    fileAt (zipSet files name .dir) p = fileAt files p := by
  unfold fileAt
  rw [zipGet_zipSet]
  by_cases h : name = p
  · subst h; simp [hfree]
  · simp [h]

theorem zipGet_none_of_fileAt_eq (files files' : ZipFiles) (name : String)
    (h : ∀ p, fileAt files' p = fileAt files p) (hfree : zipGet files name = none) :
    fileAt files' name = none := by
  rw [h name]; simp [fileAt, hfree]

theorem fileAt_folderAdd (fuel : Nat) (files : ZipFiles) (name p : String) :
    fileAt (folderAdd fuel files name) p = fileAt files p := by
  induction fuel generalizing files name p with
  | zero => rfl
  | succ fuel ih =>
    simp only [folderAdd]
    split
    · rfl
    · rename_i hfree
      have hnone : zipGet files (forceTrailingSlash name) = none := by
        cases h : zipGet files (forceTrailingSlash name) with
        | none => rfl
        | some o => rw [h] at hfree; simp at hfree
      have hsame : ∀ q, fileAt (if truthy (parentFolder (forceTrailingSlash name)) = true then
          folderAdd fuel files (parentFolder (forceTrailingSlash name)) else files) q =
          fileAt files q := by
        intro q
        split
        · exact ih _ _ _
        · rfl
      unfold fileAt at hsame ⊢
      rw [zipGet_zipSet]
      by_cases hp : forceTrailingSlash name = p
      · subst hp; simp [hnone]
      · simp only [hp, if_false]; exact hsame p

theorem fileAt_fileAdd (files : ZipFiles) (name : String) (content : Promise String)
    (p : String) :
    fileAt (fileAdd files name content) p =
      if name = p then some content else fileAt files p := by
  unfold fileAdd
  simp only []
  rw [fileAt_zipSet_file]
  by_cases h : name = p
  · simp [h]
  · simp only [h, if_false]
    split
    · exact fileAt_folderAdd _ _ _ _
    · rfl

theorem zipFolder_root (files : ZipFiles) (root path : String) :
    (zipFolder files root path).2 = folderRoot root path := by
  unfold zipFolder folderRoot
  split <;> rfl

theorem fileAt_zipFolder (files : ZipFiles) (root path p : String) :
    fileAt (zipFolder files root path).1 p = fileAt files p := by
  unfold zipFolder
  split
  · exact fileAt_folderAdd _ _ _ _
  · rfl

theorem lastWrite_append (p : String) (before : Option (Promise String))
    (w₁ w₂ : List (String × Promise String)) :
    lastWrite p before (w₁ ++ w₂) = lastWrite p (lastWrite p before w₁) w₂ := by
  simp [lastWrite, List.foldl_append]

theorem lastWrite_congr (p : String) (a b : Option (Promise String))
    (w : List (String × Promise String)) (h : a = b) : lastWrite p a w = lastWrite p b w := by
  rw [h]

mutual
theorem fileAt_addFileOrFolder (node : TreeNode) (files : ZipFiles) (root p : String) :
    fileAt (addFileOrFolder files root node) p =
      lastWrite p (fileAt files p) (nodeFileEntries root node) :=
  match node with
  | .file path content => by
    simp only [addFileOrFolder, zipFile, nodeFileEntries, lastWrite, List.foldl_cons,
      List.foldl_nil]
    exact fileAt_fileAdd _ _ _ _
  | .folder path children => by
    simp only [addFileOrFolder, nodeFileEntries]
    rw [fileAt_addChildren children, zipFolder_root, fileAt_zipFolder]
  | .invalid path => by
    simp [addFileOrFolder, nodeFileEntries, lastWrite]
theorem fileAt_addChildren (forest : List TreeNode) (files : ZipFiles) (root p : String) :
    fileAt (addChildren files root forest) p =
      lastWrite p (fileAt files p) (childrenFileEntries root forest) :=
  match forest with
  | [] => by simp [addChildren, childrenFileEntries, lastWrite]
  | node :: rest => by
    simp only [addChildren, childrenFileEntries]
    rw [fileAt_addChildren rest, fileAt_addFileOrFolder node, lastWrite_append]
end

theorem lastWrite_nodup (p : String) (c : Promise String) (before : Option (Promise String))
    (writes : List (String × Promise String)) (hd : (writes.map Prod.fst).Nodup) :
    lastWrite p before writes = some c ↔
      (p, c) ∈ writes ∨ (p ∉ writes.map Prod.fst ∧ before = some c) := by
  induction writes generalizing before with
  | nil => simp [lastWrite]
  | cons w rest ih =>
    obtain ⟨q, d⟩ := w
    simp only [List.map_cons, List.nodup_cons] at hd
    have step : lastWrite p before ((q, d) :: rest) =
        lastWrite p (if q = p then some d else before) rest := rfl
    rw [step, ih _ hd.2]
    by_cases hq : q = p
    · subst hq
      have hnot : ∀ c', (q, c') ∉ rest := fun c' hm =>
        hd.1 (List.mem_map.mpr ⟨(q, c'), hm, rfl⟩)
      simp [hnot, hd.1]
      constructor
      · intro h; exact h.symm
      · intro h; exact h.symm
    · have hq' : ¬ p = q := fun e => hq e.symm
      simp [hq, hq']

theorem forceTrailingSlash_length (s : String) :
    0 < (forceTrailingSlash s).length ∧ (forceTrailingSlash s).length ≤ s.length + 1 ∧
      (forceTrailingSlash s).data.getLast? = some '/' := by
  unfold forceTrailingSlash
  split
  · rename_i h
    refine ⟨?_, Nat.le_succ _, h⟩
    show 0 < s.data.length
    cases hd : s.data with
    | nil => rw [hd] at h; simp at h
    | cons c cs => simp
  · refine ⟨?_, ?_, ?_⟩
    · show 0 < (s ++ "/").data.length
      simp [String.data_append]
    · show (s ++ "/").data.length ≤ s.data.length + 1
      simp [String.data_append]
    · simp [String.data_append]

theorem parentFolder_length (s : String) (h : s.data.getLast? = some '/') :
    (parentFolder s).length + 2 ≤ s.length ∨ parentFolder s = "" := by
  unfold parentFolder
  simp only [h, if_true]
  split
  · exact Or.inr rfl
  · rename_i x before hb
    split
    · left
      have h1 : (x :: before).length ≤ s.data.dropLast.reverse.length := by
        rw [← hb]; exact (List.dropWhile_sublist _).length_le
      have h2 : s.data.dropLast.length = s.data.length - 1 := List.length_dropLast _
      have h3 : 0 < s.data.length := by
        cases hd : s.data with
        | nil => rw [hd] at h; simp at h
        | cons c cs => simp
      simp only [List.length_cons, List.length_reverse] at h1
      show before.reverse.length + 2 ≤ s.data.length
      rw [List.length_reverse]
      omega
    · exact Or.inr rfl

/-- The depth bound of `folderAdd` is never reached: any two bounds above the
length of the name with its trailing slash give the same table. -/
theorem folderAdd_fuel (n : Nat) (files : ZipFiles) (name : String) (f₁ f₂ : Nat)
    (hn : (forceTrailingSlash name).length ≤ n) (h₁ : n < f₁) (h₂ : n < f₂) :
    folderAdd f₁ files name = folderAdd f₂ files name := by
  induction n generalizing files name f₁ f₂ with
  | zero =>
    have := (forceTrailingSlash_length name).1
    omega
  | succ n ih =>
    obtain ⟨g₁, rfl⟩ : ∃ g, f₁ = g + 1 := ⟨f₁ - 1, by omega⟩
    obtain ⟨g₂, rfl⟩ : ∃ g, f₂ = g + 1 := ⟨f₂ - 1, by omega⟩
    simp only [folderAdd]
    split
    · rfl
    · rcases parentFolder_length (forceTrailingSlash name) (forceTrailingSlash_length name).2.2
        with hlen | hempty
      · have hp := (forceTrailingSlash_length (parentFolder (forceTrailingSlash name))).2.1
        rw [ih files (parentFolder (forceTrailingSlash name)) g₁ g₂ (by omega) (by omega)
          (by omega)]
      · simp [hempty, truthy]

theorem zipFiles_empty_forest (config : Answers) (hne : config.project_name ≠ "")
    (hslash : '/' ∉ config.project_name.data) :
    zipFiles config [] = [(config.project_name ++ "/", .dir)] := by
  have ht : truthy config.project_name = true := by simpa [truthy] using hne
  have hlast : ¬ config.project_name.data.getLast? = some '/' := fun h =>
    hslash (List.mem_of_getLast?_eq_some h)
  have hforce : forceTrailingSlash ("" ++ config.project_name) = config.project_name ++ "/" := by
    simp [forceTrailingSlash, hlast]
  have hdrop : (config.project_name.data.reverse.dropWhile fun c => !decide (c = '/')) = [] := by
    rw [List.dropWhile_eq_nil_iff]
    intro x hx
    have : x ≠ '/' := fun e => hslash (e ▸ List.mem_reverse.mp hx)
    simpa using this
  have hparent : parentFolder (config.project_name ++ "/") = "" := by
    simp [parentFolder, String.data_append, hdrop]
  simp only [zipFiles, zipFolder, ht, if_true, addChildren]
  show folderAdd (("" ++ config.project_name).length + 1 + 1) [] ("" ++ config.project_name) = _
  simp only [folderAdd, hforce, zipGet, Option.isSome_none, Bool.false_eq_true, if_false,
    hparent, truthy_empty, zipSet]

theorem addChildren_removesInvalid {forest forest' : List TreeNode}
    (h : RemovesInvalid forest forest') (files : ZipFiles) (root : String) :
    addChildren files root forest = addChildren files root forest' := by
  induction h generalizing files root with
  | here path rest => simp [addChildren, addFileOrFolder]
  | later node _ ih => simp only [addChildren]; exact ih _ _
  | inside path rest _ ih => simp only [addChildren, addFileOrFolder]; rw [ih]

theorem mem_zipSet (files : ZipFiles) (name : String) (object : ZipObject)
    (e : String × ZipObject) (h : e ∈ zipSet files name object) :
    e ∈ files ∨ e = (name, object) := by
  induction files with
  | nil => simp [zipSet] at h; exact Or.inr h
  | cons x rest ih =>
    obtain ⟨n, o⟩ := x
    by_cases hn : n = name
    · simp only [zipSet, hn, if_true, List.mem_cons] at h
      rcases h with h | h
      · exact Or.inr h
      · exact Or.inl (List.mem_cons_of_mem _ h)
    · simp only [zipSet, hn, if_false, List.mem_cons] at h
      rcases h with h | h
      · exact Or.inl (h ▸ List.mem_cons_self _ _)
      · rcases ih h with h' | h'
        · exact Or.inl (List.mem_cons_of_mem _ h')
        · exact Or.inr h'

theorem resolved_zipSet (files : ZipFiles) (name : String) (object : ZipObject)
    (hf : Resolved files) (ho : object = .dir ∨ ∃ s, object = .file (.ok s)) :
    Resolved (zipSet files name object) := by
  intro e he
  rcases mem_zipSet files name object e he with h | h
  · exact hf e h
  · rw [h]; exact ho

theorem resolved_folderAdd (fuel : Nat) (files : ZipFiles) (name : String)
    (hf : Resolved files) : Resolved (folderAdd fuel files name) := by
  induction fuel generalizing files name with
  | zero => exact hf
  | succ fuel ih =>
    simp only [folderAdd]
    split
    · exact hf
    · apply resolved_zipSet _ _ _ _ (Or.inl rfl)
      split
      · exact ih _ _ hf
      · exact hf

theorem resolved_fileAdd (files : ZipFiles) (name s : String) (hf : Resolved files) :
    Resolved (fileAdd files name (.ok s)) := by
  unfold fileAdd
  apply resolved_zipSet _ _ _ _ (Or.inr ⟨s, rfl⟩)
  split
  · exact resolved_folderAdd _ _ _ hf
  · exact hf

theorem resolved_zipFolder (files : ZipFiles) (root path : String) (hf : Resolved files) :
    Resolved (zipFolder files root path).1 := by
  unfold zipFolder
  split
  · exact resolved_folderAdd _ _ _ hf
  · exact hf

mutual
theorem resolved_addFileOrFolder (node : TreeNode) (files : ZipFiles) (root : String)
    (hf : Resolved files) (hn : ∀ e ∈ nodeFileEntries root node, ∃ s, e.2 = .ok s) :
    Resolved (addFileOrFolder files root node) :=
  match node with
  | .file path content => by
    obtain ⟨s, hs⟩ := hn (root ++ path, content) (by simp [nodeFileEntries])
    simp only at hs
    subst hs
    exact resolved_fileAdd _ _ _ hf
  | .folder path children => by
    simp only [addFileOrFolder]
    apply resolved_addChildren children _ _ (resolved_zipFolder _ _ _ hf)
    rw [zipFolder_root]
    simpa [nodeFileEntries] using hn
  | .invalid path => by
    simpa [addFileOrFolder] using hf
theorem resolved_addChildren (forest : List TreeNode) (files : ZipFiles) (root : String)
    (hf : Resolved files) (hn : ∀ e ∈ childrenFileEntries root forest, ∃ s, e.2 = .ok s) :
    Resolved (addChildren files root forest) :=
  match forest with
  | [] => by simpa [addChildren] using hf
  | node :: rest => by
    simp only [addChildren]
    apply resolved_addChildren rest
    · apply resolved_addFileOrFolder node _ _ hf
      intro e he
      exact hn e (by simp [childrenFileEntries, he])
    · intro e he
      exact hn e (by simp [childrenFileEntries, he])
end

theorem generateEntries_resolved (files : ZipFiles) (hf : Resolved files) :
    ∃ archive, generateEntries files = .ok archive := by
  induction files with
  | nil => exact ⟨[], rfl⟩
  | cons e rest ih =>
    obtain ⟨archive, ha⟩ := ih fun x hx => hf x (List.mem_cons_of_mem _ hx)
    obtain ⟨n, o⟩ := e
    rcases hf (n, o) (List.mem_cons_self _ _) with h | ⟨s, h⟩
    · simp only at h
      subst h
      exact ⟨(n, .dir) :: archive, by simp [generateEntries, ha, bind, Except.bind, pure, Except.pure]⟩
    · simp only at h
      subst h
      exact ⟨(n, .file s) :: archive, by
        simp [generateEntries, ha, bind, Except.bind, pure, Except.pure]⟩

/-! ## The version helper -/

theorem classRun_append (p : Char → Bool) (run rest : List Char) (h1 : run ≠ [])
    (h2 : ∀ c ∈ run, p c = true) (h3 : ∀ c r, rest = c :: r → p c = false) :
    classRun p (run ++ rest) = some (run, rest) := by
  have ht : List.takeWhile p rest = [] := by
    cases rest with
    | nil => rfl
    | cons c r => simp [List.takeWhile, h3 c r rfl]
  have hd : List.dropWhile p rest = rest := by
    cases rest with
    | nil => rfl
    | cons c r => simp [List.dropWhile, h3 c r rfl]
  unfold classRun
  rw [List.takeWhile_append_of_pos h2, List.dropWhile_append_of_pos h2, ht, hd]
  simp [h1]

theorem classRun_sound (p : Char → Bool) (s run rest : List Char)
    (h : classRun p s = some (run, rest)) :
    run ≠ [] ∧ (∀ c ∈ run, p c = true) ∧ s = run ++ rest ∧
      (∀ c r, rest = c :: r → p c = false) := by
  unfold classRun at h
  split at h
  · exact absurd h (by simp)
  · rename_i hne
    simp only [Option.some.injEq, Prod.mk.injEq] at h
    obtain ⟨h1, h2⟩ := h
    subst h1 h2
    refine ⟨hne, fun c hc => List.mem_takeWhile_imp hc, (List.takeWhile_append_dropWhile p s).symm, ?_⟩
    intro c r hr
    cases hp : p c with
    | false => rfl
    | true =>
      exfalso
      have h0 : (List.dropWhile p s).head? = some c := by rw [hr]; rfl
      have := List.head?_dropWhile_not p s
      rw [h0] at this
      simp [hp] at this

theorem isRun_iff (p : Char → Bool) (s : String) :
    isRun p s = true ↔ s.data ≠ [] ∧ ∀ c ∈ s.data, p c = true := by
  unfold isRun
  cases s.data <;> simp

theorem literalChar_cons (c : Char) (s : List Char) : literalChar c (c :: s) = some s := by
  simp [literalChar]

theorem literalChar_sound (c : Char) (s rest : List Char) (h : literalChar c s = some rest) :
    s = c :: rest := by
  cases s with
  | nil => simp [literalChar] at h
  | cons d r =>
    simp only [literalChar] at h
    split at h
    · rename_i hd
      simp only [Option.some.injEq] at h
      rw [hd, h]
    · exact absurd h (by simp)

theorem literalChar_none (c d : Char) (s : List Char) (h : d ≠ c) :
    literalChar c (d :: s) = none := by
  simp [literalChar, h]

theorem matchTag_none_iff (s : List Char) : matchTag s = some none ↔ s = [] := by
  cases s with
  | nil => simp [matchTag, literalChar]
  | cons d r =>
    simp only [matchTag, literalChar]
    split
    · rename_i rest heq
      split at heq
      · simp only [Option.some.injEq] at heq
        subst heq
        split <;> simp
      · exact absurd heq (by simp)
    · simp

theorem matchTag_some_iff (s : List Char) (t : String) :
    matchTag s = some (some t) ↔ s = '-' :: t.data ∧ isRun isTagChar t = true := by
  rw [isRun_iff]
  constructor
  · intro h
    unfold matchTag at h
    split at h
    · rename_i rest heq
      have hs := literalChar_sound _ _ _ heq
      split at h
      · rename_i tag hrun
        obtain ⟨h1, h2, h3, _⟩ := classRun_sound _ _ _ _ hrun
        simp only [Option.some.injEq] at h
        subst h
        simp only [List.append_nil] at h3
        subst h3
        exact ⟨hs, h1, h2⟩
      · exact absurd h (by simp)
    · split at h <;> exact absurd h (by simp)
  · rintro ⟨hs, h1, h2⟩
    subst hs
    unfold matchTag
    rw [literalChar_cons]
    have := classRun_append isTagChar t.data [] h1 h2 (by simp)
    rw [List.append_nil] at this
    simp [this]

/-- The pattern matches every text of the form `[v]MAJOR.MINOR.PATCH[-TAG]`, and
its groups capture the components. -/
theorem matchVersion_text (f : VersionForm) (h : f.wellFormed = true) :
    matchVersion f.text.data = some ⟨f.major, f.minor, f.patch, f.tag⟩ := by
  obtain ⟨v, major, minor, patch, tag⟩ := f
  simp only [VersionForm.wellFormed, Bool.and_eq_true, isRun_iff] at h
  obtain ⟨⟨⟨⟨hM1, hM2⟩, ⟨hm1, hm2⟩⟩, ⟨hp1, hp2⟩⟩, ht⟩ := h
  have hdot : ∀ c r, ('.' :: r : List Char) = c :: r → isDigitChar c = false := by
    intro c r hc
    simp only [List.cons.injEq] at hc
    rw [← hc.1]; decide
  have htag : matchTag (tagText tag).data = some tag ∧
      ∀ c r, (tagText tag).data = c :: r → isDigitChar c = false := by
    cases tag with
    | none => exact ⟨(matchTag_none_iff _).2 rfl, by intro c r hc; simp [tagText] at hc⟩
    | some t =>
      refine ⟨(matchTag_some_iff _ _).2 ⟨by simp [tagText, String.data_append], ht⟩, ?_⟩
      intro c r hc
      simp only [tagText, String.data_append] at hc
      have : c = '-' := by
        have := congrArg List.head? hc
        simpa using this.symm
      rw [this]; decide
  have hrest : matchVersion (major.data ++ '.' :: (minor.data ++ '.' :: (patch.data ++ (tagText tag).data)))
      = some ⟨major, minor, patch, tag⟩ := by
    have hv : literalChar 'v' (major.data ++ '.' :: (minor.data ++ '.' :: (patch.data ++ (tagText tag).data))) = none := by
      cases hd : major.data with
      | nil => exact absurd hd hM1
      | cons c r =>
        have hc : isDigitChar c = true := hM2 c (by rw [hd]; simp)
        have : c ≠ 'v' := by
          intro hcv; rw [hcv] at hc; exact absurd hc (by decide)
        simp [literalChar, this]
    unfold matchVersion
    simp only [hv, Option.getD_none]
    rw [classRun_append isDigitChar major.data _ hM1 hM2 (fun c r hc => by
      simp only [List.cons.injEq] at hc; rw [← hc.1]; decide)]
    simp only [literalChar_cons]
    rw [classRun_append isDigitChar minor.data _ hm1 hm2 (fun c r hc => by
      simp only [List.cons.injEq] at hc; rw [← hc.1]; decide)]
    simp only [literalChar_cons]
    rw [classRun_append isDigitChar patch.data _ hp1 hp2 htag.2]
    simp only [htag.1]
  cases v with
  | false =>
    have : (VersionForm.text ⟨false, major, minor, patch, tag⟩).data
        = major.data ++ '.' :: (minor.data ++ '.' :: (patch.data ++ (tagText tag).data)) := by
      simp [VersionForm.text, String.data_append]
    rw [this]; exact hrest
  | true =>
    have : (VersionForm.text ⟨true, major, minor, patch, tag⟩).data
        = 'v' :: (major.data ++ '.' :: (minor.data ++ '.' :: (patch.data ++ (tagText tag).data))) := by
      simp [VersionForm.text, String.data_append]
    rw [this]
    have hv : literalChar 'v' ('v' :: (major.data ++ '.' :: (minor.data ++ '.' :: (patch.data ++ (tagText tag).data))))
        = some (major.data ++ '.' :: (minor.data ++ '.' :: (patch.data ++ (tagText tag).data))) := literalChar_cons _ _
    have hnov : literalChar 'v' (major.data ++ '.' :: (minor.data ++ '.' :: (patch.data ++ (tagText tag).data))) = none := by
      cases hd : major.data with
      | nil => exact absurd hd hM1
      | cons c r =>
        have hc : isDigitChar c = true := hM2 c (by rw [hd]; simp)
        have : c ≠ 'v' := by
          intro hcv; rw [hcv] at hc; exact absurd hc (by decide)
        simp [literalChar, this]
    unfold matchVersion at hrest ⊢
    simp only [hv, Option.getD_some]
    simp only [hnov, Option.getD_none] at hrest
    exact hrest

/-- The pattern matches nothing but the texts of the form
`[v]MAJOR.MINOR.PATCH[-TAG]`. -/
theorem matchVersion_sound (s : String) (m : VersionMatch) (h : matchVersion s.data = some m) :
    ∃ f : VersionForm, f.wellFormed = true ∧ f.text = s ∧
      m = ⟨f.major, f.minor, f.patch, f.tag⟩ := by
  unfold matchVersion at h
  simp only at h
  split at h
  · exact absurd h (by simp)
  rename_i major s1 hmajor
  split at h
  · exact absurd h (by simp)
  rename_i s2 hdot1
  split at h
  · exact absurd h (by simp)
  rename_i minor s3 hminor
  split at h
  · exact absurd h (by simp)
  rename_i s4 hdot2
  split at h
  · exact absurd h (by simp)
  rename_i patch s5 hpatch
  split at h
  · exact absurd h (by simp)
  rename_i tag htag
  simp only [Option.some.injEq] at h
  obtain ⟨hM1, hM2, hMs, _⟩ := classRun_sound _ _ _ _ hmajor
  obtain ⟨hm1, hm2, hms, _⟩ := classRun_sound _ _ _ _ hminor
  obtain ⟨hp1, hp2, hps, _⟩ := classRun_sound _ _ _ _ hpatch
  have h1 := literalChar_sound _ _ _ hdot1
  have h2 := literalChar_sound _ _ _ hdot2
  have htagtext : s5 = (tagText tag).data ∧
      isTag tag = true := by
    cases tag with
    | none => exact ⟨by simpa [tagText] using (matchTag_none_iff _).1 htag, rfl⟩
    | some t =>
      obtain ⟨ha, hb⟩ := (matchTag_some_iff _ _).1 htag
      exact ⟨by simpa [tagText, String.data_append] using ha, hb⟩
  have hbody : (literalChar 'v' s.data).getD s.data
      = major ++ '.' :: (minor ++ '.' :: (patch ++ (tagText tag).data)) := by
    rw [hMs, h1, hms, h2, hps, htagtext.1]
  have hwf : ∀ v, (VersionForm.mk v (String.mk major) (String.mk minor) (String.mk patch) tag).wellFormed = true := by
    intro v
    simp only [VersionForm.wellFormed, Bool.and_eq_true, isRun_iff]
    exact ⟨⟨⟨⟨hM1, hM2⟩, ⟨hm1, hm2⟩⟩, ⟨hp1, hp2⟩⟩, htagtext.2⟩
  cases hv : literalChar 'v' s.data with
  | none =>
    refine ⟨⟨false, String.mk major, String.mk minor, String.mk patch, tag⟩, hwf _, ?_, h.symm⟩
    rw [hv, Option.getD_none] at hbody
    apply String.ext
    rw [hbody]
    simp [VersionForm.text, String.data_append]
  | some rest =>
    refine ⟨⟨true, String.mk major, String.mk minor, String.mk patch, tag⟩, hwf _, ?_, h.symm⟩
    rw [hv, Option.getD_some] at hbody
    have := literalChar_sound _ _ _ hv
    apply String.ext
    rw [this, hbody]
    simp [VersionForm.text, String.data_append]

theorem captured_of_isTag (tag : Option String) (h : isTag tag = true) :
    captured tag = tag.isSome := by
  cases tag with
  | none => rfl
  | some t =>
    have := (isRun_iff _ _).1 h
    have hne : t ≠ "" := by
      intro ht; rw [ht] at this; exact this.1 rfl
    simp [captured, truthy, hne]

/-- The value of the replacement callback on the groups of a version. -/
theorem formatMatch_form (f : VersionForm) (h : f.wellFormed = true) :
    formatMatch ⟨f.major, f.minor, f.patch, f.tag⟩
      = f.major ++ "." ++ f.minor ++ (if f.patch = "0" then "" else "." ++ f.patch)
          ++ tagText f.tag := by
  obtain ⟨v, major, minor, patch, tag⟩ := f
  simp only [VersionForm.wellFormed, Bool.and_eq_true] at h
  have hc := captured_of_isTag tag h.2
  unfold formatMatch
  simp only [hc]
  cases tag with
  | none =>
    by_cases hp : patch = "0"
    · simp [hp, tagText]
    · simp [hp, tagText, String.append_assoc]
  | some t =>
    by_cases hp : patch = "0"
    · simp [hp, tagText, String.append_assoc]
    · simp [hp, tagText, String.append_assoc]

theorem formatVersion_text (f : VersionForm) (h : f.wellFormed = true) :
    formatVersion f.text
      = f.major ++ "." ++ f.minor ++ (if f.patch = "0" then "" else "." ++ f.patch)
          ++ tagText f.tag := by
  unfold formatVersion
  rw [matchVersion_text f h]
  exact formatMatch_form f h

/-- A text with two components only is not matched by the pattern. -/
theorem matchVersion_two_components (major minor : String) (tag : Option String)
    (hM : isRun isDigitChar major = true) (hm : isRun isDigitChar minor = true) :
    matchVersion (major ++ "." ++ minor ++ tagText tag).data = none := by
  rw [isRun_iff] at hM hm
  have hd : (major ++ "." ++ minor ++ tagText tag).data
      = major.data ++ '.' :: (minor.data ++ (tagText tag).data) := by
    simp [String.data_append]
  have hv : literalChar 'v' (major.data ++ '.' :: (minor.data ++ (tagText tag).data)) = none := by
    cases hd : major.data with
    | nil => exact absurd hd hM.1
    | cons c r =>
      have hc : isDigitChar c = true := hM.2 c (by rw [hd]; simp)
      have : c ≠ 'v' := by
        intro hcv; rw [hcv] at hc; exact absurd hc (by decide)
      simp [literalChar, this]
  have htag : literalChar '.' (tagText tag).data = none ∧
      ∀ c r, (tagText tag).data = c :: r → isDigitChar c = false := by
    cases tag with
    | none => exact ⟨rfl, by intro c r hc; simp [tagText] at hc⟩
    | some t =>
      refine ⟨by simp [tagText, String.data_append, literalChar], ?_⟩
      intro c r hc
      simp only [tagText, String.data_append] at hc
      have : c = '-' := by
        have := congrArg List.head? hc
        simpa using this.symm
      rw [this]; decide
  rw [hd]
  unfold matchVersion
  simp only [hv, Option.getD_none]
  rw [classRun_append isDigitChar major.data _ hM.1 hM.2 (fun c r hc => by
    simp only [List.cons.injEq] at hc; rw [← hc.1]; decide)]
  simp only [literalChar_cons]
  rw [classRun_append isDigitChar minor.data _ hm.1 hm.2 htag.2]
  simp only [htag.1]

/-- Claim C21: on every input of the form `[v]MAJOR.MINOR.PATCH[-TAG]` (the components
non-empty runs of decimal digits, the tag a non-empty run of ASCII letters and
digits) `formatVersion` returns the text without the leading `v`, without the
component `.PATCH` exactly when `PATCH` is the string `0`, and with the suffix
`-TAG` kept; every input that is not of that form is returned unchanged. So
`v8.12.0` gives `8.12`, `v8.12.1` gives `8.12.1` and `8.13.0-RC1` gives
`8.13-RC1`. -/
theorem formatVersion_normalises :
    (∀ f : VersionForm, f.wellFormed = true →
      formatVersion f.text
        = f.major ++ "." ++ f.minor ++ (if f.patch = "0" then "" else "." ++ f.patch)
            ++ tagText f.tag) ∧
    (∀ s : String, (∀ f : VersionForm, f.wellFormed = true → f.text ≠ s) →
      formatVersion s = s) ∧
    formatVersion "v8.12.0" = "8.12" ∧
    formatVersion "v8.12.1" = "8.12.1" ∧
    formatVersion "8.13.0-RC1" = "8.13-RC1" := by
  refine ⟨formatVersion_text, ?_, by decide, by decide, by decide⟩
  intro s hs
  unfold formatVersion
  cases hm : matchVersion s.data with
  | none => rfl
  | some m =>
    obtain ⟨f, hf, hfs, _⟩ := matchVersion_sound s m hm
    exact absurd hfs (hs f hf)

/-- Claim C21, at the version `v8.12.0` of the form and at the input `latest`, which
is not of the form. -/
theorem formatVersion_normalises_witness :
    formatVersion (VersionForm.text ⟨true, "8", "12", "0", none⟩) = "8.12" ∧
    formatVersion "latest" = "latest" :=
  ⟨formatVersion_normalises.1 ⟨true, "8", "12", "0", none⟩ (by decide),
   formatVersion_normalises.2.1 "latest" (fun f hf he => by
     have h := matchVersion_text f hf
     rw [he] at h
     have hn : matchVersion "latest".data = none := by decide
     rw [hn] at h
     exact absurd h (by simp))⟩

/-- Claim C28: `formatVersion` is idempotent: formatting a formatted version changes
nothing. -/
theorem formatVersion_idempotent (v : String) :
    formatVersion (formatVersion v) = formatVersion v := by
  cases hm : matchVersion v.data with
  | none =>
    have : formatVersion v = v := by unfold formatVersion; rw [hm]
    rw [this, this]
  | some m =>
    obtain ⟨f, hf, hfs, hfm⟩ := matchVersion_sound v m hm
    subst hfs
    rw [formatVersion_text f hf]
    obtain ⟨b, major, minor, patch, tag⟩ := f
    have hwf := hf
    simp only [VersionForm.wellFormed, Bool.and_eq_true] at hwf
    by_cases hp : patch = "0"
    · simp only [hp, if_true, String.append_empty]
      unfold formatVersion
      rw [matchVersion_two_components major minor tag hwf.1.1.1 hwf.1.1.2]
    · simp only [hp, if_false]
      have hg : (VersionForm.mk false major minor patch tag).wellFormed = true := hf
      have := formatVersion_text ⟨false, major, minor, patch, tag⟩ hg
      simp only [hp, if_false] at this
      have ht : (VersionForm.mk false major minor patch tag).text
          = major ++ "." ++ minor ++ ("." ++ patch) ++ tagText tag := by
        apply String.ext
        simp [VersionForm.text, String.data_append]
      rw [ht] at this
      exact this

/-! ## Duplicate paths among the children of a folder -/

theorem childrenFileEntries_append (root : String) (a b : List TreeNode) :
    childrenFileEntries root (a ++ b) = childrenFileEntries root a ++ childrenFileEntries root b := by
  induction a with
  | nil => simp [childrenFileEntries]
  | cons n rest ih => simp [childrenFileEntries, ih]

theorem lastWrite_not_mem (p : String) (before : Option (Promise String))
    (writes : List (String × Promise String)) (h : p ∉ writes.map Prod.fst) :
    lastWrite p before writes = before := by
  induction writes generalizing before with
  | nil => rfl
  | cons w rest ih =>
    simp only [List.map_cons, List.mem_cons, not_or] at h
    have step : lastWrite p before (w :: rest) =
        lastWrite p (if w.1 = p then some w.2 else before) rest := rfl
    rw [step, ih _ h.2]
    simp [Ne.symm h.1]

theorem keys_zipSet (files : ZipFiles) (name : String) (object : ZipObject) :
    (zipSet files name object).map Prod.fst =
      if name ∈ files.map Prod.fst then files.map Prod.fst else files.map Prod.fst ++ [name] := by
  induction files with
  | nil => simp [zipSet]
  | cons e rest ih =>
    obtain ⟨n, o⟩ := e
    simp only [zipSet]
    by_cases hn : n = name
    · simp [hn]
    · simp only [hn, if_false, List.map_cons, ih, List.mem_cons]
      have : ¬ name = n := fun h => hn h.symm
      simp only [this, false_or]
      split <;> simp

theorem nodup_zipSet (files : ZipFiles) (name : String) (object : ZipObject)
    (h : (files.map Prod.fst).Nodup) : ((zipSet files name object).map Prod.fst).Nodup := by
  rw [keys_zipSet]
  split
  · exact h
  · rename_i hn
    rw [List.nodup_append]
    exact ⟨h, List.nodup_singleton _, by
      intro a ha hb
      simp only [List.mem_singleton] at hb
      subst hb
      exact hn ha⟩

theorem nodup_folderAdd (fuel : Nat) (files : ZipFiles) (name : String)
    (h : (files.map Prod.fst).Nodup) : ((folderAdd fuel files name).map Prod.fst).Nodup := by
  induction fuel generalizing files name with
  | zero => simpa [folderAdd] using h
  | succ fuel ih =>
    simp only [folderAdd]
    split
    · exact h
    · apply nodup_zipSet
      split
      · exact ih _ _ h
      · exact h

theorem nodup_fileAdd (files : ZipFiles) (name : String) (content : Promise String)
    (h : (files.map Prod.fst).Nodup) : ((fileAdd files name content).map Prod.fst).Nodup := by
  simp only [fileAdd]
  apply nodup_zipSet
  split
  · exact nodup_folderAdd _ _ _ h
  · exact h

theorem nodup_zipFolder (files : ZipFiles) (root path : String)
    (h : (files.map Prod.fst).Nodup) : ((zipFolder files root path).1.map Prod.fst).Nodup := by
  unfold zipFolder
  split
  · exact nodup_folderAdd _ _ _ h
  · exact h

mutual
theorem nodup_addFileOrFolder (node : TreeNode) (files : ZipFiles) (root : String)
    (h : (files.map Prod.fst).Nodup) :
    ((addFileOrFolder files root node).map Prod.fst).Nodup :=
  match node with
  | .file path content => by
    simp only [addFileOrFolder, zipFile]
    exact nodup_fileAdd _ _ _ h
  | .folder path children => by
    simp only [addFileOrFolder]
    exact nodup_addChildren children _ _ (nodup_zipFolder _ _ _ h)
  | .invalid path => by
    simpa [addFileOrFolder] using h
theorem nodup_addChildren (forest : List TreeNode) (files : ZipFiles) (root : String)
    (h : (files.map Prod.fst).Nodup) :
    ((addChildren files root forest).map Prod.fst).Nodup :=
  match forest with
  | [] => by simpa [addChildren] using h
  | node :: rest => by
    simp only [addChildren]
    exact nodup_addChildren rest _ _ (nodup_addFileOrFolder node _ _ h)
end

theorem zipGet_mem (files : ZipFiles) (name : String) (object : ZipObject)
    (h : zipGet files name = some object) : (name, object) ∈ files := by
  induction files with
  | nil => simp [zipGet] at h
  | cons e rest ih =>
    obtain ⟨n, o⟩ := e
    simp only [zipGet] at h
    split at h
    · rename_i hn
      simp only [Option.some.injEq] at h
      simp [hn, h]
    · exact List.mem_cons_of_mem _ (ih h)

theorem fileAt_mem (files : ZipFiles) (p : String) (c : Promise String)
    (h : fileAt files p = some c) : (p, ZipObject.file c) ∈ files := by
  unfold fileAt at h
  split at h
  · rename_i content hz
    simp only [Option.some.injEq] at h
    subst h
    exact zipGet_mem _ _ _ hz
  · exact absurd h (by simp)

/-- A generated archive lists the names of the table, in order, and holds the
resolved data of each of its files. -/
theorem generateEntries_entries (files : ZipFiles) (archive : List (String × ArchiveEntry))
    (h : generateEntries files = .ok archive) :
    archive.map Prod.fst = files.map Prod.fst ∧
    ∀ p s, (p, ZipObject.file (.ok s)) ∈ files → (p, ArchiveEntry.file s) ∈ archive := by
  induction files generalizing archive with
  | nil =>
    simp only [generateEntries, pure, Except.pure, Except.ok.injEq] at h
    subst h
    simp
  | cons e rest ih =>
    obtain ⟨n, o⟩ := e
    cases o with
    | dir =>
      simp only [generateEntries, bind, Except.bind, pure, Except.pure] at h
      split at h
      · exact absurd h (by simp)
      · rename_i entries he
        simp only [Except.ok.injEq] at h
        subst h
        obtain ⟨h1, h2⟩ := ih entries he
        refine ⟨by simp [h1], ?_⟩
        intro p s hm
        simp only [List.mem_cons, Prod.mk.injEq] at hm
        rcases hm with ⟨_, hm⟩ | hm
        · exact absurd hm (by simp)
        · exact List.mem_cons_of_mem _ (h2 p s hm)
    | file content =>
      simp only [generateEntries, bind, Except.bind, pure, Except.pure] at h
      split at h
      · exact absurd h (by simp)
      · rename_i data hc
        split at h
        · exact absurd h (by simp)
        · rename_i entries he
          simp only [Except.ok.injEq] at h
          subst h
          obtain ⟨h1, h2⟩ := ih entries he
          refine ⟨by simp [h1], ?_⟩
          intro p s hm
          simp only [List.mem_cons, Prod.mk.injEq, ZipObject.file.injEq] at hm
          rcases hm with ⟨hp, hs⟩ | hm
          · subst hp
            simp only [Except.ok.injEq] at hs
            subst hs
            exact List.mem_cons_self _ _
          · exact List.mem_cons_of_mem _ (h2 p s hm)

theorem lastWrite_isSome (p : String) (c : Promise String)
    (writes : List (String × Promise String)) :
    ∃ d, lastWrite p (some c) writes = some d := by
  induction writes generalizing c with
  | nil => exact ⟨c, rfl⟩
  | cons w rest ih =>
    have step : lastWrite p (some c) (w :: rest) =
        lastWrite p (if w.1 = p then some w.2 else some c) rest := rfl
    rw [step]
    split
    · exact ih _
    · exact ih _

/-- Two file nodes with one path among the children of a folder: the table
holds a single entry at their archive path, with the data of the later one
unless a node after it writes at that path again. -/
theorem addChildren_duplicate (files : ZipFiles) (root path : String)
    (first later : Promise String) (before between after : List TreeNode)
    (hk : (files.map Prod.fst).Nodup) :
    fileAt (addChildren files root
        (before ++ .file path first :: (between ++ .file path later :: after)))
      (root ++ path) =
      lastWrite (root ++ path) (some later) (childrenFileEntries root after) ∧
    ((addChildren files root
        (before ++ .file path first :: (between ++ .file path later :: after))).map
      Prod.fst).count (root ++ path) = 1 := by
  have h1 : fileAt (addChildren files root
        (before ++ .file path first :: (between ++ .file path later :: after)))
      (root ++ path) =
      lastWrite (root ++ path) (some later) (childrenFileEntries root after) := by
    rw [fileAt_addChildren]
    have e : before ++ TreeNode.file path first :: (between ++ .file path later :: after)
        = (before ++ TreeNode.file path first :: between) ++ ([.file path later] ++ after) := by
      simp
    generalize before ++ TreeNode.file path first :: between = earlier at e
    rw [e, childrenFileEntries_append, childrenFileEntries_append, lastWrite_append,
      lastWrite_append]
    simp [childrenFileEntries, nodeFileEntries, lastWrite]
  refine ⟨h1, ?_⟩
  obtain ⟨d, hd⟩ := lastWrite_isSome (root ++ path) later (childrenFileEntries root after)
  apply List.count_eq_one_of_mem (nodup_addChildren _ _ _ hk)
  exact List.mem_map.mpr ⟨_, fileAt_mem _ _ d (h1.trans hd), rfl⟩

theorem truthy_group_id (answers : Answers) :
    truthy (answers.project_group ++ "." ++ answers.project_id) = true := by
  rw [truthy_iff]
  simp [String.data_append]

/-- The text of a class that differs from a closed description by its package
only. -/
theorem generateJavaTemplate_package (c : JavaClass) (pkg : String) (h : truthy pkg = true) :
    generateJavaTemplate { c with packageName := pkg } =
      "package " ++ pkg ++ ";\n\n\n" ++ generateJavaTemplate { c with packageName := "" } := by
  rw [generateJavaTemplate_sections, generateJavaTemplate_sections]
  have e1 : classBody { c with packageName := pkg } = classBody { c with packageName := "" } := rfl
  have e2 : importsSection { c with packageName := pkg }
      = importsSection { c with packageName := "" } := rfl
  rw [e1, e2]
  simp only [h, if_true, packageSection, truthy_empty, Bool.false_eq_true, if_false]
  apply String.ext
  simp [String.data_append]


/-- The emitted method: annotation lines, signature, body block. -/
theorem methodDeclaration_eq (m : JavaMethod) :
    methodDeclaration m =
      (if m.annotations = [] then ""
       else "\n".intercalate (m.annotations.map fun a => "    @" ++ a) ++ "\n") ++
      methodSignature m ++
      (if m.bodyLines = [] then "    \x7b\n    \x7d"
       else "    \x7b\n" ++ "\n".intercalate (m.bodyLines.map fun line => "        " ++ line) ++
        "\n    \x7d") := by
  have hbody : truthy ("\n".intercalate (m.bodyLines.map fun line => "        " ++ line)) =
      !m.bodyLines.isEmpty := by
    cases h : m.bodyLines with
    | nil => simp [String.intercalate, truthy_empty]
    | cons a l =>
      have := truthy_intercalate_map "\n" "        " (by decide) (a :: l) (by simp)
      simpa using this
  have key : methodDeclaration m =
      "\n".intercalate
        (["\n".intercalate (m.annotations.map fun a => "    @" ++ a),
          methodSignature m ++
            (if truthy ("\n".intercalate (m.bodyLines.map fun line => "        " ++ line)) then
              "    \x7b\n" ++ "\n".intercalate (m.bodyLines.map fun line => "        " ++ line) ++
                "\n    \x7d"
             else "    \x7b\n    \x7d")].filter fun part => (jsTrim part).length > 0) := rfl
  rw [key, hbody]
  cases hb : m.bodyLines with
  | nil =>
    simp only [List.isEmpty_nil, Bool.not_true, if_true, Bool.false_eq_true, if_false]
    exact methodParts_join _ _ _ m.annotations rfl (by decide)
  | cons b bs =>
    simp only [List.isEmpty_cons, Bool.not_false, if_true, reduceCtorEq, if_false]
    exact methodParts_join _ _ _ m.annotations rfl
      (by simp [String.data_append])

set_option maxRecDepth 100000 in
/-- Claim C30: a method description without `returnType` is emitted with the return
type `void`, whatever its name, the name of the class included: the class `N`
with the only method `N` reads `public class N`, `void N()`; and the stubs
composed for Forge and NeoForge declare
`public void ForgeBootstrap(FMLJavaModLoadingContext context)` and
`public void NeoForgeBootstrap(IEventBus modBus)`. -/
theorem generateJavaTemplate_void_return_type (answers : Answers) :
    (∀ m : JavaMethod,
      methodDeclaration { m with returnType := "" } =
        (if m.annotations = [] then ""
         else "\n".intercalate (m.annotations.map fun a => "    @" ++ a) ++ "\n") ++
        ("    " ++ (if truthy m.accessModifier then m.accessModifier ++ " " else "") ++
          "void" ++ " " ++ m.name ++ "(" ++ ", ".intercalate m.parameters ++ ")" ++
          (if m.exceptions.length > 0 then " throws " ++ ", ".intercalate m.exceptions
           else "")) ++
        (if m.bodyLines = [] then "    \x7b\n    \x7d"
         else "    \x7b\n" ++
          "\n".intercalate (m.bodyLines.map fun line => "        " ++ line) ++ "\n    \x7d")) ∧
    (∀ name : String,
      generateJavaTemplate { name := name, packageName := "", methods := [{ name := name }] } =
        "public class " ++ name ++ " \x7b\n    void " ++ name ++ "()    \x7b\n    \x7d\n\x7d") ∧
    ∃ nodes, generateCoreModules answers = .ok nodes ∧
      nodes[40]? = some (.file
        ("app/platform/forge/src/main/java/" ++ getGroupPath answers ++ "/" ++
          answers.project_id ++ "/ForgeBootstrap.java")
        (.ok ("package " ++ (answers.project_group ++ "." ++ answers.project_id) ++ ";\n\n\n" ++
          "import net.minecraftforge.fml.common.Mod;\nimport net.minecraftforge.fml.javafmlmod.FMLJavaModLoadingContext;\n\n@Mod(Constants.PROJECT_ID)\npublic class ForgeBootstrap \x7b\n    public void ForgeBootstrap(FMLJavaModLoadingContext context)    \x7b\n        // Initialization code\n        Common.initialize();\n    \x7d\n\x7d"))) ∧
      nodes[52]? = some (.file
        ("app/platform/neoforge/src/main/java/" ++ getGroupPath answers ++ "/" ++
          answers.project_id ++ "/NeoForgeBootstrap.java")
        (.ok ("package " ++ (answers.project_group ++ "." ++ answers.project_id) ++ ";\n\n\n" ++
          "import net.neoforged.bus.api.IEventBus;\nimport net.neoforged.fml.common.Mod;\n\n@Mod(Constants.PROJECT_ID)\npublic class NeoForgeBootstrap \x7b\n    public void NeoForgeBootstrap(IEventBus modBus)    \x7b\n        // Initialization code\n        Common.initialize();\n    \x7d\n\x7d"))) := by
  refine ⟨?_, ?_, coreNodes answers, rfl, ?_, ?_⟩
  · intro m
    rw [methodDeclaration_eq]
    simp only [methodSignature, truthy_empty, Bool.false_eq_true, if_false]
  · intro name
    rw [generateJavaTemplate_sections, classBody_eq]
    simp only [truthy_empty, Bool.false_eq_true, if_false, if_true, methodsSection, classHeader]
    simp only [List.map_cons, List.map_nil, intercalate_cons, join_nil, methodDeclaration_eq,
      methodSignature, truthy_empty, Bool.false_eq_true, if_false, if_true, String.intercalate,
      List.length_nil, gt_iff_lt, lt_self_iff_false, intercalate_go]
    apply String.ext
    simp [String.data_append, join_nil]
  · have h := generateJavaTemplate_package
          { name := "ForgeBootstrap",
            packageName := "",
            imports := ["net.minecraftforge.fml.common.Mod",
                        "net.minecraftforge.fml.javafmlmod.FMLJavaModLoadingContext"],
            annotations := ["Mod(Constants.PROJECT_ID)"],
            methods := [
              { name := "ForgeBootstrap",
                accessModifier := "public",
                parameters := ["FMLJavaModLoadingContext context"],
                bodyLines := ["// Initialization code", "Common.initialize();"] }] }
          (answers.project_group ++ "." ++ answers.project_id) (truthy_group_id answers)
    have hn : (coreNodes answers)[40]? = some (.file
        ("app/platform/forge/src/main/java/" ++ getGroupPath answers ++ "/" ++
          answers.project_id ++ "/ForgeBootstrap.java")
        (.ok (generateJavaTemplate
          { name := "ForgeBootstrap",
            packageName := answers.project_group ++ "." ++ answers.project_id,
            imports := ["net.minecraftforge.fml.common.Mod",
                        "net.minecraftforge.fml.javafmlmod.FMLJavaModLoadingContext"],
            annotations := ["Mod(Constants.PROJECT_ID)"],
            methods := [
              { name := "ForgeBootstrap",
                accessModifier := "public",
                parameters := ["FMLJavaModLoadingContext context"],
                bodyLines := ["// Initialization code", "Common.initialize();"] }] }))) := by
      have hp : "app/platform/forge/src/main/java/" ++ getGroupPath answers ++ "/" ++
          answers.project_id ++ "/ForgeBootstrap.java" =
          "app/platform/forge" ++ "/src/main/java/" ++ getGroupPath answers ++ "/" ++
          answers.project_id ++ "/ForgeBootstrap.java" := by
        apply String.ext; simp [String.data_append]
      rw [hp]; rfl
    rw [hn, h]
    rfl
  · have h := generateJavaTemplate_package
          { name := "NeoForgeBootstrap",
            packageName := "",
            imports := ["net.neoforged.bus.api.IEventBus", "net.neoforged.fml.common.Mod"],
            annotations := ["Mod(Constants.PROJECT_ID)"],
            methods := [
              { name := "NeoForgeBootstrap",
                accessModifier := "public",
                parameters := ["IEventBus modBus"],
                bodyLines := ["// Initialization code", "Common.initialize();"] }] }
          (answers.project_group ++ "." ++ answers.project_id) (truthy_group_id answers)
    have hn : (coreNodes answers)[52]? = some (.file
        ("app/platform/neoforge/src/main/java/" ++ getGroupPath answers ++ "/" ++
          answers.project_id ++ "/NeoForgeBootstrap.java")
        (.ok (generateJavaTemplate
          { name := "NeoForgeBootstrap",
            packageName := answers.project_group ++ "." ++ answers.project_id,
            imports := ["net.neoforged.bus.api.IEventBus", "net.neoforged.fml.common.Mod"],
            annotations := ["Mod(Constants.PROJECT_ID)"],
            methods := [
              { name := "NeoForgeBootstrap",
                accessModifier := "public",
                parameters := ["IEventBus modBus"],
                bodyLines := ["// Initialization code", "Common.initialize();"] }] }))) := by
      have hp : "app/platform/neoforge/src/main/java/" ++ getGroupPath answers ++ "/" ++
          answers.project_id ++ "/NeoForgeBootstrap.java" =
          "app/platform/neoforge" ++ "/src/main/java/" ++ getGroupPath answers ++ "/" ++
          answers.project_id ++ "/NeoForgeBootstrap.java" := by
        apply String.ext; simp [String.data_append]
      rw [hp]; rfl
    rw [hn, h]
    rfl
/-! ### The Java sources of the composed tree -/

theorem filter_endsWith_nodes (answers : Answers) (suffix : String) (nodes : List TreeNode)
    (ts : List (List PathAtom))
    (hp : nodes.map TreeNode.path = ts.map (evalPath answers))
    (h : ∀ t ∈ ts, (suffixVerdict t.reverse suffix.data.reverse).isSome = true) :
    nodes.filter (fun n => endsWith n.path suffix) =
      selectBy nodes (ts.map fun t => suffixVerdict t.reverse suffix.data.reverse == some true) := by
  induction nodes generalizing ts with
  | nil => cases ts <;> rfl
  | cons n ns ih =>
    cases ts with
    | nil => exact absurd hp (by simp)
    | cons t ts =>
      simp only [List.map_cons, List.cons.injEq] at hp
      have ht := h t (List.mem_cons_self _ _)
      obtain ⟨b, hb⟩ := Option.isSome_iff_exists.mp ht
      have he := endsWith_evalPath answers t suffix b hb
      rw [← hp.1] at he
      have := ih ts hp.2 (fun t' ht' => h t' (List.mem_cons_of_mem _ ht'))
      cases b with
      | true => simp [List.filter, he, hb, selectBy, this]
      | false => simp [List.filter, he, hb, selectBy, this]

theorem replaceAllChar_append (s t : String) (c : Char) (r : String) :
    replaceAllChar (s ++ t) c r = replaceAllChar s c r ++ replaceAllChar t c r := by
  unfold replaceAllChar
  rw [String.data_append, List.map_append, join_append]

theorem replaceAllChar_of_not_mem (s : String) (c : Char) (r : String) (h : c ∉ s.data) :
    replaceAllChar s c r = s := by
  unfold replaceAllChar
  apply String.ext
  rw [String.data_join]
  generalize s.data = l at h
  induction l with
  | nil => rfl
  | cons x xs ih =>
    simp only [List.mem_cons, not_or] at h
    have hx : ¬ x = c := fun e => h.1 e.symm
    simp only [List.map_cons, List.flatten_cons, hx, if_false]
    rw [ih h.2]
    rfl

/-- The directories of a package below the group and the identifier. -/
theorem replaceAllChar_package (answers : Answers) (h : '.' ∉ answers.project_id.data)
    (rest : String) :
    replaceAllChar (answers.project_group ++ "." ++ answers.project_id ++ rest) '.' "/" =
      getGroupPath answers ++ "/" ++ answers.project_id ++ replaceAllChar rest '.' "/" := by
  rw [replaceAllChar_append, replaceAllChar_append, replaceAllChar_append,
    replaceAllChar_of_not_mem answers.project_id _ _ h]
  rfl

/-- The text of a class with a package opens with the declaration of the
package and declares the class under its name. -/
theorem generateJavaTemplate_declares (c : JavaClass) (h : truthy c.packageName = true) :
    ∃ before after, generateJavaTemplate c =
      "package " ++ c.packageName ++ ";\n\n\n" ++ before ++
        "public " ++ c.type ++ " " ++ c.name ++ after := by
  rw [generateJavaTemplate_sections, classBody_eq]
  refine ⟨(if c.imports = [] then "" else importsSection c ++ "\n\n") ++
      (if c.annotations = [] then "" else classAnnotations c ++ "\n"),
    (if truthy c.extendClass then " extends " ++ c.extendClass else "") ++
      (if c.implementInterfaces.length > 0 then
        " implements " ++ ", ".intercalate c.implementInterfaces else "") ++ " \x7b" ++
      (if c.fields = [] then "" else "\n" ++ fieldsSection c) ++
      (if c.methods = [] then "" else "\n" ++ methodsSection c) ++ "\n\x7d", ?_⟩
  simp only [h, if_true, packageSection, classHeader]
  apply String.ext
  simp [String.data_append]

theorem truthy_composedClasses (answers : Answers) :
    ∀ rc ∈ composedClasses answers, truthy rc.2.packageName = true := by
  have h0 := truthy_group_id answers
  intro rc hrc
  simp only [composedClasses, List.mem_cons, List.mem_singleton, List.not_mem_nil, or_false] at hrc
  rcases hrc with h | h | h | h | h | h | h | h | h | h | h <;> subst h <;>
    first
    | exact h0
    | exact truthy_append_left _ _ h0

set_option maxRecDepth 100000 in
/-- Claim C25, refuted as stated: for the identifier `my.mod` of the group
`com.example` the source of the class `Api` declares the package
`com.example.my.mod`, whose directories are `com/example/my/mod`, and lies in
the directory `com/example/my.mod`: the `.` of the identifier is kept in the
path. -/
theorem generateCoreModules_dotted_identifier :
    (coreNodes { project_name := "Demo", project_group := "com.example",
                 project_id := "my.mod" })[3]? =
      some (.file "api/src/main/java/com/example/my.mod/Api.java"
        (.ok "package com.example.my.mod;\n\n\npublic class Api \x7b\n\x7d")) ∧
    replaceAllChar "com.example.my.mod" '.' "/" = "com/example/my/mod" ∧
    "api/src/main/java/" ++ replaceAllChar "com.example.my.mod" '.' "/" ++ "/Api.java" ≠
      "api/src/main/java/com/example/my.mod/Api.java" := by
  refine ⟨by rfl, by decide, by decide⟩

set_option maxRecDepth 100000 in
set_option maxHeartbeats 4000000 in
/-- Claim C25, amended: for every record of parameters whose identifier contains
no `.`, the nodes of `generateCoreModules` whose path ends in `.java` are the
eleven Java sources, and each mirrors its declaration: its file is named after
the declared class, followed by `.java`, and its directory below
`src/main/java/` is the declared package with every `.` replaced by `/`; the
text of each opens with `package <packageName>;` and declares
`public <type> <name>`. -/
theorem generateCoreModules_sources_mirror_package (answers : Answers)
    (h : '.' ∉ answers.project_id.data) :
    ∃ nodes, generateCoreModules answers = .ok nodes ∧
      nodes.filter (fun n => endsWith n.path ".java") =
        (composedClasses answers).map (fun rc => javaSourceNode rc.1 rc.2) ∧
      (composedClasses answers).length = 11 ∧
      ∀ rc ∈ composedClasses answers, ∃ before after,
        generateJavaTemplate rc.2 =
          "package " ++ rc.2.packageName ++ ";\n\n\n" ++ before ++
            "public " ++ rc.2.type ++ " " ++ rc.2.name ++ after := by
  refine ⟨coreNodes answers, rfl, ?_, rfl, fun rc hrc =>
    generateJavaTemplate_declares rc.2 (truthy_composedClasses answers rc hrc)⟩
  rw [filter_endsWith_nodes answers ".java" (coreNodes answers) coreTemplates
    (coreNodes_paths answers) (by decide)]
  have hv : (coreTemplates.map fun t => suffixVerdict t.reverse ".java".data.reverse == some true)
      = [false, false, false, true, true,
         false, false, false, true,
         false, false, false, false, false, false, true, true,
         false, false, false, false, false, false, false, false, false, true, false, true,
         false, false, false, false, false, false, false, false, false, true, false, true,
         false, false, false, false, false, false, false, false, false, true, false, true] := by
    decide
  rw [hv]
  have p0 := replaceAllChar_package answers h ""
  have p1 := replaceAllChar_package answers h ".platform"
  have p2 := replaceAllChar_package answers h ".platform.services"
  have e0 : replaceAllChar "" '.' "/" = "" := by decide
  have e1 : replaceAllChar ".platform" '.' "/" = "/platform" := by decide
  have e2 : replaceAllChar ".platform.services" '.' "/" = "/platform/services" := by decide
  rw [e0] at p0
  rw [e1] at p1
  rw [e2] at p2
  simp only [String.append_empty] at p0
  have hl : selectBy (coreNodes answers)
      [false, false, false, true, true,
         false, false, false, true,
         false, false, false, false, false, false, true, true,
         false, false, false, false, false, false, false, false, false, true, false, true,
         false, false, false, false, false, false, false, false, false, true, false, true,
         false, false, false, false, false, false, false, false, false, true, false, true] =
      [.file ("api/src/main/java/" ++ getGroupPath answers ++ "/" ++ answers.project_id ++
          "/Api.java") (.ok (generateJavaTemplate (apiClass answers))),
       .file ("api/src/main/java/" ++ getGroupPath answers ++ "/" ++ answers.project_id ++
          "/platform/services/IPlatformHelper.java")
          (.ok (generateJavaTemplate (platformHelperClass answers))),
       .file ("utils/src/main/java/" ++ getGroupPath answers ++ "/" ++ answers.project_id ++
          "/Utils.java") (.ok (generateJavaTemplate (utilsClass answers))),
       .file ("app" ++ "/common/src/main/java/" ++ getGroupPath answers ++ "/" ++
          answers.project_id ++ "/Common.java") (.ok (generateJavaTemplate (commonClass answers))),
       .file ("app" ++ "/common/src/main/java/" ++ getGroupPath answers ++ "/" ++
          answers.project_id ++ "/Constants.java")
          (.ok (generateJavaTemplate (constantsClass answers))),
       .file ("app/platform/fabric" ++ "/src/main/java/" ++ getGroupPath answers ++ "/" ++
          answers.project_id ++ "/platform/" ++ "Fabric" ++ "Platform.java")
          (.ok (generateJavaTemplate (platformClass "Fabric" answers))),
       .file ("app/platform/fabric" ++ "/src/main/java/" ++ getGroupPath answers ++ "/" ++
          answers.project_id ++ "/FabricBootstrap.java")
          (.ok (generateJavaTemplate (fabricBootstrapClass answers))),
       .file ("app/platform/forge" ++ "/src/main/java/" ++ getGroupPath answers ++ "/" ++
          answers.project_id ++ "/platform/" ++ "Forge" ++ "Platform.java")
          (.ok (generateJavaTemplate (platformClass "Forge" answers))),
       .file ("app/platform/forge" ++ "/src/main/java/" ++ getGroupPath answers ++ "/" ++
          answers.project_id ++ "/ForgeBootstrap.java")
          (.ok (generateJavaTemplate (forgeBootstrapClass answers))),
       .file ("app/platform/neoforge" ++ "/src/main/java/" ++ getGroupPath answers ++ "/" ++
          answers.project_id ++ "/platform/" ++ "Neoforge" ++ "Platform.java")
          (.ok (generateJavaTemplate (platformClass "Neoforge" answers))),
       .file ("app/platform/neoforge" ++ "/src/main/java/" ++ getGroupPath answers ++ "/" ++
          answers.project_id ++ "/NeoForgeBootstrap.java")
          (.ok (generateJavaTemplate (neoForgeBootstrapClass answers)))] := rfl
  rw [hl]
  simp only [composedClasses, List.map_cons, List.map_nil, javaSourceNode, apiClass,
    platformHelperClass, utilsClass, commonClass, constantsClass, platformClass,
    fabricBootstrapClass, forgeBootstrapClass, neoForgeBootstrapClass, p0, p1, p2,
    List.cons.injEq, TreeNode.file.injEq, and_true]
  refine ⟨?_, ?_, ?_, ?_, ?_, ?_, ?_, ?_, ?_, ?_, ?_⟩ <;>
    (apply String.ext; simp [String.data_append])

/-- Claim C25, amended, at the parameters `Demo`, `com.example`, `demo`: the
source of the interface `IPlatformHelper` is the second of the eleven. -/
theorem generateCoreModules_sources_mirror_package_witness :
    '.' ∉ "demo".data ∧
    ∃ nodes,
      generateCoreModules
        { project_name := "Demo", project_group := "com.example", project_id := "demo" } =
        .ok nodes ∧
      (nodes.filter (fun n => endsWith n.path ".java"))[1]? =
        some (javaSourceNode "api/"
          (platformHelperClass
            { project_name := "Demo", project_group := "com.example", project_id := "demo" })) := by
  refine ⟨by decide, ?_⟩
  obtain ⟨nodes, h1, h2, _⟩ := generateCoreModules_sources_mirror_package
    { project_name := "Demo", project_group := "com.example", project_id := "demo" } (by decide)
  exact ⟨nodes, h1, by rw [h2]; rfl⟩

theorem serviceNodes_eq (platform capPlatform : String) (answers : Answers) :
    serviceNodes platform capPlatform answers =
      [.file (("app" ++ "/platform/" ++ platform) ++ "/src/main/resources/META-INF/services/" ++
          answers.project_group ++ "." ++ answers.project_id ++
          ".platform.services.IPlatformHelper")
        (.ok (answers.project_group ++ "." ++ answers.project_id ++ ".platform." ++
          capPlatform ++ "Platform")),
       .file ((("app" ++ "/platform/" ++ platform) ++ "/src/main/java/" ++ getGroupPath answers ++
          "/" ++ answers.project_id) ++ "/platform/" ++ capPlatform ++ "Platform.java")
        (.ok (generateJavaTemplate (platformClass capPlatform answers)))] := by
  simp only [serviceNodes, platformHelperClass, platformClass, List.cons.injEq,
    TreeNode.file.injEq, Except.ok.injEq, and_true]
  refine ⟨⟨?_, ?_⟩, ?_⟩ <;> (apply String.ext; simp [String.data_append])

set_option maxRecDepth 100000 in
/-- Claim C29: every fully-qualified class name written into a generated manifest
names a class the composer generates. In each platform module the
service-registration file is named after the package of the generated interface
`IPlatformHelper`, a `.` and its name, and holds the package of the class
`<Platform>Platform` generated in the same module, a `.` and its name; the
main entrypoint of the Fabric manifest is the package of the generated class
`FabricBootstrap`, a `.` and its name. -/
theorem generateCoreModules_manifest_class_names (answers : Answers) :
    ∃ nodes, generateCoreModules answers = .ok nodes ∧
      nodes[4]? = some (.file ("api/src/main/java/" ++ getGroupPath answers ++ "/" ++
          answers.project_id ++ "/platform/services/IPlatformHelper.java")
        (.ok (generateJavaTemplate (platformHelperClass answers)))) ∧
      (nodes.drop 25).take 2 = serviceNodes "fabric" (capitalize "fabric") answers ∧
      (nodes.drop 37).take 2 = serviceNodes "forge" (capitalize "forge") answers ∧
      (nodes.drop 49).take 2 = serviceNodes "neoforge" (capitalize "neoforge") answers ∧
      (∃ before after,
        nodes[27]? = some (.file "app/platform/fabric/src/main/resources/fabric.mod.json"
          (.ok (jsonStringifyObject (before ++
            ("entrypoints", .obj [("main", .arr [.str
              ((fabricBootstrapClass answers).packageName ++ "." ++
                (fabricBootstrapClass answers).name)])]) :: after)))) ∧
        "entrypoints" ∉ before.map Prod.fst) ∧
      nodes[28]? = some (.file ("app/platform/fabric/src/main/java/" ++ getGroupPath answers ++
          "/" ++ answers.project_id ++ "/FabricBootstrap.java")
        (.ok (generateJavaTemplate (fabricBootstrapClass answers)))) ∧
      (platformHelperClass answers).name = "IPlatformHelper" ∧
      (platformHelperClass answers).type = "interface" ∧
      (fabricBootstrapClass answers).name = "FabricBootstrap" ∧
      [(platformClass (capitalize "fabric") answers).name,
       (platformClass (capitalize "forge") answers).name,
       (platformClass (capitalize "neoforge") answers).name] =
        ["FabricPlatform", "ForgePlatform", "NeoforgePlatform"] := by
  refine ⟨coreNodes answers, rfl, ?_, ?_, ?_, ?_, ?_, ?_, rfl, rfl, rfl, rfl⟩
  · rfl
  · rw [serviceNodes_eq]; rfl
  · rw [serviceNodes_eq]; rfl
  · rw [serviceNodes_eq]; rfl
  · refine ⟨[("schemaVersion", .num 1),
      ("id", .str "$\x7bproject_id\x7d"),
      ("version", .str "$\x7bproject_version\x7d"),
      ("name", .str "$\x7bproject_name\x7d"),
      ("description", .str "$\x7bproject_description\x7d"),
      ("authors", .arr [.str "$\x7bproject_author\x7d"]),
      ("contact", .obj [("homepage", .str "https://fabricmc.net/"),
                        ("sources", .str "https://github.com/FabricMC/fabric-example-mod")]),
      ("license", .str "$\x7bproject_license\x7d"),
      ("icon", .str "$\x7bproject_id\x7d/icon.png"),
      ("environment", .str "*")],
      [("mixins", .arr [.str "$\x7bproject_id\x7d.mixins.json",
                       .str "$\x7bproject_id\x7d.fabric.mixins.json"]),
      ("depends", .obj [("fabricloader", .str ">=$\x7bfabric_loader_version\x7d"),
                        ("fabric-api", .str "*"),
                        ("minecraft", .str "$\x7bminecraft_version\x7d"),
                        ("java", .str ">=$\x7bjava_version\x7d")]),
      ("suggests", .obj [("another-mod", .str "*")])], ?_, by decide⟩
    have hc : (fabricBootstrapClass answers).packageName ++ "." ++
        (fabricBootstrapClass answers).name =
        answers.project_group ++ "." ++ answers.project_id ++ ".FabricBootstrap" := by
      simp only [fabricBootstrapClass]
      apply String.ext; simp [String.data_append]
    rw [hc]
    rfl
  · have hp : "app/platform/fabric/src/main/java/" ++ getGroupPath answers ++
          "/" ++ answers.project_id ++ "/FabricBootstrap.java" =
        "app/platform/fabric" ++ "/src/main/java/" ++ getGroupPath answers ++
          "/" ++ answers.project_id ++ "/FabricBootstrap.java" := by
      apply String.ext; simp [String.data_append]
    rw [hp]
    rfl

/-! ### The locations passed to the variant-selection generators -/

set_option maxRecDepth 100000 in
set_option maxHeartbeats 4000000 in
/-- Claim C27: every location the orchestrator and the tree composer pass to
`generateBuildGradle` and `generatePluginGradle` is a recognised one, so that,
for every record of parameters, no call takes the branch that throws: the
orchestrator asks for `root`; the plugins module for `plugins` and for the
plugin scripts `common`, `library`, `platform`; the core modules for `core:api`,
`core:utils`, `core:app:common` and `core:app:platform:<p>` for the three
platforms; every node of the two modules is a file with a resolved content. -/
theorem composition_locations_recognised (answers : Answers) :
    rootBuildGradleNode = .ok (.file "build.gradle" (.ok rootBuildGradle)) ∧
    generatePluginsModule = .ok [
      .file "build.gradle" (.ok pluginsBuildGradle),
      .file "src/main/groovy/type-common.gradle" (.ok typeCommonGradle),
      .file "src/main/groovy/type-library.gradle" (.ok typeLibraryGradle),
      .file "src/main/groovy/type-platform.gradle" (.ok typePlatformGradle)] ∧
    ∃ nodes, generateCoreModules answers = .ok nodes ∧
      nodes.filter (fun n => endsWith n.path "build.gradle") = [
        .file "api/build.gradle" (.ok coreApiBuildGradle),
        .file "utils/build.gradle" (.ok coreUtilsBuildGradle),
        .file "app/common/build.gradle" (.ok commonBuildGradle),
        .file "app/platform/fabric/build.gradle" (.ok fabricBuildGradle),
        .file "app/platform/forge/build.gradle" (.ok forgeBuildGradle),
        .file "app/platform/neoforge/build.gradle" (.ok neoforgeBuildGradle)] ∧
      nodes.all TreeNode.isResolvedFile = true := by
  refine ⟨rfl, rfl, coreNodes answers, rfl, ?_, rfl⟩
  rw [filter_endsWith_nodes answers "build.gradle" (coreNodes answers) coreTemplates
    (coreNodes_paths answers) (by decide)]
  have hv : (coreTemplates.map fun t =>
      suffixVerdict t.reverse "build.gradle".data.reverse == some true)
      = [true, false, false, false, false,
         true, false, false, false,
         true, false, false, false, false, false, false, false,
         true, false, false, false, false, false, false, false, false, false, false, false,
         true, false, false, false, false, false, false, false, false, false, false, false,
         true, false, false, false, false, false, false, false, false, false, false, false] := by
    decide
  rw [hv]
  rfl

/-! ## The fetching generators -/

/-- Claim C23, at the licence identifier `constructor`: it is not a key of the
mapping fetched (whose only key is `MIT`), and `generateLicense` does not fail
with `Unsupported license type: constructor`. The lookup finds the function
inherited from `Object.prototype`, which is truthy, and passes it to `fetch`;
the run fails with the error of `fetch` instead. -/
theorem generateLicense_inherited_name :
    (fetchLicenseMapping sampleFetch none).1 =
      { own := [("MIT", some "https://example.org/MIT.txt")], inherits := true } ∧
    generateLicense sampleFetch 2026 none
        (some { project_name := "Demo", project_group := "com.example", project_id := "demo",
                project_license := "constructor" }) =
      .error ⟨"Failed to parse URL from function Object() \x7b [native code] \x7d"⟩ ∧
    generateLicense sampleFetch 2026 none
        (some { project_name := "Demo", project_group := "com.example", project_id := "demo",
                project_license := "constructor" }) ≠
      .error ⟨"Unsupported license type: constructor"⟩ ∧
    generateLicense sampleFetch 2026 none
        (some { project_name := "Demo", project_group := "com.example", project_id := "demo",
                project_license := "GPL-3.0" }) =
      .error ⟨"Unsupported license type: GPL-3.0"⟩ := by
  refine ⟨by rfl, by rfl, ?_, by rfl⟩
  have h : generateLicense sampleFetch 2026 none
        (some { project_name := "Demo", project_group := "com.example", project_id := "demo",
                project_license := "constructor" }) =
      .error ⟨"Failed to parse URL from function Object() \x7b [native code] \x7d"⟩ := by rfl
  rw [h]
  intro he
  have hm := congrArg (fun r : Promise String => match r with
    | .error e => e.message
    | .ok _ => "") he
  simp only at hm
  exact absurd hm (by decide)

/-- Without a license, `generateLicense` is rejected with
`License type is required.` whatever the network and the cache are; with a
license the mapping has no property for, own or inherited, or a property that
is falsy, it is rejected with `Unsupported license type: <id>`. -/
theorem generateLicense_rejections (fetch : Fetch) (year : Nat)
    (cachedLicenses : Option LicenseMapping) (answers : Answers) :
    generateLicense fetch year cachedLicenses none = .error ⟨"License type is required."⟩ ∧
    (answers.project_license = "" →
      generateLicense fetch year cachedLicenses (some answers) =
        .error ⟨"License type is required."⟩) ∧
    (answers.project_license ≠ "" →
      (fetchLicenseMapping fetch cachedLicenses).1.get answers.project_license = none →
      generateLicense fetch year cachedLicenses (some answers) =
        .error ⟨"Unsupported license type: " ++ answers.project_license⟩) := by
  refine ⟨rfl, ?_, ?_⟩
  · intro h
    simp [generateLicense, h, truthy_empty]
  · intro h hg
    have ht : truthy answers.project_license = true := by simp [truthy, h]
    simp [generateLicense, ht, hg]

/-- Claim C24, refuted as stated: the error of the fetching generators carries
the status text of the response, not its status. Two failed responses with the
statuses 404 and 500 and no status text make `fetchFile` fail with the same
error, `Failed to download file: `; and with the status text `Not Found` the
error of `generateGradlew` does not hold the status 404. -/
theorem fetchFile_error_without_status :
    fetchFile (fun _ => .ok { ok := false, status := 404, statusText := "" }) "wrapper.jar" =
      .error ⟨"Failed to download file: "⟩ ∧
    fetchFile (fun _ => .ok { ok := false, status := 500, statusText := "" }) "wrapper.jar" =
      .error ⟨"Failed to download file: "⟩ ∧
    generateGradlew (fun _ => .ok { ok := false, status := 404, statusText := "Not Found" }) =
      .error ⟨"Failed to fetch gradlew content: Not Found"⟩ ∧
    includes "Failed to fetch gradlew content: Not Found" "404" = false :=
  ⟨rfl, rfl, rfl, by decide⟩

/-- Claim C24, amended: whatever the network does, each fetching generator
passes on the rejection of `fetch`, fails on a response that is not a success
with an error whose message ends with the status text of the response
(`Failed to download file: `, `Failed to fetch gradlew content: ` or
`Failed to fetch gradlew.bat content: ` followed by `statusText`), and returns
the body of a success response unchanged. -/
theorem fetch_generators_outcome (fetch : Fetch) (url : String) :
    fetchFile fetch url =
      (match fetch url with
       | .error e => .error e
       | .ok response =>
         if response.ok then .ok response.arrayBuffer
         else .error ⟨"Failed to download file: " ++ response.statusText⟩) ∧
    generateGradlew fetch =
      (match fetch "https://raw.githubusercontent.com/gradle/gradle/master/gradlew" with
       | .error e => .error e
       | .ok response =>
         if response.ok then .ok response.text
         else .error ⟨"Failed to fetch gradlew content: " ++ response.statusText⟩) ∧
    generateGradlewBat fetch =
      (match fetch "https://raw.githubusercontent.com/gradle/gradle/master/gradlew.bat" with
       | .error e => .error e
       | .ok response =>
         if response.ok then .ok response.text
         else .error ⟨"Failed to fetch gradlew.bat content: " ++ response.statusText⟩) := by
  have key : ∀ {α : Type} (r : Promise Response) (msg : String) (body : Response → α),
      (do
        let response ← r
        if !response.ok then
          throw ⟨msg ++ response.statusText⟩
        pure (body response) : Promise α) =
      (match r with
       | .error e => .error e
       | .ok response =>
         if response.ok then .ok (body response)
         else .error ⟨msg ++ response.statusText⟩) := by
    intro α r msg body
    cases r with
    | error e => rfl
    | ok response =>
      cases h : response.ok <;>
        simp [bind, Except.bind, h, throw, throwThe, MonadExceptOf.throw, pure, Except.pure]
  exact ⟨key (fetch url) _ _, key _ _ _, key _ _ _⟩

/-- Claim C26, at authors that hold a `$`: the author is passed to `replace` as
a replacement pattern, in which `$$` stands for `$` and `$&` for the matched
text. For the author `R$$ Holdings` the license reads `R$ Holdings`, and for
the author `Smith $& Sons` it reads `Smith <copyright holders> Sons`. -/
theorem generateLicense_author_pattern :
    generateLicense sampleFetch 2026 none
        (some { project_name := "Demo", project_group := "com.example", project_id := "demo",
                project_license := "MIT", project_author := "R$$ Holdings" }) =
      .ok "Copyright (c) 2026 R$ Holdings" ∧
    generateLicense sampleFetch 2026 none
        (some { project_name := "Demo", project_group := "com.example", project_id := "demo",
                project_license := "MIT", project_author := "Smith $& Sons" }) =
      .ok "Copyright (c) 2026 Smith <copyright holders> Sons" ∧
    generateLicense sampleFetch 2026 none
        (some { project_name := "Demo", project_group := "com.example", project_id := "demo",
                project_license := "MIT", project_author := "Jo Doe" }) =
      .ok "Copyright (c) 2026 Jo Doe" ∧
    generateLicense sampleFetch 2026 none
        (some { project_name := "Demo", project_group := "com.example", project_id := "demo",
                project_license := "MIT" }) =
      .ok "Copyright (c) 2026 Unknown Author" := by
  refine ⟨by rfl, by rfl, by rfl, by rfl⟩

/-- A replacement text without `$` stands for itself. -/
theorem getSubstitution_plain (matched before after replacement : List Char)
    (h : '$' ∉ replacement) :
    getSubstitution matched before after replacement = replacement := by
  induction replacement using List.rec with
  | nil => rfl
  | cons c rest ih =>
    simp only [List.mem_cons, not_or] at h
    have hc : ¬ c = '$' := fun e => h.1 e.symm
    cases rest with
    | nil => rfl
    | cons d rest' =>
      rw [getSubstitution]
      simp only [hc, if_false]
      rw [ih h.2]

/-! ## The order of the properties -/

theorem insertByIndex_perm {α : Type} (i : Nat) (e : String × α)
    (l : List (Nat × String × α)) : (insertByIndex i e l).Perm ((i, e) :: l) := by
  induction l with
  | nil => exact List.Perm.refl _
  | cons x rest ih =>
    simp only [insertByIndex]
    split
    · exact List.Perm.refl _
    · exact (List.Perm.cons x ih).trans (List.Perm.swap _ _ _)

theorem insertByIndex_sorted {α : Type} (i : Nat) (e : String × α)
    (l : List (Nat × String × α)) (h : (l.map Prod.fst).Sorted (· ≤ ·)) :
    ((insertByIndex i e l).map Prod.fst).Sorted (· ≤ ·) := by
  induction l with
  | nil => simp [insertByIndex]
  | cons x rest ih =>
    simp only [List.map_cons, List.sorted_cons] at h
    simp only [insertByIndex]
    split
    · rename_i hlt
      simp only [List.map_cons, List.sorted_cons, List.mem_cons, forall_eq_or_imp]
      refine ⟨⟨Nat.le_of_lt hlt, fun b hb => Nat.le_trans (Nat.le_of_lt hlt) (h.1 b hb)⟩,
        h.1, h.2⟩
    · rename_i hge
      simp only [List.map_cons, List.sorted_cons]
      refine ⟨?_, ih h.2⟩
      intro b hb
      have hp := (insertByIndex_perm i e rest).map Prod.fst
      have hb' := hp.subset hb
      simp only [List.map_cons, List.mem_cons] at hb'
      rcases hb' with hb' | hb'
      · rw [hb']; exact Nat.le_of_not_lt hge
      · exact h.1 b hb'

/-- The properties with an array index come in ascending order of the index. -/
theorem indexedProperties_sorted {α : Type} (created : List (String × α)) :
    ((indexedProperties created).map Prod.fst).Sorted (· ≤ ·) := by
  induction created with
  | nil => simp [indexedProperties]
  | cons e rest ih =>
    simp only [indexedProperties]
    split
    · exact insertByIndex_sorted _ _ _ ih
    · exact ih

theorem indexedProperties_perm {α : Type} (created : List (String × α)) :
    ((indexedProperties created).map Prod.snd).Perm
      (created.filter fun e => (arrayIndex e.1).isSome) := by
  induction created with
  | nil => simp [indexedProperties]
  | cons e rest ih =>
    simp only [indexedProperties]
    split
    · rename_i i hi
      have hp := (insertByIndex_perm i e (indexedProperties rest)).map Prod.snd
      simp only [List.map_cons] at hp
      have : List.filter (fun e => (arrayIndex e.1).isSome) (e :: rest) =
          e :: rest.filter fun e => (arrayIndex e.1).isSome := by
        simp [List.filter, hi]
      rw [this]
      exact hp.trans (List.Perm.cons e ih)
    · rename_i hi
      have : List.filter (fun e => (arrayIndex e.1).isSome) (e :: rest) =
          rest.filter fun e => (arrayIndex e.1).isSome := by
        simp [List.filter, hi]
      rw [this]
      exact ih

/-- Every index listed is the array index of its key. -/
theorem indexedProperties_index {α : Type} (created : List (String × α)) :
    ∀ x ∈ indexedProperties created, arrayIndex x.2.1 = some x.1 := by
  induction created with
  | nil => simp [indexedProperties]
  | cons e rest ih =>
    simp only [indexedProperties]
    split
    · rename_i i hi
      intro x hx
      have := (insertByIndex_perm i e (indexedProperties rest)).subset hx
      simp only [List.mem_cons] at this
      rcases this with h | h
      · rw [h]; exact hi
      · exact ih x h
    · exact ih

/-- The enumeration is a rearrangement of the properties. -/
theorem ownPropertyOrder_perm {α : Type} (created : List (String × α)) :
    (ownPropertyOrder created).Perm created := by
  unfold ownPropertyOrder
  have h1 := indexedProperties_perm created
  have h2 : (created.filter fun e => (arrayIndex e.1).isNone) =
      created.filter fun e => !(arrayIndex e.1).isSome := by
    congr 1
    funext e
    cases arrayIndex e.1 <;> rfl
  rw [h2]
  exact (List.Perm.append_right _ h1).trans (List.filter_append_perm _ created)

/-- Without array indices among the keys, the enumeration is the order of
creation. -/
theorem ownPropertyOrder_of_no_index {α : Type} (created : List (String × α))
    (h : ∀ e ∈ created, arrayIndex e.1 = none) : ownPropertyOrder created = created := by
  have h1 : indexedProperties created = [] := by
    induction created with
    | nil => rfl
    | cons e rest ih =>
      simp only [indexedProperties, h e (List.mem_cons_self _ _)]
      exact ih fun x hx => h x (List.mem_cons_of_mem _ hx)
  have h2 : (created.filter fun e => (arrayIndex e.1).isNone) = created := by
    rw [List.filter_eq_self]
    intro e he
    simp [h e he]
  simp [ownPropertyOrder, h1, h2]

/-- A key with a character that is not a decimal digit is not an array index. -/
theorem arrayIndex_of_not_digit (key : String) (c : Char) (hc : c ∈ key.data)
    (hd : (decide (48 ≤ c.toNat) && decide (c.toNat ≤ 57)) = false) :
    arrayIndex key = none := by
  unfold arrayIndex
  cases hk : key.data with
  | nil => rfl
  | cons a rest =>
    have hall : (a :: rest).all (fun d => decide (48 ≤ d.toNat) && decide (d.toNat ≤ 57))
        = false := by
      rw [List.all_eq_false]
      exact ⟨c, by rw [← hk]; exact hc, by simp [hd]⟩
    simp only [hall, Bool.false_and, Bool.false_eq_true, if_false]


/-- Claim C1, refuted as stated: a key that is an array index is emitted before
the other keys, whatever the order of insertion. The document `{ b: 1, 2: 2,
1: 3 }`, whose keys were inserted in the order `b`, `2`, `1`, is emitted in the
order `1`, `2`, `b`. -/
theorem buildTomlString_index_keys_first :
    objectEntries [("b", .num 1), ("2", .num 2), ("1", .num 3)] =
      [("1", .num 3), ("2", .num 2), ("b", .num 1)] ∧
    buildTomlString (.obj (objectEntries [("b", .num 1), ("2", .num 2), ("1", .num 3)])) =
      .ok "1 = 3\n2 = 2\nb = 1\n" ∧
    buildTomlString (.obj (objectEntries [("b", .num 1), ("2", .num 2), ("1", .num 3)])) ≠
      .ok "b = 1\n2 = 2\n1 = 3\n" := by
  refine ⟨rfl, rfl, ?_⟩
  intro h
  have h2 : buildTomlString (.obj (objectEntries [("b", .num 1), ("2", .num 2), ("1", .num 3)])) =
      .ok "1 = 3\n2 = 2\nb = 1\n" := rfl
  rw [h2] at h
  injection h with h
  revert h
  decide

/-- Claim C1, amended: the serializer emits the texts of the top-level entries
in the order of `Object.entries`: for a document whose properties were created
in a given order (its numbers safe integers), first the entries whose key is an
array index, in ascending order of the index, then the other entries in the
order of their creation. The output is the trimmed concatenation, in that
order, of the text of each entry, plus a newline; when no key is an array
index, the order is the order of insertion. In particular
`{ a: "x", b: [1,2,3], c: { d: true } }` gives `a = "x"`, `b = [1, 2, 3]`, the
header `[c]` and `d = true`, in that order. -/
theorem buildTomlString_entries_in_order (created : List (String × JsValue))
    (_hs : safeEntries created = true) :
    buildTomlString (.obj (objectEntries created)) =
      .ok (jsTrim (String.join ((objectEntries created).map fun e => entryText e.1 e.2)) ++
        "\n") ∧
    objectEntries created =
      (indexedProperties created).map Prod.snd ++
        created.filter (fun e => (arrayIndex e.1).isNone) ∧
    ((indexedProperties created).map Prod.fst).Sorted (· ≤ ·) ∧
    (∀ x ∈ indexedProperties created, arrayIndex x.2.1 = some x.1) ∧
    ((indexedProperties created).map Prod.snd).Perm
      (created.filter fun e => (arrayIndex e.1).isSome) ∧
    ((∀ e ∈ created, arrayIndex e.1 = none) →
      objectEntries created = created ∧
      buildTomlString (.obj (objectEntries created)) =
        .ok (jsTrim (String.join (created.map fun e => entryText e.1 e.2)) ++ "\n")) ∧
    buildTomlString (.obj (objectEntries [("a", .str "x"), ("b", .arr [.num 1, .num 2, .num 3]),
        ("c", .obj [("d", .bool true)])])) =
      .ok "a = \"x\"\nb = [1, 2, 3]\n\n[c]\nd = true\n" := by
  have h1 : ∀ entries : List (String × JsValue), buildTomlString (.obj entries) =
      .ok (jsTrim (String.join (entries.map fun e => entryText e.1 e.2)) ++ "\n") :=
    fun entries => by simp only [buildTomlString, serialize_obj, entriesText]
  refine ⟨h1 _, rfl, indexedProperties_sorted created, indexedProperties_index created,
    indexedProperties_perm created, ?_, rfl⟩
  intro hn
  have he : objectEntries created = created := ownPropertyOrder_of_no_index created hn
  exact ⟨he, by rw [he]; exact h1 created⟩

/-- Claim C1, amended, at the document `{ b: 1, a: "x", 0: true }`: the entry
`0` comes first, then `b` and `a` as inserted. -/
theorem buildTomlString_entries_in_order_witness :
    safeEntries [("b", .num 1), ("a", .str "x"), ("0", .bool true)] = true ∧
    buildTomlString (.obj (objectEntries [("b", .num 1), ("a", .str "x"), ("0", .bool true)])) =
      .ok (jsTrim (String.join
        ((objectEntries [("b", .num 1), ("a", .str "x"), ("0", .bool true)]).map
          fun e => entryText e.1 e.2)) ++ "\n") ∧
    objectEntries [("b", .num 1), ("a", .str "x"), ("0", .bool true)] =
      [("0", .bool true), ("b", .num 1), ("a", .str "x")] :=
  ⟨by decide,
   (buildTomlString_entries_in_order [("b", .num 1), ("a", .str "x"), ("0", .bool true)]
    (by decide)).1, rfl⟩

/-! ## The generated archive and its copy on disk -/

theorem generateEntries_mem_iff (files : ZipFiles) (archive : List (String × ArchiveEntry))
    (h : generateEntries files = .ok archive) (p s : String) :
    (p, ArchiveEntry.file s) ∈ archive ↔ (p, ZipObject.file (.ok s)) ∈ files := by
  induction files generalizing archive with
  | nil =>
    simp only [generateEntries, pure, Except.pure, Except.ok.injEq] at h
    subst h
    simp
  | cons e rest ih =>
    obtain ⟨n, o⟩ := e
    cases o with
    | dir =>
      simp only [generateEntries, bind, Except.bind, pure, Except.pure] at h
      split at h
      · exact absurd h (by simp)
      · rename_i entries he
        simp only [Except.ok.injEq] at h
        subst h
        simp [ih entries he]
    | file content =>
      simp only [generateEntries, bind, Except.bind, pure, Except.pure] at h
      split at h
      · exact absurd h (by simp)
      · rename_i data hc
        split at h
        · exact absurd h (by simp)
        · rename_i entries he
          simp only [Except.ok.injEq] at h
          subst h
          simp only [List.mem_cons, Prod.mk.injEq, ArchiveEntry.file.injEq,
            ZipObject.file.injEq, Except.ok.injEq, ih entries he]

/-- The names of a generated archive are those of the table, as enumerated,
without the empty name. -/
theorem generateAsync_names (files : ZipFiles) (archive : List (String × ArchiveEntry))
    (h : generateAsync files = .ok archive) :
    archive.map Prod.fst = ((ownPropertyOrder files).map Prod.fst).filter truthy := by
  unfold generateAsync at h
  rw [(generateEntries_entries _ _ h).1, List.filter_map]
  rfl

theorem generateAsync_count (files : ZipFiles) (archive : List (String × ArchiveEntry))
    (h : generateAsync files = .ok archive) (p : String) :
    (archive.map Prod.fst).count p = if p = "" then 0 else (files.map Prod.fst).count p := by
  rw [generateAsync_names files archive h]
  by_cases hp : p = ""
  · subst hp
    simp only [if_true]
    rw [List.count_eq_zero]
    intro hm
    have := (List.mem_filter.mp hm).2
    exact absurd this (by decide)
  · simp only [hp, if_false]
    rw [List.count_filter (by simp [truthy, hp])]
    exact ((ownPropertyOrder_perm files).map Prod.fst).count_eq p

theorem generateAsync_mem_iff (files : ZipFiles) (archive : List (String × ArchiveEntry))
    (h : generateAsync files = .ok archive) (p s : String) :
    (p, ArchiveEntry.file s) ∈ archive ↔ p ≠ "" ∧ (p, ZipObject.file (.ok s)) ∈ files := by
  unfold generateAsync at h
  rw [generateEntries_mem_iff _ _ h, List.mem_filter, (ownPropertyOrder_perm files).mem_iff]
  simp [truthy, and_comm]

theorem generateAsync_resolved (files : ZipFiles) (hf : Resolved files) :
    ∃ archive, generateAsync files = .ok archive := by
  unfold generateAsync
  apply generateEntries_resolved
  intro e he
  exact hf e ((ownPropertyOrder_perm files).subset (List.mem_of_mem_filter he))

theorem generateProjectZip_eq (writeFileSync : WriteFileSync) (config : Answers)
    (forest : List TreeNode) :
    generateProjectZip writeFileSync config forest =
      match generateAsync (zipFiles config forest) with
      | .ok archive => afterWrite writeFileSync (config.project_name ++ ".zip") archive
      | .error e => .error e := by
  unfold generateProjectZip afterWrite
  cases generateAsync (zipFiles config forest) with
  | error e => rfl
  | ok archive =>
    simp only [bind, Except.bind, pure, Except.pure]
    cases writeFileSync (config.project_name ++ ".zip") archive <;> rfl

theorem mem_iff_fileAt (files : ZipFiles) (hk : (files.map Prod.fst).Nodup) (p : String)
    (c : Promise String) : (p, ZipObject.file c) ∈ files ↔ fileAt files p = some c := by
  constructor
  · intro hm
    induction files with
    | nil => simp at hm
    | cons e rest ih =>
      obtain ⟨n, o⟩ := e
      simp only [List.map_cons, List.nodup_cons] at hk
      simp only [List.mem_cons, Prod.mk.injEq] at hm
      rcases hm with ⟨h1, h2⟩ | hm
      · subst h1 h2
        simp [fileAt, zipGet]
      · have hne : n ≠ p := by
          intro e
          subst e
          exact hk.1 (List.mem_map.mpr ⟨_, hm, rfl⟩)
        have := ih hk.2 hm
        simpa [fileAt, zipGet, hne] using this
  · exact fileAt_mem files p c

theorem nodup_zipFiles (config : Answers) (forest : List TreeNode) :
    ((zipFiles config forest).map Prod.fst).Nodup := by
  unfold zipFiles
  exact nodup_addChildren _ _ _ (nodup_zipFolder _ _ _ (by simp))

theorem fileAt_zipFiles (config : Answers) (forest : List TreeNode) (p : String) :
    fileAt (zipFiles config forest) p =
      lastWrite p none (childrenFileEntries (folderRoot "" config.project_name) forest) := by
  unfold zipFiles
  simp only []
  rw [fileAt_addChildren, zipFolder_root, fileAt_zipFolder]
  rfl

theorem resolved_zipFiles (config : Answers) (forest : List TreeNode)
    (h : ∀ e ∈ childrenFileEntries (folderRoot "" config.project_name) forest,
      ∃ s, e.2 = .ok s) : Resolved (zipFiles config forest) := by
  unfold zipFiles
  apply resolved_addChildren _ _ _ (resolved_zipFolder _ _ _ (by intro e he; simp at he))
  rw [zipFolder_root]
  exact h

/-- Claim C14, refuted as stated: with distinct sibling paths and a non-empty
folder, the file node `a/b` of the root and the file node `b` of the folder `a`
reach the same archive path, and the archive holds one file entry for the two,
with the data of the second. For the empty project name the archive of the
empty forest holds no entry at all, and for the project name `a/b` it holds two
folders; for that name the copy `a/b.zip` cannot be written to a working
directory without the folder `a`, and `generateProjectZip` is rejected. -/
theorem zipFiles_colliding_paths :
    "a/b" ≠ "a" ∧
    zipFiles { project_name := "P", project_group := "com.example", project_id := "demo" }
        [.file "a/b" (.ok "one"), .folder "a" [.file "b" (.ok "two")]] =
      [("P/", .dir), ("P/a/", .dir), ("P/a/b", .file (.ok "two"))] ∧
    generateProjectZip flatDirectory
        { project_name := "P", project_group := "com.example", project_id := "demo" }
        [.file "a/b" (.ok "one"), .folder "a" [.file "b" (.ok "two")]] =
      .ok [("P/", .dir), ("P/a/", .dir), ("P/a/b", .file "two")] ∧
    zipFiles { project_name := "", project_group := "com.example", project_id := "demo" } [] =
      [] ∧
    generateProjectZip flatDirectory
        { project_name := "", project_group := "com.example", project_id := "demo" } [] =
      .ok [] ∧
    zipFiles { project_name := "a/b", project_group := "com.example", project_id := "demo" } [] =
      [("a/", .dir), ("a/b/", .dir)] ∧
    generateProjectZip flatDirectory
        { project_name := "a/b", project_group := "com.example", project_id := "demo" } [] =
      .error ⟨"ENOENT: no such file or directory"⟩ :=
  ⟨by decide, rfl, rfl, rfl, rfl, rfl, rfl⟩

/-- Claim C14, amended: when the file nodes of a forest reach pairwise distinct
archive paths, the table of the archive holds a file entry for exactly the file
nodes of the forest, each at the root of its enclosing folders (the project
name and the paths of the enclosing folder nodes from outermost to innermost,
each closed by a `/`) followed by its own path, and holding its content. The
archive generated from the table has these file entries (but for an entry with
the empty name), and is generated whenever the contents are resolved;
`generateProjectZip` resolves with it once its copy is written to
`<project_name>.zip`, and is rejected with the error of the write otherwise.
For a non-empty project name without `/` the archive of the empty forest holds
only the root folder named after the project. -/
theorem zipFiles_file_entries (config : Answers) (forest : List TreeNode)
    (hd : ((childrenFileEntries (folderRoot "" config.project_name) forest).map
      Prod.fst).Nodup) :
    (∀ p c, fileAt (zipFiles config forest) p = some c ↔
      (p, c) ∈ childrenFileEntries (folderRoot "" config.project_name) forest) ∧
    (∀ archive, generateAsync (zipFiles config forest) = .ok archive →
      ∀ p s, (p, ArchiveEntry.file s) ∈ archive ↔
        p ≠ "" ∧ (p, Except.ok s) ∈
          childrenFileEntries (folderRoot "" config.project_name) forest) ∧
    ((∀ e ∈ childrenFileEntries (folderRoot "" config.project_name) forest,
        ∃ s, e.2 = .ok s) →
      ∃ archive, generateAsync (zipFiles config forest) = .ok archive) ∧
    (∀ writeFileSync : WriteFileSync,
      generateProjectZip writeFileSync config forest =
        match generateAsync (zipFiles config forest) with
        | .ok archive => afterWrite writeFileSync (config.project_name ++ ".zip") archive
        | .error e => .error e) ∧
    (config.project_name ≠ "" → '/' ∉ config.project_name.data →
      zipFiles config [] = [(config.project_name ++ "/", .dir)] ∧
      generateAsync (zipFiles config []) = .ok [(config.project_name ++ "/", .dir)]) := by
  have htable : ∀ p c, fileAt (zipFiles config forest) p = some c ↔
      (p, c) ∈ childrenFileEntries (folderRoot "" config.project_name) forest := by
    intro p c
    rw [fileAt_zipFiles, lastWrite_nodup p c none _ hd]
    simp
  refine ⟨htable, ?_, fun hres => generateAsync_resolved _ (resolved_zipFiles config forest hres),
    fun w => generateProjectZip_eq w config forest, ?_⟩
  · intro archive ha p s
    rw [generateAsync_mem_iff _ _ ha, mem_iff_fileAt _ (nodup_zipFiles config forest), htable]
  · intro hne hslash
    have hz := zipFiles_empty_forest config hne hslash
    refine ⟨hz, ?_⟩
    rw [hz]
    have hidx : arrayIndex (config.project_name ++ "/") = none :=
      arrayIndex_of_not_digit _ '/' (by simp [String.data_append]) (by decide)
    have ho : ownPropertyOrder [(config.project_name ++ "/", ZipObject.dir)] =
        [(config.project_name ++ "/", ZipObject.dir)] :=
      ownPropertyOrder_of_no_index _ (by simpa using hidx)
    have ht : truthy (config.project_name ++ "/") = true := by
      rw [truthy_iff]; simp [String.data_append]
    unfold generateAsync
    rw [ho]
    simp [List.filter, ht, generateEntries, bind, Except.bind, pure, Except.pure]

/-- Claim C14, amended, at the forest of the file `a.txt` and of the folder `d`
with the file `b.txt` and the empty folder `e`, for the project `P`. -/
theorem zipFiles_file_entries_witness :
    ((childrenFileEntries (folderRoot "" "P")
        [.file "a.txt" (.ok "x"), .folder "d" [.file "b.txt" (.ok "y"), .folder "e" []]]).map
      Prod.fst).Nodup ∧
    (fileAt (zipFiles { project_name := "P", project_group := "g", project_id := "i" }
        [.file "a.txt" (.ok "x"), .folder "d" [.file "b.txt" (.ok "y"), .folder "e" []]])
        "P/d/b.txt" = some (.ok "y") ↔
      ("P/d/b.txt", Except.ok "y") ∈ childrenFileEntries (folderRoot "" "P")
        [.file "a.txt" (.ok "x"), .folder "d" [.file "b.txt" (.ok "y"), .folder "e" []]]) ∧
    generateProjectZip flatDirectory { project_name := "P", project_group := "g", project_id := "i" }
        [.file "a.txt" (.ok "x"), .folder "d" [.file "b.txt" (.ok "y"), .folder "e" []]] =
      .ok [("P/", .dir), ("P/a.txt", .file "x"), ("P/d/", .dir), ("P/d/b.txt", .file "y"),
        ("P/d/e/", .dir)] :=
  ⟨by decide,
    (zipFiles_file_entries { project_name := "P", project_group := "g", project_id := "i" }
      [.file "a.txt" (.ok "x"), .folder "d" [.file "b.txt" (.ok "y"), .folder "e" []]]
      (by decide)).1 "P/d/b.txt" (.ok "y"), rfl⟩

/-- Claim C15: a node that is neither a folder nor a file, at any depth, is
skipped: adding it throws nothing and leaves the table unchanged, so that the
forest and the forest without the node give the same table, the same archive
and, whatever the file system does, the same outcome of `generateProjectZip`.
With resolved contents the archive is generated, and the outcome of the run is
that of writing its copy to disk. -/
theorem generateProjectZip_skips_invalid (config : Answers) {forest forest' : List TreeNode}
    (h : RemovesInvalid forest forest') :
    (∀ files root path, addFileOrFolder files root (.invalid path) = files) ∧
    zipFiles config forest = zipFiles config forest' ∧
    generateAsync (zipFiles config forest) = generateAsync (zipFiles config forest') ∧
    (∀ writeFileSync : WriteFileSync,
      generateProjectZip writeFileSync config forest =
        generateProjectZip writeFileSync config forest') ∧
    ((∀ e ∈ childrenFileEntries (folderRoot "" config.project_name) forest',
        ∃ s, e.2 = .ok s) →
      ∃ archive, generateAsync (zipFiles config forest) = .ok archive ∧
        ∀ writeFileSync : WriteFileSync,
          generateProjectZip writeFileSync config forest =
            afterWrite writeFileSync (config.project_name ++ ".zip") archive) := by
  have hz : zipFiles config forest = zipFiles config forest' := by
    unfold zipFiles
    exact addChildren_removesInvalid h _ _
  refine ⟨fun _ _ _ => by simp [addFileOrFolder], hz, by rw [hz],
    fun w => by simp [generateProjectZip, hz], ?_⟩
  intro hres
  obtain ⟨archive, ha⟩ := generateAsync_resolved _ (resolved_zipFiles config forest' hres)
  rw [← hz] at ha
  refine ⟨archive, ha, fun w => ?_⟩
  rw [generateProjectZip_eq, ha]

/-- Claim C15, at the forest of the file `a.txt` and of the folder `d` with the
file `b.txt` and an invalid node. -/
theorem generateProjectZip_skips_invalid_witness :
    RemovesInvalid
      [.file "a.txt" (.ok "x"), .folder "d" [.file "b.txt" (.ok "y"), .invalid "c"]]
      [.file "a.txt" (.ok "x"), .folder "d" [.file "b.txt" (.ok "y")]] ∧
    generateAsync (zipFiles { project_name := "P", project_group := "g", project_id := "i" }
        [.file "a.txt" (.ok "x"), .folder "d" [.file "b.txt" (.ok "y"), .invalid "c"]]) =
      generateAsync (zipFiles { project_name := "P", project_group := "g", project_id := "i" }
        [.file "a.txt" (.ok "x"), .folder "d" [.file "b.txt" (.ok "y")]]) ∧
    generateProjectZip flatDirectory
        { project_name := "P", project_group := "g", project_id := "i" }
        [.file "a.txt" (.ok "x"), .folder "d" [.file "b.txt" (.ok "y"), .invalid "c"]] =
      .ok [("P/", .dir), ("P/a.txt", .file "x"), ("P/d/", .dir), ("P/d/b.txt", .file "y")] :=
  ⟨.later _ (.inside "d" [] (.later _ (.here "c" []))),
    (generateProjectZip_skips_invalid
      { project_name := "P", project_group := "g", project_id := "i" }
      (.later _ (.inside "d" [] (.later _ (.here "c" []))))).2.2.1, rfl⟩

/-- Claim C22, refuted as stated: the content kept at the path of two file nodes
with the same path is not always that of the later one. Among the children
`a/b` (content `1`), `a/b` (content `2`) and the folder `a` with the file `b`
(content `3`), exactly the first two have the same path, and the entry `P/a/b`
holds `3`: the file of the folder reaches the same archive path afterwards. -/
theorem zipFiles_later_folder_overwrites :
    "a/b" ≠ "a" ∧
    zipFiles { project_name := "P", project_group := "g", project_id := "i" }
        [.file "a/b" (.ok "1"), .file "a/b" (.ok "2"), .folder "a" [.file "b" (.ok "3")]] =
      [("P/", .dir), ("P/a/", .dir), ("P/a/b", .file (.ok "3"))] ∧
    fileAt (zipFiles { project_name := "P", project_group := "g", project_id := "i" }
        [.file "a/b" (.ok "1"), .file "a/b" (.ok "2"), .folder "a" [.file "b" (.ok "3")]])
      "P/a/b" ≠ some (.ok "2") ∧
    generateProjectZip flatDirectory
        { project_name := "P", project_group := "g", project_id := "i" }
        [.file "a/b" (.ok "1"), .file "a/b" (.ok "2"), .folder "a" [.file "b" (.ok "3")]] =
      .ok [("P/", .dir), ("P/a/", .dir), ("P/a/b", .file "3")] := by
  refine ⟨by decide, rfl, ?_, rfl⟩
  have h : fileAt (zipFiles { project_name := "P", project_group := "g", project_id := "i" }
        [.file "a/b" (.ok "1"), .file "a/b" (.ok "2"), .folder "a" [.file "b" (.ok "3")]])
      "P/a/b" = some (.ok "3") := rfl
  rw [h]
  intro he
  injection he with he
  injection he with he
  revert he
  decide

/-- Claim C22, amended: two file nodes with the same path among the children of
one folder raise no error, and the last write wins. In the table of any folder,
and in the table of a forest whose top level holds the two nodes, there is a
single entry at their archive path; it holds the content last written there,
which is that of the later node unless a node after it reaches the same archive
path. When the contents of the forest are resolved the archive is generated,
with a single entry at that path (none when the path is empty) holding that
content, and the outcome of `generateProjectZip` is that of writing its copy to
disk. -/
theorem generateProjectZip_duplicate_siblings (config : Answers) (path : String)
    (first later : Promise String) (before between after : List TreeNode) :
    (∀ (files : ZipFiles) (root : String), (files.map Prod.fst).Nodup →
      fileAt (addChildren files root
          (duplicateSiblings path first later before between after)) (root ++ path)
        = lastWrite (root ++ path) (some later) (childrenFileEntries root after) ∧
      ((addChildren files root
          (duplicateSiblings path first later before between after)).map Prod.fst).count
        (root ++ path) = 1 ∧
      (root ++ path ∉ (childrenFileEntries root after).map Prod.fst →
        fileAt (addChildren files root
          (duplicateSiblings path first later before between after)) (root ++ path)
        = some later)) ∧
    fileAt (zipFiles config (duplicateSiblings path first later before between after))
        (folderRoot "" config.project_name ++ path) =
      lastWrite (folderRoot "" config.project_name ++ path) (some later)
        (childrenFileEntries (folderRoot "" config.project_name) after) ∧
    ((zipFiles config (duplicateSiblings path first later before between after)).map
        Prod.fst).count (folderRoot "" config.project_name ++ path) = 1 ∧
    (folderRoot "" config.project_name ++ path ∉
        (childrenFileEntries (folderRoot "" config.project_name) after).map Prod.fst →
      fileAt (zipFiles config (duplicateSiblings path first later before between after))
          (folderRoot "" config.project_name ++ path) = some later) ∧
    ((∀ e ∈ childrenFileEntries (folderRoot "" config.project_name)
          (duplicateSiblings path first later before between after), ∃ s, e.2 = .ok s) →
      ∃ archive,
        generateAsync (zipFiles config (duplicateSiblings path first later before between after))
          = .ok archive ∧
        (archive.map Prod.fst).count (folderRoot "" config.project_name ++ path) =
          (if folderRoot "" config.project_name ++ path = "" then 0 else 1) ∧
        (∀ data, (folderRoot "" config.project_name ++ path, ArchiveEntry.file data) ∈ archive ↔
          folderRoot "" config.project_name ++ path ≠ "" ∧
          lastWrite (folderRoot "" config.project_name ++ path) (some later)
            (childrenFileEntries (folderRoot "" config.project_name) after) =
              some (.ok data)) ∧
        ∀ writeFileSync : WriteFileSync,
          generateProjectZip writeFileSync config
              (duplicateSiblings path first later before between after) =
            afterWrite writeFileSync (config.project_name ++ ".zip") archive) := by
  have hgen : ∀ (files : ZipFiles) (root : String), (files.map Prod.fst).Nodup →
      fileAt (addChildren files root
          (duplicateSiblings path first later before between after)) (root ++ path)
        = lastWrite (root ++ path) (some later) (childrenFileEntries root after) ∧
      ((addChildren files root
          (duplicateSiblings path first later before between after)).map Prod.fst).count
        (root ++ path) = 1 ∧
      (root ++ path ∉ (childrenFileEntries root after).map Prod.fst →
        fileAt (addChildren files root
          (duplicateSiblings path first later before between after)) (root ++ path)
        = some later) := by
    intro files root hk
    have hd := addChildren_duplicate files root path first later before between after hk
    refine ⟨hd.1, hd.2, fun ha => ?_⟩
    have h := hd.1
    rw [lastWrite_not_mem _ _ _ ha] at h
    exact h
  have hroot : (zipFolder [] "" config.project_name).2 = folderRoot "" config.project_name :=
    zipFolder_root _ _ _
  have hz : zipFiles config (duplicateSiblings path first later before between after)
      = addChildren (zipFolder [] "" config.project_name).1
          (folderRoot "" config.project_name)
          (duplicateSiblings path first later before between after) := by
    unfold zipFiles
    simp only [hroot]
  have hd := hgen (zipFolder [] "" config.project_name).1
    (folderRoot "" config.project_name) (nodup_zipFolder _ _ _ (by simp))
  rw [← hz] at hd
  refine ⟨hgen, hd.1, hd.2.1, hd.2.2, ?_⟩
  intro hres
  obtain ⟨archive, ha⟩ := generateAsync_resolved _ (resolved_zipFiles config _ hres)
  refine ⟨archive, ha, ?_, ?_, fun w => ?_⟩
  · rw [generateAsync_count _ _ ha, hd.2.1]
  · intro data
    rw [generateAsync_mem_iff _ _ ha, mem_iff_fileAt _ (nodup_zipFiles config _), hd.1]
  · rw [generateProjectZip_eq, ha]

/-- Claim C22, amended, at the forest of the files `a` (content `1`), `b` and
`a` (content `2`) of the project `P`: the entry `P/a` holds `2`. -/
theorem generateProjectZip_duplicate_siblings_witness :
    fileAt (zipFiles { project_name := "P", project_group := "g", project_id := "i" }
        (duplicateSiblings "a" (.ok "1") (.ok "2") [] [.file "b" (.ok "x")] []))
      "P/a" = some (.ok "2") ∧
    generateProjectZip flatDirectory
        { project_name := "P", project_group := "g", project_id := "i" }
        [.file "a" (.ok "1"), .file "b" (.ok "x"), .file "a" (.ok "2")]
      = .ok [("P/", .dir), ("P/a", .file "2"), ("P/b", .file "x")] :=
  ⟨(generateProjectZip_duplicate_siblings
      { project_name := "P", project_group := "g", project_id := "i" } "a" (.ok "1") (.ok "2")
      [] [.file "b" (.ok "x")] []).2.2.2.1 (by decide), rfl⟩

end ProjectCreator
